import Mathlib

/-!
Verification development for the multi-source anomaly-detection pipeline
(`backend/` of the `aws-anomaly-detection` repository).

Python floats are modelled as exact rationals (`ℚ`); the handful of
irrational float primitives the code relies on (`np.exp`, `np.std`'s
square root, `scipy.stats.pearsonr`/`spearmanr`) and the decimal string
formatting of floats are modelled as components of an explicit `Prims`
record that is threaded through the embedding: a fixed `Prims` value
corresponds to one fixed floating-point implementation.  Python `datetime`
values are modelled by a `DateTime` record of calendar components compared
lexicographically, exactly as Python compares `datetime` objects.
Python dicts that the code uses as records are modelled as Lean structures
whose optional keys are `Option` fields; dicts used as insertion-ordered
maps are modelled as association lists that preserve insertion order.
-/

namespace AnomalyDetection

/-- Calendar timestamp, mirroring Python `datetime` (microseconds are not
needed by any claim and are omitted).  Comparison of Python `datetime`
values is lexicographic on the components. -/
structure DateTime where
  year : Nat
  month : Nat
  day : Nat
  hour : Nat
  minute : Nat
  second : Nat
deriving DecidableEq, Repr

/-- Lexicographic key of a `DateTime`, used to compare timestamps the way
Python compares `datetime` values. -/
def DateTime.key (d : DateTime) : ℕ ×ₗ (ℕ ×ₗ (ℕ ×ₗ (ℕ ×ₗ (ℕ ×ₗ ℕ)))) :=
  toLex (d.year, toLex (d.month, toLex (d.day, toLex (d.hour, toLex (d.minute, d.second)))))

/-- Timestamp order (`dt1 <= dt2` in Python). -/
def DateTime.le (a b : DateTime) : Prop := a.key ≤ b.key

/-- Strict timestamp order (`dt1 < dt2` in Python). -/
def DateTime.lt (a b : DateTime) : Prop := a.key < b.key

instance (a b : DateTime) : Decidable (a.le b) := by unfold DateTime.le; infer_instance

instance (a b : DateTime) : Decidable (a.lt b) := by unfold DateTime.lt; infer_instance

/-- Boolean timestamp comparison used for sorting by timestamp. -/
def DateTime.leb (a b : DateTime) : Bool := decide (a.le b)

/-- Minimum of a list of timestamps with a seed, mirroring Python
`min(iterable)` applied to `seed` and the list elements. -/
def dtMin (seed : DateTime) (l : List DateTime) : DateTime :=
  l.foldl (fun acc d => if d.lt acc then d else acc) seed

/-- Timestamp truncated to the minute: Python
`ts.replace(second=0, microsecond=0)`. -/
def DateTime.truncMinute (d : DateTime) : DateTime := { d with second := 0 }

/-- Left-pad a decimal representation with zeros to the given width,
mirroring `strftime` zero padding. -/
def padNat (width n : Nat) : String :=
  let s := toString n
  String.mk (List.replicate (width - s.length) '0') ++ s

/-- Python `ts.strftime("%Y%m%d_%H%M%S")` as used by
`CoordinatorAgent._generate_anomaly_id`. -/
def DateTime.strftimeId (d : DateTime) : String :=
  padNat 4 d.year ++ padNat 2 d.month ++ padNat 2 d.day ++ "_" ++
    padNat 2 d.hour ++ padNat 2 d.minute ++ padNat 2 d.second

/-- Python `ts.strftime("%Y-%m-%d %H:%M")` as used by the correlation
agent's simultaneous-anomaly explanation. -/
def DateTime.strftimeMinute (d : DateTime) : String :=
  padNat 4 d.year ++ "-" ++ padNat 2 d.month ++ "-" ++ padNat 2 d.day ++ " " ++
    padNat 2 d.hour ++ ":" ++ padNat 2 d.minute

/-- English month name for `strftime("%B")`. -/
def monthName (m : Nat) : String :=
  match m with
  | 1 => "January" | 2 => "February" | 3 => "March" | 4 => "April"
  | 5 => "May" | 6 => "June" | 7 => "July" | 8 => "August"
  | 9 => "September" | 10 => "October" | 11 => "November" | 12 => "December"
  | _ => "Unknown"

/-- Python `ts.strftime("%B %d, %Y at %I:%M %p")` as used by the
narrative generator's opening sentence. -/
def DateTime.strftimeNarrative (d : DateTime) : String :=
  let h12 := if d.hour % 12 = 0 then 12 else d.hour % 12
  let ampm := if d.hour < 12 then "AM" else "PM"
  monthName d.month ++ " " ++ padNat 2 d.day ++ ", " ++ padNat 4 d.year ++
    " at " ++ padNat 2 h12 ++ ":" ++ padNat 2 d.minute ++ " " ++ ampm

/-- Python `ts.strftime("%H:%M:%S")` (narrative timeline). -/
def DateTime.strftimeHMS (d : DateTime) : String :=
  padNat 2 d.hour ++ ":" ++ padNat 2 d.minute ++ ":" ++ padNat 2 d.second

/-- Heterogeneous Python value, for dict entries that hold either a float,
a string, or `None` (e.g. the `value` field of a correlation anomaly). -/
inductive PyVal where
  | num (q : ℚ)
  | str (s : String)
deriving DecidableEq, Repr

/-- Irrational / platform float primitives and float string formatting,
abstracted as an explicit record.  A fixed `Prims` value models one fixed
floating-point environment; the embedding never fixes them, so theorems
hold for every float implementation. -/
structure Prims where
  /-- Model of `np.exp`. -/
  expQ : ℚ → ℚ
  /-- Model of the square root inside `np.std` and of `r_value` of
  `scipy.stats.linregress`; applied to the (exact) variance. -/
  sqrtQ : ℚ → ℚ
  /-- Model of `scipy.stats.pearsonr`, returning `(corr, p_value)`;
  `none` models the call raising an exception. -/
  pearsonF : List ℚ → List ℚ → Option (ℚ × ℚ)
  /-- Model of `scipy.stats.spearmanr`. -/
  spearmanF : List ℚ → List ℚ → Option (ℚ × ℚ)
  /-- Model of Python float formatting `f"{x:.1f}"`. -/
  fmt1 : ℚ → String
  /-- Model of Python float formatting `f"{x:.2f}"`. -/
  fmt2 : ℚ → String
  /-- Model of Python float formatting `f"{x:.4f}"`. -/
  fmt4 : ℚ → String
  /-- Model of Python float formatting `f"{x:.2%}"`. -/
  fmtPct2 : ℚ → String

/-- Trivial instantiation of the float primitives, used to evaluate the
embedding at concrete counterexample inputs (any instantiation would do). -/
def trivPrims : Prims where
  expQ := fun _ => 0
  sqrtQ := fun _ => 0
  pearsonF := fun _ _ => none
  spearmanF := fun _ _ => none
  fmt1 := fun _ => ""
  fmt2 := fun _ => ""
  fmt4 := fun _ => ""
  fmtPct2 := fun _ => ""

/-- Python `np.mean` on a nonempty list (exact). -/
def pyMean (l : List ℚ) : ℚ := l.sum / (l.length : ℚ)

/-- Python `np.var` (population variance, exact). -/
def pyVar (l : List ℚ) : ℚ := pyMean (l.map (fun x => (x - pyMean l) ^ 2))

/-- Python `np.std` = square root of the population variance; the square
root itself is a float primitive. -/
def pyStd (p : Prims) (l : List ℚ) : ℚ := p.sqrtQ (pyVar l)

/-- Python `sorted` on rationals. -/
def pySortQ (l : List ℚ) : List ℚ := l.mergeSort (fun a b => decide (a ≤ b))

/-- Python `np.median` (exact): middle element of the sorted list, or the
mean of the two middle elements. -/
def pyMedian (l : List ℚ) : ℚ :=
  let s := pySortQ l
  let n := s.length
  if n % 2 = 1 then s.getD (n / 2) 0
  else (s.getD (n / 2 - 1) 0 + s.getD (n / 2) 0) / 2

/-- Python `np.percentile(arr, q)` with linear interpolation (exact). -/
def pyPercentile (l : List ℚ) (q : ℚ) : ℚ :=
  let s := pySortQ l
  let n := s.length
  let pos : ℚ := (n - 1 : ℚ) * q / 100
  let lo : ℕ := pos.floor.toNat
  let frac : ℚ := pos - (lo : ℚ)
  s.getD lo 0 + frac * (s.getD (lo + 1) (s.getD lo 0) - s.getD lo 0)

/-- Embedding of `backend/utils/helpers.py::calculate_confidence`:
sigmoid-scaled confidence, clipped to `[0,1]`. -/
def calculate_confidence (p : Prims) (deviation threshold : ℚ) (scale : ℚ) : ℚ :=
  if threshold = 0 then (if deviation > 0 then 1 else 0)
  else
    let ratio := deviation / threshold
    let confidence := 1 / (1 + p.expQ (-(scale * (ratio - 1))))
    min (max confidence 0) 1

/-- Embedding of `backend/utils/helpers.py::weighted_average`. -/
def weighted_average (values weights : List ℚ) : ℚ :=
  if values = [] ∨ weights = [] ∨ values.length ≠ weights.length then 0
  else
    let total_weight := weights.sum
    if total_weight = 0 then 0
    else ((values.zip weights).map (fun vw => vw.1 * vw.2)).sum / total_weight

/-- Severity label from a (capped) severity score, mirroring the final
`if/elif` chain of `calculate_severity`. -/
def severityLabel (score : ℚ) : String :=
  if score ≥ 9/10 then "critical"
  else if score ≥ 3/4 then "high"
  else if score ≥ 1/2 then "medium"
  else "low"

/-- Embedding of `backend/utils/helpers.py::calculate_severity`. -/
def calculate_severity (confidence deviation_magnitude : ℚ) (impact_scope : ℤ)
    (is_novel : Bool := false) : String × ℚ :=
  let score := confidence * (4/10)
  let score := score + min (deviation_magnitude / 10) 1 * (3/10)
  let score := score + min ((impact_scope : ℚ) / 5) 1 * (2/10)
  let score := if is_novel then score + 1/10 else score
  let score := min score 1
  (severityLabel score, score)

/-- Gregorian leap-year rule (Python `calendar`/`datetime`). -/
def isLeap (y : Nat) : Bool := y % 4 = 0 && (y % 100 ≠ 0 || y % 400 = 0)

/-- Days in the months strictly before month `m` of a non-leap year. -/
def daysBeforeMonth (m : Nat) : Nat :=
  [0, 0, 31, 59, 90, 120, 151, 181, 212, 243, 273, 304, 334].getD m 334

/-- Python `datetime.toordinal()`: day number of the proleptic Gregorian
calendar (day 1 = January 1 of year 1). -/
def DateTime.toOrdinal (d : DateTime) : Nat :=
  let y := d.year - 1
  365 * y + y / 4 - y / 100 + y / 400 +
    daysBeforeMonth d.month + (if isLeap d.year && d.month > 2 then 1 else 0) + d.day

/-- Total seconds of a `DateTime` since the calendar origin; differences of
this quantity model Python `(dt1 - dt2).total_seconds()`. -/
def DateTime.toSeconds (d : DateTime) : ℤ :=
  (d.toOrdinal : ℤ) * 86400 + d.hour * 3600 + d.minute * 60 + d.second

/-- Python `(a - b).total_seconds()` for datetimes. -/
def diffSeconds (a b : DateTime) : ℚ := ((a.toSeconds - b.toSeconds : ℤ) : ℚ)

/-- Append `v` to the bucket of key `k` of an insertion-ordered association
list of buckets, creating the bucket at the end if the key is new.  This is
the `if key not in groups: groups[key] = []; groups[key].append(x)` idiom. -/
def upsertWith {κ β : Type} [DecidableEq κ] (k : κ) (v : β) :
    List (κ × List β) → List (κ × List β)
  | [] => [(k, [v])]
  | (k', vs) :: rest =>
    if k' = k then (k', vs ++ [v]) :: rest else (k', vs) :: upsertWith k v rest

/-- Model of Python `list(set(xs))`: the set-iteration order is
hash-dependent but fixed within one process; it is modelled as the order of
first occurrence. -/
def pyListSet {α : Type} [DecidableEq α] (l : List α) : List α := l.eraseDups

/-- Python slice `arr[a:b]`. -/
def slice {α : Type} (l : List α) (a b : Nat) : List α := (l.drop a).take (b - a)

/-- Python `timestamps[i]` guarded by
`if timestamps and i < len(timestamps)`: every detector attaches a
timestamp to an emitted detection under exactly this condition. -/
def tsAt (timestamps : List DateTime) (i : Nat) : Option DateTime :=
  if timestamps = [] then none else timestamps[i]?

/-- Output record of the one-dimensional detectors
(`statistical_detectors.py`, `temporal_detectors.py`): a Python dict whose
optional keys are `Option` fields.  `thresholdF` renders the `threshold`
key of the dict (named apart from the detectors' threshold parameters). -/
structure Detection where
  index : Nat
  value : ℚ
  confidence : ℚ
  method : String
  expected_value : Option ℚ := none
  z_score : Option ℚ := none
  modified_z_score : Option ℚ := none
  deviation : Option ℚ := none
  thresholdF : Option ℚ := none
  expected_range : Option (ℚ × ℚ) := none
  q1 : Option ℚ := none
  q3 : Option ℚ := none
  iqr : Option ℚ := none
  multiplier : Option ℚ := none
  cusum_positive : Option ℚ := none
  cusum_negative : Option ℚ := none
  mean_before : Option ℚ := none
  mean_after : Option ℚ := none
  change_magnitude : Option ℚ := none
  global_slope : Option ℚ := none
  local_slope : Option ℚ := none
  slope_change : Option ℚ := none
  forecast_error : Option ℚ := none
  short_ma : Option ℚ := none
  long_ma : Option ℚ := none
  window_size : Option Nat := none
  type : Option String := none
  timestamp : Option DateTime := none
deriving DecidableEq, Repr

/-- Output record of `EnsembleStatisticalDetector.detect`: a consensus
bucket over the individual detections at one index. -/
structure EnsembleDetection where
  index : Nat
  value : ℚ
  confidence : ℚ
  consensus_count : Nat
  methods : List String
  individual_detections : List Detection
  method : String
  timestamp : Option DateTime := none
deriving DecidableEq, Repr

/-- Embedding of `ZScoreDetector.detect` (threshold `thr`, default 3.0). -/
def zscoreDetect (p : Prims) (thr : ℚ) (values : List ℚ)
    (timestamps : List DateTime) : List Detection :=
  if values.length < 3 then []
  else
    let mean := pyMean values
    let std := pyStd p values
    if std = 0 then []
    else
      values.enum.filterMap (fun iv =>
        let i := iv.1
        let v := iv.2
        let z := |v - mean| / std
        if z > thr then
          some { index := i, value := v, expected_value := some mean,
                 z_score := some z,
                 confidence := calculate_confidence p z thr (1/2),
                 deviation := some |v - mean|, method := "zscore",
                 thresholdF := some thr, timestamp := tsAt timestamps i }
        else none)

/-- Embedding of `ModifiedZScoreDetector.detect` (threshold default 3.5). -/
def modifiedZscoreDetect (p : Prims) (thr : ℚ) (values : List ℚ)
    (timestamps : List DateTime) : List Detection :=
  if values.length < 3 then []
  else
    let med := pyMedian values
    let mad0 := pyMedian (values.map (fun x => |x - med|))
    let mad := if mad0 = 0 then pyMean (values.map (fun x => |x - med|)) else mad0
    if mad = 0 then []
    else
      values.enum.filterMap (fun iv =>
        let i := iv.1
        let v := iv.2
        let modZ := (6745/10000 : ℚ) * (v - med) / mad
        if |modZ| > thr then
          some { index := i, value := v, expected_value := some med,
                 modified_z_score := some modZ,
                 confidence := calculate_confidence p |modZ| thr (1/2),
                 deviation := some |v - med|, method := "modified_zscore",
                 thresholdF := some thr, timestamp := tsAt timestamps i }
        else none)

/-- Embedding of `IQRDetector.detect` (multiplier default 1.5). -/
def iqrDetect (p : Prims) (multiplier : ℚ) (values : List ℚ)
    (timestamps : List DateTime) : List Detection :=
  if values.length < 4 then []
  else
    let q1 := pyPercentile values 25
    let q3 := pyPercentile values 75
    let iqr := q3 - q1
    if iqr = 0 then []
    else
      let lower := q1 - multiplier * iqr
      let upper := q3 + multiplier * iqr
      values.enum.filterMap (fun iv =>
        let i := iv.1
        let v := iv.2
        if v < lower ∨ v > upper then
          let deviation := if v < lower then lower - v else v - upper
          let expected := if v < lower then lower else upper
          some { index := i, value := v,
                 expected_range := some (lower, upper),
                 expected_value := some expected,
                 q1 := some q1, q3 := some q3, iqr := some iqr,
                 confidence := calculate_confidence p deviation iqr 1,
                 deviation := some deviation, method := "iqr",
                 multiplier := some multiplier, timestamp := tsAt timestamps i }
        else none)

/-- One step of the CUSUM loop: state is
(positive sum, negative sum, emitted detections). -/
def cusumStep (p : Prims) (thr drift mean std : ℚ) (timestamps : List DateTime)
    (st : ℚ × ℚ × List Detection) (iv : Nat × ℚ) : ℚ × ℚ × List Detection :=
  let i := iv.1
  let v := iv.2
  let standardized := (v - mean) / std
  let cpos := max 0 (st.1 + standardized - drift)
  let cneg := max 0 (st.2.1 - standardized - drift)
  if cpos > thr ∨ cneg > thr then
    let cusumValue := max cpos cneg
    let det : Detection :=
      { index := i, value := v, expected_value := some mean,
        cusum_positive := some cpos, cusum_negative := some cneg,
        confidence := calculate_confidence p cusumValue thr (3/10),
        deviation := some |v - mean|, method := "cusum",
        thresholdF := some thr, timestamp := tsAt timestamps i }
    (0, 0, st.2.2 ++ [det])
  else (cpos, cneg, st.2.2)

/-- Embedding of `CUSUMDetector.detect` (threshold default 5.0, drift 0.5). -/
def cusumDetect (p : Prims) (thr drift : ℚ) (values : List ℚ)
    (timestamps : List DateTime) : List Detection :=
  if values.length < 5 then []
  else
    let mean := pyMean values
    let std := pyStd p values
    if std = 0 then []
    else (values.enum.foldl (cusumStep p thr drift mean std timestamps) (0, 0, [])).2.2

/-- Embedding of `EnsembleStatisticalDetector.detect`: buckets the four
detectors' detections by index (insertion-ordered dict) and keeps buckets
reaching `min_consensus`; the bucket confidence is the arithmetic mean. -/
def ensembleDetect (p : Prims) (values : List ℚ) (timestamps : List DateTime)
    (min_consensus : Nat) : List EnsembleDetection :=
  let allDetections :=
    zscoreDetect p 3 values timestamps ++
    modifiedZscoreDetect p (35/10) values timestamps ++
    iqrDetect p (15/10) values timestamps ++
    cusumDetect p 5 (1/2) values timestamps
  let buckets : List (Nat × List Detection) :=
    allDetections.foldl (fun acc d => upsertWith d.index d acc) []
  buckets.filterMap (fun bucket =>
    let idx := bucket.1
    let dets := bucket.2
    if dets.length ≥ min_consensus then
      some { index := idx,
             value := ((dets.head?.map (·.value)).getD 0),
             confidence := pyMean (dets.map (·.confidence)),
             consensus_count := dets.length,
             methods := dets.map (·.method),
             individual_detections := dets,
             method := "ensemble",
             timestamp := tsAt timestamps idx }
    else none)

/-- Trend record returned by `backend/utils/helpers.py::calculate_trend`
(the short form for fewer than 3 points has no `intercept` key). -/
structure TrendInfo where
  direction : String
  strength : ℚ
  slope : ℚ
  intercept : Option ℚ := none
deriving DecidableEq, Repr

/-- Embedding of `calculate_trend`: least-squares regression against
`x = 0, 1, …, n-1`.  The correlation coefficient `r` needs a square root
(float primitive); scipy yields `r = 0` for a constant series. -/
def calculate_trend (p : Prims) (values : List ℚ) : TrendInfo :=
  if values.length < 3 then { direction := "stable", strength := 0, slope := 0 }
  else
    let xs := (List.range values.length).map (fun i => (i : ℚ))
    let xbar := pyMean xs
    let ybar := pyMean values
    let sxy := ((xs.zip values).map (fun ab => (ab.1 - xbar) * (ab.2 - ybar))).sum
    let sxx := (xs.map (fun a => (a - xbar) ^ 2)).sum
    let syy := (values.map (fun b => (b - ybar) ^ 2)).sum
    let slope := sxy / sxx
    let intercept := ybar - slope * xbar
    let r := if syy = 0 then 0 else sxy / p.sqrtQ (sxx * syy)
    let direction :=
      if |slope| < (1/100) * pyStd p values then "stable"
      else if slope > 0 then "increasing" else "decreasing"
    { direction := direction, strength := |r|, slope := slope,
      intercept := some intercept }

/-- Seasonality record returned by `helpers.py::detect_seasonality`. -/
structure SeasonInfo where
  has_seasonality : Bool
  strength : ℚ
  period : Option Nat := none
deriving DecidableEq, Repr

/-- Non-negative-lag autocorrelation sum `Σ_i c_i · c_(i+k)`, matching the
second half of `np.correlate(c, c, mode='full')`. -/
def autocorrAt (c : List ℚ) (k : Nat) : ℚ :=
  ((c.zip (c.drop k)).map (fun ab => ab.1 * ab.2)).sum

/-- Embedding of `helpers.py::detect_seasonality`: autocorrelation at the
seasonal lag, normalized by lag 0.  A constant series gives NaN in Python
(all comparisons false); it is modelled by the `0/0 = 0` convention of `ℚ`,
which selects the same branch. -/
def detect_seasonality (values : List ℚ) (period : Nat) : SeasonInfo :=
  if values.length < period * 2 then { has_seasonality := false, strength := 0 }
  else
    let mean := pyMean values
    let c := values.map (· - mean)
    if values.length > period then
      let sa := autocorrAt c period / autocorrAt c 0
      { has_seasonality := sa > 1/2, strength := sa, period := some period }
    else { has_seasonality := false, strength := 0 }

/-- Changepoint configuration defaults of `ChangePointDetector.__init__`
(`min_size=5`, `penalty=10`; the repository ships no overriding
configuration file under `src/`). -/
def cpPenalty : ℚ := 10

/-- Cost of splitting `arr[s:e]` at `i` in
`ChangePointDetector._detect_changepoints.find_best_split`:
variance reduction minus the penalty. -/
def splitCost (arr : List ℚ) (s e i : Nat) : ℚ :=
  let left := slice arr s i
  let right := slice arr i e
  pyVar (slice arr s e) * ((e - s : Nat) : ℚ) -
    (pyVar left * left.length + pyVar right * right.length) - cpPenalty

/-- Embedding of `find_best_split`: scans `range(s+5, e-5)` keeping the
lowest-cost split.  `none` models Python's initial `best_cost = inf`
(no loop iteration ran); the subtype carries the range bound of the
returned index, used for the termination of the recursive segmentation. -/
def findBestSplit (arr : List ℚ) (s e : Nat) :
    Option {ic : Nat × ℚ // s + 5 ≤ ic.1 ∧ ic.1 < e - 5} :=
  (List.range' (s + 5) (e - 5 - (s + 5))).attach.foldl
    (fun best (x : {m : Nat // m ∈ List.range' (s + 5) (e - 5 - (s + 5))}) =>
      have hmem : s + 5 ≤ x.1 ∧ x.1 < e - 5 := by
        have h := List.mem_range'_1.mp x.2
        omega
      let cost := splitCost arr s e x.1
      match best with
      | none => some ⟨(x.1, cost), hmem⟩
      | some b => if cost < b.1.2 then some ⟨(x.1, cost), hmem⟩ else some b)
    none

/-- Embedding of the recursive `segment` of
`ChangePointDetector._detect_changepoints` (binary segmentation); the
collected changepoint indices are sorted by the caller. -/
def segmentCP (arr : List ℚ) : Nat → Nat → List Nat
  | s, e =>
    if e - s < 5 * 2 then []
    else
      match findBestSplit arr s e with
      | none => []
      | some b =>
        if b.1.2 < -cpPenalty then
          have h1 : b.1.1 - s < e - s := by have := b.2; omega
          have h2 : e - b.1.1 < e - s := by have := b.2; omega
          b.1.1 :: (segmentCP arr s b.1.1 ++ segmentCP arr b.1.1 e)
        else []
termination_by s e => e - s

/-- Embedding of `ChangePointDetector.detect` (defaults `min_size=5`,
`penalty=10`). -/
def changepointDetect (p : Prims) (values : List ℚ)
    (timestamps : List DateTime) : List Detection :=
  if values.length < 5 * 2 then []
  else
    let cps := (segmentCP values 0 values.length).mergeSort (fun a b => decide (a ≤ b))
    cps.filterMap (fun cp =>
      let before := slice values (cp - 5) cp
      let after := slice values cp (min values.length (cp + 5))
      if before.length > 0 ∧ after.length > 0 then
        let mean_before := pyMean before
        let mean_after := pyMean after
        let std_before := pyStd p before
        let change_magnitude := |mean_after - mean_before|
        let confidence :=
          if std_before > 0 then
            calculate_confidence p (change_magnitude / std_before) 2 (1/2)
          else 1/2
        some { index := cp, value := values.getD cp 0,
               mean_before := some mean_before, mean_after := some mean_after,
               change_magnitude := some change_magnitude,
               confidence := confidence, method := "changepoint",
               type := some "regime_change", timestamp := tsAt timestamps cp }
      else none)

/-- Embedding of `TrendAnomalyDetector.detect` (window 20): compares the
local regression slope on `±window` against the global slope. -/
def trendDetect (p : Prims) (values : List ℚ)
    (timestamps : List DateTime) : List Detection :=
  if values.length < 20 then []
  else
    let g := (calculate_trend p values).slope
    (List.range' 20 (values.length - 20 - 20)).filterMap (fun i =>
      let window := slice values (i - 20) (i + 20)
      let l := (calculate_trend p window).slope
      if |g| > 1/1000 then
        let sc := |l - g| / |g|
        if sc > 3/2 then
          some { index := i, value := values.getD i 0,
                 global_slope := some g, local_slope := some l,
                 slope_change := some sc, confidence := min (sc / 3) 1,
                 method := "trend_deviation", type := some "trend_reversal",
                 timestamp := tsAt timestamps i }
        else none
      else none)

/-- Embedding of `SeasonalAnomalyDetector.detect` (period 24).  With fewer
than `2·period` points or without detected seasonality the code returns an
empty list; otherwise it evaluates `arr - seasonal_pattern[:len(arr)]`
where the pattern has length `period < len(arr)`, which raises a NumPy
broadcast `ValueError`.  The raised exception is modelled as `none`
(the temporal agent catches and discards it). -/
def seasonalDetect (values : List ℚ) : Option (List Detection) :=
  if values.length < 24 * 2 then some []
  else if (detect_seasonality values 24).has_seasonality then none
  else some []

/-- One step of the `ExponentialSmoothingDetector.detect` loop: state is
(current forecast, forecast errors so far, emitted detections).  The
`expected_value` recorded on a detection is the updated forecast, matching
the code's order of update and emission. -/
def expSmoothStep (p : Prims) (timestamps : List DateTime)
    (st : ℚ × List ℚ × List Detection) (iv : Nat × ℚ) :
    ℚ × List ℚ × List Detection :=
  let i := iv.1
  let v := iv.2
  let error := |v - st.1|
  let errors := st.2.1 ++ [error]
  let forecast := (3/10) * v + (1 - 3/10) * st.1
  if i > 10 then
    let em := pyMean errors
    let es := pyStd p errors
    if es > 0 then
      let z := (error - em) / es
      if z > 3 then
        (forecast, errors, st.2.2 ++
          [{ index := i, value := v, expected_value := some forecast,
             forecast_error := some error, z_score := some z,
             confidence := calculate_confidence p z 3 (1/2),
             method := "exponential_smoothing", type := some "forecast_error",
             timestamp := tsAt timestamps i }])
      else (forecast, errors, st.2.2)
    else (forecast, errors, st.2.2)
  else (forecast, errors, st.2.2)

/-- Embedding of `ExponentialSmoothingDetector.detect`
(`alpha=0.3`, `threshold=3.0`). -/
def expSmoothingDetect (p : Prims) (values : List ℚ)
    (timestamps : List DateTime) : List Detection :=
  if values.length < 5 then []
  else
    match values with
    | [] => []
    | v0 :: rest =>
      ((rest.enumFrom 1).foldl (expSmoothStep p timestamps) (v0, [], [])).2.2

/-- Embedding of `MovingAverageCrossoverDetector.detect`
(`short_window=5`, `long_window=20`, `threshold=0.15`).  Note the relative
deviation is divided by `long_ma` itself, not its absolute value, exactly
as in the code. -/
def maCrossoverDetect (values : List ℚ)
    (timestamps : List DateTime) : List Detection :=
  if values.length < 20 then []
  else
    (List.range' 20 (values.length - 20)).filterMap (fun i =>
      let short_ma := pyMean (slice values (i - 5) i)
      let long_ma := pyMean (slice values (i - 20) i)
      if long_ma ≠ 0 then
        let deviation := |short_ma - long_ma| / long_ma
        if deviation > 15/100 then
          some { index := i, value := values.getD i 0,
                 short_ma := some short_ma, long_ma := some long_ma,
                 deviation := some deviation,
                 confidence := min (deviation / (15/100)) 1,
                 method := "ma_crossover",
                 type := some "moving_average_divergence",
                 timestamp := tsAt timestamps i }
        else none
      else none)

/-- Python `symbols[i]` guarded by `if symbols and i < len(symbols)`. -/
def symAt (symbols : List String) (i : Nat) : Option String :=
  if symbols = [] then none else symbols[i]?

/-- Output record of `OIDivergenceDetector.detect` (`additional_data`, which
merely copies auxiliary metric values into the dict verbatim, is not
modelled; no claim concerns it). -/
structure OIAnomaly where
  index : Nat
  divergence_type : String
  price_change_pct : ℚ
  oi_change_pct : ℚ
  confidence : ℚ
  severity : String
  method : String
  explanation : String
  timestamp : Option DateTime := none
  symbol : Option String := none
deriving DecidableEq, Repr

/-- Embedding of `OIDivergenceDetector._generate_explanation`. -/
def oiExplanation (p : Prims) (divergence_type : String) (price_chg oi_chg : ℚ) : String :=
  if divergence_type = "bearish_divergence" then
    "Price increased " ++ p.fmt2 price_chg ++ "% while OI decreased " ++
      p.fmt2 |oi_chg| ++ "%. This suggests weakening bullish momentum and potential reversal."
  else if divergence_type = "bullish_divergence" then
    "Price decreased " ++ p.fmt2 |price_chg| ++ "% while OI increased " ++
      p.fmt2 oi_chg ++ "%. This suggests weakening bearish momentum and potential reversal."
  else if divergence_type = "bullish_continuation" then
    "Price increased " ++ p.fmt2 price_chg ++ "% with OI increasing " ++
      p.fmt2 oi_chg ++ "%. Strong bullish momentum with new positions being added."
  else if divergence_type = "bearish_continuation" then
    "Price decreased " ++ p.fmt2 |price_chg| ++ "% while OI increased " ++
      p.fmt2 oi_chg ++ "%. Potential short squeeze setup or strong bearish conviction."
  else if divergence_type = "oi_spike_anomaly" then
    "Unusual OI change of " ++ p.fmt2 oi_chg ++
      "% detected. This may indicate market manipulation, large whale activity, or approaching liquidation cascade."
  else
    "Divergence detected: price=" ++ p.fmt2 price_chg ++ "%, OI=" ++ p.fmt2 oi_chg ++ "%"

/-- The per-index `if/elif` classification chain of
`OIDivergenceDetector.detect`, yielding
(divergence type, confidence, severity) of the first matching class. -/
def oiClassify (price_threshold oi_threshold spike_threshold price_chg oi_chg : ℚ) :
    Option (String × ℚ × String) :=
  if price_chg > price_threshold ∧ oi_chg < -oi_threshold then
    some ("bearish_divergence", min (95/100) (6/10 + |oi_chg| / 20),
      if |oi_chg| > 5 then "high" else "medium")
  else if price_chg < -price_threshold ∧ oi_chg > oi_threshold then
    some ("bullish_divergence", min (95/100) (6/10 + oi_chg / 20),
      if oi_chg > 5 then "high" else "medium")
  else if price_chg > 2 ∧ oi_chg > 5 then
    some ("bullish_continuation", min (9/10) (5/10 + oi_chg / 30), "medium")
  else if price_chg < -2 ∧ oi_chg > 5 then
    some ("bearish_continuation", min (9/10) (5/10 + oi_chg / 30), "medium")
  else if |oi_chg| > spike_threshold then
    some ("oi_spike_anomaly", min (95/100) (7/10 + |oi_chg| / 50),
      if |oi_chg| > 20 then "high" else "medium")
  else none

/-- Embedding of `OIDivergenceDetector.detect` (defaults
`price_threshold=1.0`, `oi_threshold=2.0`, `spike_threshold=10.0`). -/
def oiDivergenceDetect (p : Prims) (price_threshold oi_threshold spike_threshold : ℚ)
    (price_changes oi_changes : List ℚ) (timestamps : List DateTime)
    (symbols : List String) : List OIAnomaly :=
  if price_changes.length ≠ oi_changes.length then []
  else if price_changes.length = 0 then []
  else
    (price_changes.zip oi_changes).enum.filterMap (fun ipo =>
      (oiClassify price_threshold oi_threshold spike_threshold ipo.2.1 ipo.2.2).map
        (fun cls =>
          { index := ipo.1, divergence_type := cls.1,
            price_change_pct := ipo.2.1, oi_change_pct := ipo.2.2,
            confidence := cls.2.1, severity := cls.2.2,
            method := "oi_divergence",
            explanation := oiExplanation p cls.1 ipo.2.1 ipo.2.2,
            timestamp := tsAt timestamps ipo.1, symbol := symAt symbols ipo.1 }))

/-- Output record of `FundingRateDetector.detect`. -/
structure FundingAnomaly where
  index : Nat
  funding_rate : ℚ
  severity : String
  confidence : ℚ
  method : String
  signal : String
  explanation : String
  timestamp : Option DateTime := none
  symbol : Option String := none
deriving DecidableEq, Repr

/-- Embedding of `FundingRateDetector.detect` (defaults
`extreme_threshold=0.1`, `moderate_threshold=0.05`).  The extreme branch
caps its confidence with `min(0.95, …)`; the moderate branch computes
`0.6 + abs(rate)/0.15` with no cap, exactly as in the code. -/
def fundingRateDetect (p : Prims) (extreme_threshold moderate_threshold : ℚ)
    (funding_rates : List ℚ) (timestamps : List DateTime)
    (symbols : List String) : List FundingAnomaly :=
  if funding_rates.length = 0 then []
  else
    funding_rates.enum.filterMap (fun ir =>
      let i := ir.1
      let rate := ir.2
      if |rate| ≥ extreme_threshold then
        some { index := i, funding_rate := rate, severity := "high",
               confidence := min (95/100) (7/10 + |rate| / (2/10)),
               method := "funding_rate",
               signal := if rate > 0 then "extreme_long_pressure" else "extreme_short_pressure",
               explanation := "Extreme funding rate of " ++ p.fmt4 rate ++ "% indicates " ++
                 (if rate > 0 then "overbought" else "oversold") ++
                 " conditions. Potential reversal or forced liquidations.",
               timestamp := tsAt timestamps i, symbol := symAt symbols i }
      else if |rate| ≥ moderate_threshold then
        some { index := i, funding_rate := rate, severity := "medium",
               confidence := 6/10 + |rate| / (15/100),
               method := "funding_rate",
               signal := if rate > 0 then "high_long_pressure" else "high_short_pressure",
               explanation := "Elevated funding rate of " ++ p.fmt4 rate ++
                 "% indicates strong " ++ (if rate > 0 then "long" else "short") ++
                 " bias in the market.",
               timestamp := tsAt timestamps i, symbol := symAt symbols i }
      else none)

/-- Association-list lookup with decidable key equality (Python `d[k]` /
`k in d`). -/
def alookup {κ β : Type} [DecidableEq κ] (k : κ) : List (κ × β) → Option β
  | [] => none
  | (k', v) :: rest => if k' = k then some v else alookup k rest

/-- Python `k in d`. -/
def containsKey {κ β : Type} [DecidableEq κ] (k : κ) (l : List (κ × β)) : Bool :=
  (alookup k l).isSome

/-- Python `d[k] = v`: replace in place if the key is present (a dict keeps
the original position), else append. -/
def setKey {κ β : Type} [DecidableEq κ] (k : κ) (v : β) :
    List (κ × β) → List (κ × β)
  | [] => [(k, v)]
  | (k', v') :: rest =>
    if k' = k then (k', v) :: rest else (k', v') :: setKey k v rest

/-- Python `del d[k]` (total: no-op when absent; the graph code only
deletes keys it knows to be present). -/
def eraseKey {κ β : Type} [DecidableEq κ] (k : κ) (l : List (κ × β)) :
    List (κ × β) :=
  l.filter (fun kv => kv.1 ≠ k)

/-- The `metadata` sub-dict the coordinator stores on a graph node. -/
structure KGMeta where
  detecting_agents : List (Option String)
  detection_count : Nat
deriving DecidableEq, Repr

/-- The `anomaly_data` dict passed to `KnowledgeGraphManager.add_anomaly`;
optional keys are `Option` fields. -/
structure AnomalyData where
  source : Option String := none
  metric : Option String := none
  value : Option PyVal := none
  confidence : Option ℚ := none
  severity : Option String := none
  methods : Option (List String) := none
  metadata : Option KGMeta := none
  deviation : Option ℚ := none
  type : Option String := none
deriving DecidableEq, Repr

/-- Node attributes stored by `add_anomaly`. -/
structure NodeAttrs where
  id : String
  timestamp : DateTime
  source : String
  metric : String
  value : Option PyVal
  confidence : ℚ
  severity : String
  methods : List String
  metadata : Option KGMeta
deriving DecidableEq, Repr

/-- Anomaly signature computed by
`KnowledgeGraphManager._generate_signature`. -/
structure Signature where
  source : String
  metric : String
  magnitude : ℚ
  confidence : ℚ
  methods : List String
  pattern_type : String
deriving DecidableEq, Repr

/-- Edge attributes stored by `add_relationship`; the only edge metadata
the coordinator ever passes is `time_diff_seconds`, modelled as the
optional rational. -/
structure EdgeAttrs where
  type : String
  confidence : ℚ
  created_at : DateTime
  metadata : Option ℚ
deriving DecidableEq, Repr

/-- State of `KnowledgeGraphManager`: an `nx.DiGraph` (insertion-ordered
node dict, and at most one edge per ordered node pair, keyed by that
pair), the signature store, and the node-timestamp store. -/
structure KGState where
  max_nodes : Nat
  nodes : List (String × NodeAttrs)
  edges : List ((String × String) × EdgeAttrs)
  signatures : List (String × Signature)
  node_timestamps : List (String × DateTime)
deriving DecidableEq, Repr

/-- Fresh `KnowledgeGraphManager` with the given `max_nodes`
(config default 1000). -/
def kgInit (max_nodes : Nat) : KGState :=
  { max_nodes := max_nodes, nodes := [], edges := [], signatures := [],
    node_timestamps := [] }

/-- Embedding of `KnowledgeGraphManager._generate_signature`. -/
def generateSignature (d : AnomalyData) : Signature :=
  { source := d.source.getD "", metric := d.metric.getD "",
    magnitude := |d.deviation.getD 0|, confidence := d.confidence.getD (1/2),
    methods := d.methods.getD [], pattern_type := d.type.getD "unknown" }

/-- Removal of one node: `graph.remove_node` (which also removes all
incident edges), `del node_timestamps[id]`, and the guarded
`del signatures[id]` of `_cleanup_old_nodes`. -/
def kgRemoveNode (node_id : String) (s : KGState) : KGState :=
  { s with
    nodes := eraseKey node_id s.nodes,
    edges := s.edges.filter (fun e => ¬(e.1.1 = node_id ∨ e.1.2 = node_id)),
    node_timestamps := eraseKey node_id s.node_timestamps,
    signatures := eraseKey node_id s.signatures }

/-- The timestamp-ascending ordering of `_cleanup_old_nodes`
(`sorted(node_timestamps.items(), key=lambda x: x[1])`, a stable sort). -/
def sortByTs (l : List (String × DateTime)) : List (String × DateTime) :=
  l.mergeSort (fun a b => a.2.leb b.2)

/-- Embedding of `KnowledgeGraphManager._cleanup_old_nodes`: while over
capacity, remove the oldest-timestamped nodes (with their incident edges,
timestamps, and signatures). -/
def kgCleanup (s : KGState) : KGState :=
  if s.nodes.length ≤ s.max_nodes then s
  else
    let numToRemove := s.nodes.length - s.max_nodes
    ((sortByTs s.node_timestamps).take numToRemove).foldl
      (fun st idts => kgRemoveNode idts.1 st) s

/-- The insertion phase of `KnowledgeGraphManager.add_anomaly` (everything
before the closing `_cleanup_old_nodes` call); `now` models
`datetime.now()`, used only when no timestamp is supplied. -/
def kgInsert (now : DateTime) (anomaly_id : String) (anomaly_data : AnomalyData)
    (timestamp : Option DateTime) (s : KGState) : KGState :=
  let ts := timestamp.getD now
  let attrs : NodeAttrs :=
    { id := anomaly_id, timestamp := ts,
      source := anomaly_data.source.getD "unknown",
      metric := anomaly_data.metric.getD "unknown",
      value := anomaly_data.value,
      confidence := anomaly_data.confidence.getD (1/2),
      severity := anomaly_data.severity.getD "medium",
      methods := anomaly_data.methods.getD [],
      metadata := anomaly_data.metadata }
  { s with
    nodes := setKey anomaly_id attrs s.nodes,
    node_timestamps := setKey anomaly_id ts s.node_timestamps,
    signatures := setKey anomaly_id (generateSignature anomaly_data) s.signatures }

/-- Embedding of `KnowledgeGraphManager.add_anomaly`: insert the node,
its timestamp and its signature, then enforce the capacity bound. -/
def kgAddAnomaly (now : DateTime) (anomaly_id : String) (anomaly_data : AnomalyData)
    (timestamp : Option DateTime) (s : KGState) : KGState :=
  kgCleanup (kgInsert now anomaly_id anomaly_data timestamp s)

/-- Embedding of `KnowledgeGraphManager.add_relationship`: silently
rejected when either endpoint is missing; otherwise `graph.add_edge`
inserts or overwrites the unique edge keyed by the ordered pair. -/
def kgAddRelationship (now : DateTime) (from_anomaly to_anomaly : String)
    (relationship_type : String) (confidence : ℚ) (metadata : Option ℚ)
    (s : KGState) : KGState :=
  if ¬ containsKey from_anomaly s.nodes ∨ ¬ containsKey to_anomaly s.nodes then s
  else
    { s with
      edges := setKey (from_anomaly, to_anomaly)
        { type := relationship_type, confidence := confidence,
          created_at := now, metadata := metadata } s.edges }

/-- States of the knowledge graph reachable from a fresh manager by any
sequence of `add_anomaly` / `add_relationship` calls. -/
inductive KGReachable : KGState → Prop where
  | init (max_nodes : Nat) : KGReachable (kgInit max_nodes)
  | add {s : KGState} (h : KGReachable s) (now : DateTime) (id : String)
      (d : AnomalyData) (ts : Option DateTime) :
      KGReachable (kgAddAnomaly now id d ts s)
  | rel {s : KGState} (h : KGReachable s) (now : DateTime) (f t ty : String)
      (c : ℚ) (md : Option ℚ) :
      KGReachable (kgAddRelationship now f t ty c md s)

/-- Structural invariant maintained by the knowledge-graph manager: the
node dict and the timestamp dict are genuine dicts (duplicate-free keys)
over the same key set, and the node count respects the capacity bound. -/
def KGInv (s : KGState) : Prop :=
  (s.nodes.map Prod.fst).Nodup ∧
  (s.nodes.map Prod.fst).Perm (s.node_timestamps.map Prod.fst) ∧
  s.nodes.length ≤ s.max_nodes

/-- Graph statistics of `get_graph_stats` (the degree sum of a DiGraph is
twice the edge count). -/
structure GraphStats where
  num_nodes : Nat
  num_edges : Nat
  num_signatures : Nat
  oldest_node : Option DateTime
  newest_node : Option DateTime
  avg_degree : ℚ
deriving DecidableEq, Repr

/-- Maximum of a list of timestamps with a seed (Python `max`). -/
def dtMax (seed : DateTime) (l : List DateTime) : DateTime :=
  l.foldl (fun acc d => if acc.lt d then d else acc) seed

/-- Embedding of `KnowledgeGraphManager.get_graph_stats`. -/
def kgStats (s : KGState) : GraphStats :=
  { num_nodes := s.nodes.length, num_edges := s.edges.length,
    num_signatures := s.signatures.length,
    oldest_node :=
      match s.node_timestamps.map (·.2) with
      | [] => none
      | t :: ts => some (dtMin t ts),
    newest_node :=
      match s.node_timestamps.map (·.2) with
      | [] => none
      | t :: ts => some (dtMax t ts),
    avg_degree := (2 * s.edges.length : ℚ) / (max s.nodes.length 1 : ℚ) }

/-- Snapshot returned by `KnowledgeGraphManager.export_graph`. -/
structure GraphExport where
  nodes : List NodeAttrs
  edges : List (String × String × EdgeAttrs)
  stats : GraphStats
deriving DecidableEq, Repr

/-- Embedding of `KnowledgeGraphManager.export_graph`. -/
def kgExport (s : KGState) : GraphExport :=
  { nodes := s.nodes.map (·.2),
    edges := s.edges.map (fun e => (e.1.1, e.1.2, e.2)),
    stats := kgStats s }

/-- An input data point.  `source`, `metric`, `value` and `timestamp` are
required fields of the documented wire shape; points missing any of them
make the Python agents raise (`d['value']`, `d['timestamp']` are indexed
directly, and a missing `source` makes the correlation agent's
`', '.join` raise), so the embedding models points that carry all four. -/
structure DataPoint where
  source : String
  metric : String
  symbol : Option String := none
  value : ℚ
  timestamp : DateTime
deriving DecidableEq, Repr

/-- The context dict synthesized by `ContextAgent._fetch_context`; events
are (type, description) pairs.  Its `timestamp` is `datetime.now()` at the
moment of the call. -/
structure Ctx where
  source : String
  timestamp : DateTime
  events : List (String × String)
  relevance : ℚ
deriving DecidableEq, Repr

/-- The `context_data` dict of a context-agent anomaly. -/
structure CtxData where
  affected_points : Nat
  source_metrics : List String
deriving DecidableEq, Repr

/-- The per-series pattern dict of `TemporalAgent._analyze_patterns`:
either `{'insufficient_data': True}` or the full pattern record. -/
inductive PatternInfo where
  | insufficient
  | info (trend : TrendInfo) (seasonality : SeasonInfo) (volatility : ℚ)
      (data_points : Nat) (time_span : ℚ)
deriving DecidableEq, Repr

/-- An agent-level anomaly dict (`AgentAnomaly`): the union of the keys the
four agents produce, plus `agent_name` / `agent_weight` added by the
coordinator's flatten step.  Keys never set by any agent on this record
(`expected_value`, `z_score`, `local_slope`, `global_slope`,
`mean_before`, `mean_after`, `seasonal_component`) are carried as
always-`none` options because the counterfactual generator probes them
with `.get`. -/
structure Anomaly where
  agent : Option String := none
  source : Option String := none
  metric : Option String := none
  timestamp : DateTime
  value : Option PyVal := none
  confidence : ℚ
  severity : String
  severity_score : ℚ
  detection_methods : Option (List String) := none
  detection_method : Option String := none
  anomaly_type : Option String := none
  type : Option String := none
  consensus_count : Option Nat := none
  individual_detections : Option (List Detection) := none
  explanation : Option String := none
  pattern_context : Option PatternInfo := none
  source1 : Option String := none
  metric1 : Option String := none
  source2 : Option String := none
  metric2 : Option String := none
  historical_correlation : Option ℚ := none
  current_correlation : Option ℚ := none
  correlation_change : Option ℚ := none
  affected_sources : Option (List String) := none
  data_points : Option (List DataPoint) := none
  context : Option Ctx := none
  context_data : Option CtxData := none
  agent_name : Option String := none
  agent_weight : Option ℚ := none
  expected_value : Option ℚ := none
  z_score : Option ℚ := none
  local_slope : Option ℚ := none
  global_slope : Option ℚ := none
  mean_before : Option ℚ := none
  mean_after : Option ℚ := none
  seasonal_component : Option ℚ := none
deriving DecidableEq, Repr

/-- An agent's `analyze` result as consumed by the coordinator: its
`agent` name, `weight`, and anomaly list.  (The agents' free-form
`metadata` dicts are not modelled: the coordinator and the reports never
read them.) -/
structure AgentResult where
  agent : String
  weight : ℚ
  anomalies : List Anomaly
deriving DecidableEq, Repr

/-- Embedding of `StatisticalAgent._group_data` /
`TemporalAgent._group_data` / `CorrelationAgent._group_data` (before its
per-group sort): group points by `(source, metric)` preserving both the
first-occurrence key order and the point order. -/
def groupBySM (points : List DataPoint) : List ((String × String) × List DataPoint) :=
  points.foldl (fun acc pt => upsertWith (pt.source, pt.metric) pt acc) []

/-- Embedding of `StatisticalAgent._generate_explanation`. -/
def statExplanation (p : Prims) (det : EnsembleDetection) (source metric : String) : String :=
  let base :=
    "Statistical anomaly detected in " ++ source ++ " " ++ metric ++ ". " ++
      toString det.consensus_count ++ " detection methods agreed (confidence: " ++
      p.fmt2 det.confidence ++ "). "
  let base := if det.methods.contains "zscore" then
    base ++ "Value is significantly outside normal distribution. " else base
  let base := if det.methods.contains "iqr" then
    base ++ "Value is beyond interquartile range bounds. " else base
  let base := if det.methods.contains "cusum" then
    base ++ "Cumulative sum indicates a sustained shift in mean. " else base
  base.trim

/-- Embedding of `StatisticalAgent.analyze` (defaults `weight=0.25`,
`min_confidence=0.5`; `historical_data` is accepted and unused, as in the
code).  `now` models `datetime.now()`, used only as the fallback timestamp
of a detection that carries none. -/
def statAnalyze (p : Prims) (now : DateTime) (data_points : List DataPoint)
    (historical_data : List DataPoint) : AgentResult :=
  let _ := historical_data
  let grouped := groupBySM data_points
  let anomalies := grouped.flatMap (fun kd =>
    let source := kd.1.1
    let metric := kd.1.2
    let values := kd.2.map (·.value)
    let timestamps := kd.2.map (·.timestamp)
    let detections := ensembleDetect p values timestamps 2
    detections.filterMap (fun det =>
      if det.confidence ≥ 1/2 then
        let sev := calculate_severity det.confidence 0 1
        some { agent := some "StatisticalAgent",
               source := some source, metric := some metric,
               timestamp := det.timestamp.getD now,
               value := some (.num det.value),
               confidence := det.confidence,
               severity := sev.1, severity_score := sev.2,
               detection_methods := some det.methods,
               consensus_count := some det.consensus_count,
               individual_detections := some det.individual_detections,
               explanation := some (statExplanation p det source metric) }
      else none))
  { agent := "StatisticalAgent", weight := 25/100, anomalies := anomalies }

/-- Embedding of `TemporalAgent._analyze_patterns`. -/
def analyzePatterns (p : Prims) (values : List ℚ) (timestamps : List DateTime) :
    PatternInfo :=
  if values.length < 10 then .insufficient
  else
    let trend := calculate_trend p values
    let seasonality := detect_seasonality values 24
    let volatility := if pyMean values ≠ 0 then pyStd p values / pyMean values else 0
    let first := timestamps.headD { year := 0, month := 0, day := 0, hour := 0, minute := 0, second := 0 }
    let last := timestamps.getLastD first
    .info trend seasonality volatility values.length (diffSeconds last first / 3600)

/-- Earliest timestamp among the current data points (Python
`min(d.get('timestamp', now) for d in current_data)`; the timestamp field
is always present). -/
def earliestTs (current : List DataPoint) : Option DateTime :=
  match current with
  | [] => none
  | c :: cs => some (dtMin c.timestamp (cs.map (·.timestamp)))

/-- Embedding of `TemporalAgent._is_recent` for a detector detection. -/
def isRecentDetection (det : Detection) (current : List DataPoint) : Bool :=
  match earliestTs current with
  | none => true
  | some earliest =>
    match det.timestamp with
    | none => true
    | some ts => decide (earliest.le ts)

/-- Trend direction of a pattern record, as probed by
`pattern_context.get('trend', {}).get('direction')`. -/
def patternTrendDirection : PatternInfo → Option String
  | .insufficient => none
  | .info trend _ _ _ _ => some trend.direction

/-- Seasonality flag of a pattern record, as probed by
`pattern_context.get('seasonality', {}).get('has_seasonality')`. -/
def patternHasSeasonality : PatternInfo → Bool
  | .insufficient => false
  | .info _ seasonality _ _ _ => seasonality.has_seasonality

/-- Embedding of `TemporalAgent._generate_explanation`. -/
def tempExplanation (p : Prims) (det : Detection) (pattern : PatternInfo) : String :=
  let s := "Temporal anomaly (" ++ (det.type.getD "temporal") ++ ") detected using " ++
    det.method ++ ". "
  let s :=
    if det.method = "changepoint" then
      s ++ "Significant regime change detected. Mean shifted from " ++
        p.fmt2 (det.mean_before.getD 0) ++ " to " ++ p.fmt2 (det.mean_after.getD 0) ++ ". "
    else if det.method = "trend_deviation" then
      s ++ "Local trend diverged significantly from global trend. "
    else if det.method = "seasonal_decomposition" then
      s ++ "Value deviates from expected seasonal pattern. "
    else if det.method = "ma_crossover" then
      s ++ "Short and long-term moving averages diverged by " ++
        p.fmtPct2 (det.deviation.getD 0) ++ ". "
    else s
  let s :=
    if patternTrendDirection pattern = some "increasing" then
      s ++ "Overall trend is increasing. "
    else if patternTrendDirection pattern = some "decreasing" then
      s ++ "Overall trend is decreasing. "
    else s
  let s := if patternHasSeasonality pattern then s ++ "Seasonal patterns detected in data. " else s
  s.trim

/-- The temporal detector battery, in the order of
`TemporalAgent.__init__`; each entry is wrapped by the agent's
`try/except`, so a raising detector (`none`) contributes nothing. -/
def temporalDetectorRuns (p : Prims) (values : List ℚ)
    (timestamps : List DateTime) : List (Option (List Detection)) :=
  [some (changepointDetect p values timestamps),
   some (trendDetect p values timestamps),
   seasonalDetect values,
   some (expSmoothingDetect p values timestamps),
   some (maCrossoverDetect values timestamps)]

/-- Embedding of `TemporalAgent.analyze` (defaults `weight=0.25`,
`min_confidence=0.5`): groups `historical + current` by (source, metric),
sorts each series by timestamp, runs all temporal detectors (exceptions
discarded per detector), keeps detections of sufficient confidence whose
timestamp falls in the current-data window. -/
def tempAnalyze (p : Prims) (now : DateTime) (data_points : List DataPoint)
    (historical_data : List DataPoint) : AgentResult :=
  let all_data := historical_data ++ data_points
  let grouped := groupBySM all_data
  let anomalies := grouped.flatMap (fun kd =>
    let source := kd.1.1
    let metric := kd.1.2
    let data := kd.2.mergeSort (fun a b => a.timestamp.leb b.timestamp)
    let values := data.map (·.value)
    let timestamps := data.map (·.timestamp)
    let pattern_info := analyzePatterns p values timestamps
    (temporalDetectorRuns p values timestamps).flatMap (fun run =>
      match run with
      | none => []
      | some detections =>
        detections.filterMap (fun det =>
          if det.confidence ≥ 1/2 then
            if isRecentDetection det data_points then
              let sev := calculate_severity det.confidence |det.change_magnitude.getD 0| 1
              some { agent := some "TemporalAgent",
                     source := some source, metric := some metric,
                     timestamp := det.timestamp.getD now,
                     value := some (.num det.value),
                     confidence := det.confidence,
                     severity := sev.1, severity_score := sev.2,
                     detection_method := some det.method,
                     anomaly_type := some (det.type.getD "temporal"),
                     pattern_context := some pattern_info,
                     explanation := some (tempExplanation p det pattern_info) }
            else none
          else none)))
  { agent := "TemporalAgent", weight := 25/100, anomalies := anomalies }

/-- Configuration of the correlation agent (code defaults:
`weight=0.20`, `min_confidence=0.6`, `pearson_threshold=0.7`,
`window_size=30`, `break_threshold=0.3`). -/
structure CorrCfg where
  weight : ℚ
  min_confidence : ℚ
  pearson_threshold : ℚ
  window_size : Nat
  break_threshold : ℚ
deriving DecidableEq, Repr

/-- The correlation agent's default configuration. -/
def defaultCorrCfg : CorrCfg :=
  { weight := 20/100, min_confidence := 6/10, pearson_threshold := 7/10,
    window_size := 30, break_threshold := 3/10 }

/-- One aligned observation `(value1, value2, timestamp)`. -/
abbrev Aligned := ℚ × ℚ × DateTime

/-- Embedding of `CorrelationAgent._align_series`: inner join of two
series on exact timestamps, sorted by timestamp.  Duplicate timestamps
within one series overwrite earlier ones as in the dict comprehension. -/
def alignSeries (series1 series2 : List DataPoint) : List Aligned :=
  let map1 := series1.foldl (fun acc d => setKey d.timestamp d.value acc) []
  let map2 := series2.foldl (fun acc d => setKey d.timestamp d.value acc) []
  let common := (map1.map (·.1)).filter (fun ts => containsKey ts map2)
  let sorted := common.mergeSort (fun a b => a.leb b)
  sorted.map (fun ts => ((alookup ts map1).getD 0, (alookup ts map2).getD 0, ts))

/-- The correlation record of `CorrelationAgent._calculate_correlation`;
`none` models both the `len < 3` early return and a raising
`pearsonr`/`spearmanr` (caught and turned into `None`). -/
structure CorrResult where
  pearson : ℚ
  pearson_pvalue : ℚ
  spearman : ℚ
  spearman_pvalue : ℚ
  data_points : Nat
  significant : Bool
deriving DecidableEq, Repr

/-- Embedding of `CorrelationAgent._calculate_correlation`. -/
def calcCorrelation (p : Prims) (cfg : CorrCfg) (aligned : List Aligned) :
    Option CorrResult :=
  if aligned.length < 3 then none
  else
    let values1 := aligned.map (·.1)
    let values2 := aligned.map (·.2.1)
    match p.pearsonF values1 values2, p.spearmanF values1 values2 with
    | some pr, some sr =>
      some { pearson := pr.1, pearson_pvalue := pr.2,
             spearman := sr.1, spearman_pvalue := sr.2,
             data_points := aligned.length,
             significant := decide (|pr.1| ≥ cfg.pearson_threshold) }
    | _, _ => none

/-- Embedding of `CorrelationAgent._detect_correlation_breaks`: requires
`len ≥ 2·window_size` and a significant full-sequence Pearson, then slides
a window of `window_size`, emitting a break when the local Pearson moves
by at least `break_threshold` with sufficient normalized confidence.  A
raising `pearsonr` (`none`) skips the window, as the `except: continue`. -/
def detectBreaks (p : Prims) (cfg : CorrCfg) (aligned : List Aligned)
    (key1 key2 : String × String) (historical_corr : CorrResult) : List Anomaly :=
  if aligned.length < cfg.window_size * 2 then []
  else
    let historical_pearson := historical_corr.pearson
    if |historical_pearson| < cfg.pearson_threshold then []
    else
      (List.range' cfg.window_size (aligned.length - cfg.window_size)).filterMap (fun i =>
        let window := slice aligned (i - cfg.window_size) i
        match p.pearsonF (window.map (·.1)) (window.map (·.2.1)) with
        | none => none
        | some cr =>
          let current_corr := cr.1
          let corr_change := |current_corr - historical_pearson|
          if corr_change ≥ cfg.break_threshold then
            let confidence := min (corr_change / cfg.break_threshold) 1
            if confidence ≥ cfg.min_confidence then
              let ai := aligned.getD i (0, 0, ⟨0, 0, 0, 0, 0, 0⟩)
              let sev := calculate_severity confidence (corr_change * 10) 2
              some { agent := some "CorrelationAgent",
                     type := some "correlation_break",
                     source1 := some key1.1, metric1 := some key1.2,
                     source2 := some key2.1, metric2 := some key2.2,
                     timestamp := ai.2.2,
                     value := some (.str (key1.1 ++ "/" ++ key1.2 ++ ": " ++
                       p.fmt2 ai.1 ++ ", " ++ key2.1 ++ "/" ++ key2.2 ++ ": " ++
                       p.fmt2 ai.2.1)),
                     historical_correlation := some historical_pearson,
                     current_correlation := some current_corr,
                     correlation_change := some corr_change,
                     confidence := confidence,
                     severity := sev.1, severity_score := sev.2,
                     explanation := some ("Correlation between " ++ key1.1 ++ " " ++
                       key1.2 ++ " and " ++ key2.1 ++ " " ++ key2.2 ++
                       " broke down. Historical correlation: " ++
                       p.fmt2 historical_pearson ++ ", current: " ++
                       p.fmt2 current_corr ++ ".") }
            else none
          else none)

/-- Embedding of `CorrelationAgent._is_recent` for an anomaly (the
anomaly's timestamp field is always present). -/
def isRecentAnomaly (a : Anomaly) (current : List DataPoint) : Bool :=
  match earliestTs current with
  | none => true
  | some earliest => decide (earliest.le a.timestamp)

/-- Embedding of `CorrelationAgent._detect_simultaneous_anomalies`:
buckets the current points by minute, and emits one anomaly per bucket
spanning at least two points and two distinct sources. -/
def detectSimultaneous (cfg : CorrCfg) (data_points : List DataPoint) :
    List Anomaly :=
  let time_groups := data_points.foldl
    (fun acc pt => upsertWith pt.timestamp.truncMinute pt acc) []
  time_groups.filterMap (fun tg =>
    let ts := tg.1
    let points := tg.2
    if points.length ≥ 2 then
      let sources := pyListSet (points.map (·.source))
      if sources.length ≥ 2 then
        let confidence := min ((sources.length : ℚ) / 3) 1
        if confidence ≥ cfg.min_confidence then
          let sev := calculate_severity confidence 5 sources.length
          some { agent := some "CorrelationAgent",
                 type := some "simultaneous_anomaly",
                 source := some "multi-source", metric := some "correlation",
                 timestamp := ts, value := none,
                 affected_sources := some sources,
                 data_points := some points,
                 confidence := confidence,
                 severity := sev.1, severity_score := sev.2,
                 explanation := some ("Simultaneous anomaly detected across " ++
                   toString sources.length ++ " sources: " ++
                   String.intercalate ", " sources ++ " at " ++
                   ts.strftimeMinute ++ ".") }
        else none
      else none
    else none)

/-- All ordered pairs `(l[i], l[j])` with `i < j`, the iteration order of
`CoordinatorAgent._detect_relationships` and of the correlation agent's
pair loop. -/
def orderedPairs {α : Type} : List α → List (α × α)
  | [] => []
  | x :: xs => xs.map (fun y => (x, y)) ++ orderedPairs xs

/-- Embedding of `CorrelationAgent.analyze`: groups `historical + current`
by (source, metric) into time-sorted series, scans every ordered pair of
distinct series for correlation breaks (kept if recent), then appends the
simultaneous-anomaly scan. -/
def corrAnalyze (p : Prims) (cfg : CorrCfg) (data_points : List DataPoint)
    (historical_data : List DataPoint) : AgentResult :=
  let all_data := historical_data ++ data_points
  let grouped := (groupBySM all_data).map
    (fun kd => (kd.1, kd.2.mergeSort (fun a b => a.timestamp.leb b.timestamp)))
  let pairAnomalies := (orderedPairs grouped).flatMap (fun kk =>
    let aligned := alignSeries kk.1.2 kk.2.2
    if aligned.length ≥ cfg.window_size then
      match calcCorrelation p cfg aligned with
      | none => []
      | some corr_result =>
        (detectBreaks p cfg aligned kk.1.1 kk.2.1 corr_result).filter
          (fun a => isRecentAnomaly a data_points)
    else [])
  let anomalies := pairAnomalies ++ detectSimultaneous cfg data_points
  { agent := "CorrelationAgent", weight := cfg.weight, anomalies := anomalies }

/-- Python `max(values)` for a nonempty rational list (first maximum). -/
def pyMaxQ (v : ℚ) (l : List ℚ) : ℚ := l.foldl (fun acc x => if x > acc then x else acc) v

/-- Python `min(values)` for a nonempty rational list. -/
def pyMinQ (v : ℚ) (l : List ℚ) : ℚ := l.foldl (fun acc x => if x < acc then x else acc) v

/-- Embedding of `ContextAgent._group_by_source`. -/
def groupBySource (points : List DataPoint) : List (String × List DataPoint) :=
  points.foldl (fun acc pt => upsertWith pt.source pt acc) []

/-- Embedding of `ContextAgent._fetch_context`: simulated context with a
`datetime.now()` timestamp; sources other than the three known ones leave
`events` empty and hence return `None`. -/
def fetchContext (now : DateTime) (source : String) (data_points : List DataPoint) :
    Option Ctx :=
  if data_points = [] then none
  else
    let values := data_points.map (·.value)
    let deviation : ℚ :=
      match values with
      | [] => 0
      | v :: vs =>
        let avg_value := pyMean values
        let max_value := pyMaxQ v vs
        (max_value - avg_value) / (if avg_value ≠ 0 then avg_value else 1)
    if source = "cryptocurrency" then
      if deviation > 2 then
        some { source := source, timestamp := now,
               events := [("market_event", "Extreme price volatility detected"),
                          ("news", "Market manipulation alert")],
               relevance := 75/100 }
      else
        some { source := source, timestamp := now,
               events := [("market_event", "Normal trading activity"),
                          ("news", "Standard market conditions")],
               relevance := 4/10 }
    else if source = "weather" then
      let temps := (data_points.filter (fun pt => pt.metric = "temperature")).map (·.value)
      match temps with
      | t :: ts' =>
        if pyMaxQ t ts' > 30 ∨ pyMinQ t ts' < 0 then
          some { source := source, timestamp := now,
                 events := [("meteorological", "Extreme temperature alert"),
                            ("event", "Weather advisory issued")],
                 relevance := 7/10 }
        else
          some { source := source, timestamp := now,
                 events := [("meteorological", "Seasonal weather pattern"),
                            ("event", "Normal conditions")],
                 relevance := 3/10 }
      | [] =>
        some { source := source, timestamp := now,
               events := [("meteorological", "Seasonal weather pattern"),
                          ("event", "Normal conditions")],
               relevance := 3/10 }
    else if source = "github" then
      some { source := source, timestamp := now,
             events := [("platform", "API activity change"),
                        ("event", "Repository activity spike")],
             relevance := 5/10 }
    else none

/-- Embedding of `ContextAgent._is_context_relevant_for_source`
(`min_confidence` default 0.4). -/
def isContextRelevantForSource (data_points : List DataPoint) (context : Ctx) : Bool :=
  if context.relevance < 4/10 then false
  else data_points.length > 0 && context.events.length > 0

/-- Embedding of `ContextAgent._generate_explanation`. -/
def ctxExplanation (p : Prims) (data_point : DataPoint) (context : Ctx) : String :=
  "Anomaly in " ++ data_point.source ++ " " ++ data_point.metric ++
    " may be related to external events: " ++
    String.intercalate ", " (context.events.map (·.2)) ++
    ". Contextual relevance: " ++ p.fmt2 context.relevance ++ "."

/-- Python `max(points, key=lambda p: abs(p.get('value', 0)))`
(first maximum). -/
def maxByAbsValue (pt : DataPoint) (l : List DataPoint) : DataPoint :=
  l.foldl (fun acc x => if |x.value| > |acc.value| then x else acc) pt

/-- Embedding of `ContextAgent.analyze` (defaults `weight=0.15`,
`min_confidence=0.4`): one contextual anomaly per source whose simulated
context is sufficiently relevant, represented by the most extreme point. -/
def ctxAnalyze (p : Prims) (now : DateTime) (data_points : List DataPoint)
    (historical_data : List DataPoint) : AgentResult :=
  let _ := historical_data
  let grouped := groupBySource data_points
  let anomalies := grouped.filterMap (fun sp =>
    let source := sp.1
    let points := sp.2
    match fetchContext now source points with
    | none => none
    | some context =>
      if context.relevance ≥ 4/10 then
        if isContextRelevantForSource points context then
          match points with
          | [] => none
          | pt :: rest =>
            let representative := maxByAbsValue pt rest
            some { agent := some "ContextAgent",
                   source := some source,
                   metric := some representative.metric,
                   timestamp := representative.timestamp,
                   value := some (.num representative.value),
                   confidence := context.relevance,
                   severity := "medium", severity_score := 1/2,
                   context := some context,
                   explanation := some (ctxExplanation p representative context),
                   context_data := some
                     { affected_points := points.length,
                       source_metrics := pyListSet (points.map (·.metric)) } }
        else none
      else none)
  { agent := "ContextAgent", weight := 15/100, anomalies := anomalies }

/-- Formatting of an anomaly `value` of any runtime type: a float formats
with `.2f`, a string raises `ValueError` in Python (modelled as the error
case), and a missing value formats the default `0`. -/
def fmtPyVal2 (p : Prims) (v : Option PyVal) : Except String String :=
  match v with
  | some (.num q) => .ok (p.fmt2 q)
  | some (.str _) => .error "ValueError: Unknown format code 'f' for object of type 'str'"
  | none => .ok (p.fmt2 0)

/-- Embedding of `NarrativeGenerator._generate_opening`. -/
def narrativeOpening (a : Anomaly) : String :=
  let severity_adj :=
    if a.severity = "critical" then "critical"
    else if a.severity = "high" then "significant"
    else if a.severity = "medium" then "notable"
    else if a.severity = "low" then "minor"
    else "notable"
  "A " ++ severity_adj ++ " anomaly was detected in the " ++
    (a.metric.getD "unknown metric") ++ " metric from " ++
    (a.source.getD "unknown source") ++ " on " ++
    a.timestamp.strftimeNarrative ++ "."

/-- Embedding of `NarrativeGenerator._generate_detection_details`: a
`None` value yields the multi-source sentence; a string value makes the
float format raise (error case); an `expected_value` (never present on
agent anomalies) adds the deviation clause. -/
def narrativeDetails (p : Prims) (a : Anomaly) : Except String String :=
  match a.value with
  | none => .ok "This multi-source correlation anomaly was detected across multiple data sources."
  | some (.str _) => .error "ValueError: Unknown format code 'f' for object of type 'str'"
  | some (.num v) =>
    let details := "The observed value was " ++ p.fmt2 v
    let details :=
      match a.expected_value with
      | none => details
      | some expected =>
        let deviation := |v - expected|
        let percent_dev := if expected ≠ 0 then deviation / expected * 100 else 0
        details ++ ", deviating " ++ p.fmt1 percent_dev ++
          "% from the expected value of " ++ p.fmt2 expected
    .ok (details ++ ".")

/-- Embedding of `NarrativeGenerator._generate_consensus_statement`. -/
def narrativeConsensus (detections : List Anomaly) : String :=
  let agent_names := pyListSet (detections.map (fun d => d.agent_name.getD "Unknown"))
  "This anomaly was independently detected by " ++ toString detections.length ++
    " different analysis methods (" ++ String.intercalate ", " agent_names ++
    "), providing strong confidence in the finding."

/-- Embedding of `NarrativeGenerator._generate_impact_statement`. -/
def narrativeImpact (a : Anomaly) : String :=
  if a.severity = "critical" then
    "This is a critical anomaly that requires immediate attention and investigation to determine root cause and prevent potential system issues."
  else if a.severity = "high" then
    "This significant anomaly warrants prompt investigation to understand the underlying cause and assess potential impacts."
  else if a.severity = "low" then
    "This minor anomaly has been logged for awareness and trend analysis."
  else
    "This anomaly should be reviewed to determine if any action is needed and to identify potential patterns."

/-- Embedding of `NarrativeGenerator.generate` at the constructed default
`detail_level="medium"`: opening, detection details, consensus when the
group has more than one member, impact statement, joined by spaces. -/
def narrativeGenerate (p : Prims) (primary : Anomaly)
    (supporting : List Anomaly) : Except String String := do
  let details ← narrativeDetails p primary
  let parts := [narrativeOpening primary, details]
  let parts := if supporting.length > 1 then parts ++ [narrativeConsensus supporting] else parts
  let parts := parts ++ [narrativeImpact primary]
  .ok (String.intercalate " " parts)

/-- A counterfactual scenario dict of `CounterfactualGenerator.generate`. -/
structure Scenario where
  type : String
  title : String
  description : String
  impact : String
  expected_value : Option ℚ := none
  actual_value : Option PyVal := none
  threshold_value : Option ℚ := none
  actual_zscore : Option ℚ := none
  threshold_zscore : Option ℚ := none
  expected_trend : Option ℚ := none
  actual_trend : Option ℚ := none
  stable_mean : Option ℚ := none
  actual_change : Option ℚ := none
  seasonal_expected : Option ℚ := none
  seasonal_component : Option ℚ := none
deriving DecidableEq, Repr

/-- Numeric reading of `anomaly.get('value', 0)` for arithmetic: a string
value raises `TypeError` in Python. -/
def numOfVal (v : Option PyVal) : Except String ℚ :=
  match v with
  | some (.num q) => .ok q
  | some (.str _) => .error "TypeError: unsupported operand type"
  | none => .ok 0

/-- Embedding of `CounterfactualGenerator.generate` (`max_scenarios=5`).
Each scenario is gated on keys (`expected_value`, `z_score`,
`local_slope`/`global_slope`, `mean_before`/`mean_after`,
`seasonal_component`) that no agent-level anomaly carries, so on pipeline
inputs the result is empty; the gates are nevertheless embedded
faithfully. -/
def counterfactualGenerate (p : Prims) (a : Anomaly) :
    Except String (List Scenario) := do
  let s1 : List Scenario ←
    match a.expected_value with
    | none => pure []
    | some expected => do
      let av ← fmtPyVal2 p a.value
      pure [{ type := "expected_value", title := "If the value was normal",
              description := "If the value had been " ++ p.fmt2 expected ++
                " (expected) instead of " ++ av ++
                ", no anomaly would have been detected.",
              expected_value := some expected, actual_value := a.value,
              impact := "No anomaly alert" }]
  let s2 : List Scenario ←
    match a.z_score with
    | none => pure []
    | some z => do
      let value ← numOfVal a.value
      let expected := a.expected_value.getD 0
      let threshold_value := expected + (5/2 * (value - expected) / z)
      pure [{ type := "threshold", title := "If the deviation was smaller",
              description := "If the value had been " ++ p.fmt2 threshold_value ++
                ", it would have been within acceptable thresholds (Z-score < 3.0).",
              threshold_value := some threshold_value, actual_zscore := some z,
              threshold_zscore := some (5/2),
              impact := "Below detection threshold" }]
  let s3 : List Scenario :=
    match a.local_slope, a.global_slope with
    | some ls, some gs =>
      [{ type := "trend", title := "If the trend had continued normally",
         description := "If the local trend had matched the global trend, the value would have followed the expected pattern.",
         expected_trend := some gs, actual_trend := some ls,
         impact := "Consistent with historical trends" }]
    | _, _ => []
  let s4 : List Scenario :=
    match a.mean_before, a.mean_after with
    | some mb, some ma =>
      [{ type := "no_changepoint", title := "If there was no regime change",
         description := "If the mean had remained at " ++ p.fmt2 mb ++
           " instead of shifting to " ++ p.fmt2 ma ++
           ", the pattern would have been normal.",
         stable_mean := some mb, actual_change := some |ma - mb|,
         impact := "Stable pattern maintained" }]
    | _, _ => []
  let s5 : List Scenario :=
    match a.seasonal_component with
    | some sc =>
      [{ type := "seasonal", title := "If seasonal patterns were followed",
         description := "If the value had followed seasonal expectations (" ++
           p.fmt2 (a.expected_value.getD 0) ++
           "), it would be consistent with historical seasonal patterns.",
         seasonal_expected := a.expected_value, seasonal_component := some sc,
         impact := "Aligned with seasonality" }]
    | none => []
  .ok ((s1 ++ s2 ++ s3 ++ s4 ++ s5).take 5)

/-- A final anomaly report of `CoordinatorAgent._create_anomaly_report`. -/
structure Report where
  anomaly_id : String
  source : Option String
  metric : Option String
  timestamp : DateTime
  value : Option PyVal
  consensus_score : ℚ
  severity : String
  severity_score : ℚ
  detection_count : Nat
  detecting_agents : List (Option String)
  detection_methods : List String
  explanation : String
  narrative : String
  counterfactuals : List Scenario
  individual_detections : List Anomaly
  created_at : DateTime
deriving DecidableEq, Repr

/-- The coordinator grouping key of `_group_similar_anomalies`:
`(source, metric, minute-truncated timestamp)`. -/
def groupKey (a : Anomaly) : String × String × DateTime :=
  (a.source.getD "unknown", a.metric.getD "unknown", a.timestamp.truncMinute)

/-- Embedding of `CoordinatorAgent._group_similar_anomalies`: group by
`(source, metric, minute-truncated timestamp)` preserving the insertion
order of keys and members. -/
def groupSimilarAnomalies (anomalies : List Anomaly) : List (List Anomaly) :=
  (anomalies.foldl (fun acc a => upsertWith (groupKey a) a acc) []).map (·.2)

/-- Embedding of `CoordinatorAgent._generate_anomaly_id` (the anomaly's
timestamp field is always present, so the `datetime.now()` fallback never
fires). -/
def generateAnomalyId (a : Anomaly) : String :=
  (a.source.getD "unknown") ++ "_" ++ (a.metric.getD "unknown") ++ "_" ++
    a.timestamp.strftimeId

/-- Python `max(anomaly_group, key=lambda x: x.get('confidence', 0))`
(first maximum). -/
def maxByConfidence (a : Anomaly) (l : List Anomaly) : Anomaly :=
  l.foldl (fun acc x => if x.confidence > acc.confidence then x else acc) a

/-- Embedding of `CoordinatorAgent._combine_explanations`. -/
def combineExplanations (anomaly_group : List Anomaly) : String :=
  let parts := anomaly_group.filterMap (fun a =>
    let explanation := a.explanation.getD ""
    if explanation ≠ "" then
      some ("[" ++ (a.agent_name.getD "Unknown") ++ "] " ++ explanation)
    else none)
  String.intercalate " | " parts

/-- The union of detection methods and contributing agent names collected
by `_create_anomaly_report` before deduplication. -/
def collectMethods (anomaly_group : List Anomaly) : List String :=
  anomaly_group.foldl (fun acc a =>
    let acc := acc ++ a.detection_methods.getD []
    let agent_name := a.agent_name.getD ""
    if agent_name ≠ "" then acc ++ [agent_name] else acc) []

/-- Embedding of `CoordinatorAgent._create_anomaly_report`; `now` is the
`created_at` clock.  The narrative (and, in unreachable branches, the
counterfactual generator) can raise on a string-valued representative,
propagated as the error case. -/
def createAnomalyReport (p : Prims) (now : DateTime)
    (anomaly_group : List Anomaly) : Except String Report :=
  match anomaly_group with
  | [] => .error "ValueError: max() arg is an empty sequence"
  | a0 :: rest =>
    let agent_weights := anomaly_group.map (fun a => a.agent_weight.getD (2/10))
    let agent_confidences := anomaly_group.map (·.confidence)
    let consensus_score := weighted_average agent_confidences agent_weights
    let severity_scores := anomaly_group.map (·.severity_score)
    let avg_severity_score := pyMean severity_scores
    let severity := severityLabel avg_severity_score
    let representative := maxByConfidence a0 rest
    let anomaly_id := generateAnomalyId representative
    let all_methods := collectMethods anomaly_group
    let combined_explanation := combineExplanations anomaly_group
    do
      let narrative ← narrativeGenerate p representative anomaly_group
      let counterfactuals ← counterfactualGenerate p representative
      .ok { anomaly_id := anomaly_id,
            source := representative.source, metric := representative.metric,
            timestamp := representative.timestamp,
            value := representative.value,
            consensus_score := consensus_score,
            severity := severity, severity_score := avg_severity_score,
            detection_count := anomaly_group.length,
            detecting_agents := pyListSet (anomaly_group.map (·.agent_name)),
            detection_methods := pyListSet all_methods,
            explanation := combined_explanation,
            narrative := narrative, counterfactuals := counterfactuals,
            individual_detections := anomaly_group,
            created_at := now }

/-- Embedding of `CoordinatorAgent._add_to_knowledge_graph`. -/
def addReportToKG (now : DateTime) (r : Report) (g : KGState) : KGState :=
  kgAddAnomaly now r.anomaly_id
    { source := r.source, metric := r.metric, value := r.value,
      confidence := some r.consensus_score, severity := some r.severity,
      methods := some r.detection_methods,
      metadata := some { detecting_agents := r.detecting_agents,
                         detection_count := r.detection_count } }
    (some r.timestamp) g

/-- Embedding of `CoordinatorAgent._detect_relationships`: for each
ordered report pair, add a `temporal` edge within 300 s, a `correlation`
edge on equal sources, and a `causal` edge for an earlier-to-later pair
within 600 s (confidence bonus for a high-severity cause). -/
def detectRelationships (now : DateTime) (reports : List Report) (g : KGState) :
    KGState :=
  (orderedPairs reports).foldl
    (fun g rr =>
      let r1 := rr.1
      let r2 := rr.2
      let time_diff := |diffSeconds r1.timestamp r2.timestamp|
      let g := if time_diff ≤ 300 then
        kgAddRelationship now r1.anomaly_id r2.anomaly_id "temporal" (7/10) none g
      else g
      let g := if r1.source = r2.source then
        kgAddRelationship now r1.anomaly_id r2.anomaly_id "correlation" (6/10) none g
      else g
      if r1.timestamp.lt r2.timestamp ∧ time_diff ≤ 600 then
        kgAddRelationship now r1.anomaly_id r2.anomaly_id "causal"
          (1/2 + if r1.severity = "high" then 3/10 else 0) (some time_diff) g
      else g)
    g

/-- Descending stable order on `(severity_score, consensus_score)`
(`final_reports.sort(key=…, reverse=True)`). -/
def reportSortKeyGE (a b : Report) : Bool :=
  decide (b.severity_score < a.severity_score ∨
    (a.severity_score = b.severity_score ∧ b.consensus_score ≤ a.consensus_score))

/-- The synthesized cycle result of `CoordinatorAgent.synthesize`. -/
structure SynthRes where
  agent : String
  total_anomalies : Nat
  high_severity_count : Nat
  reports : List Report
  agents_consulted : List String
  total_detections : Nat
  consensus_threshold : ℚ
deriving DecidableEq, Repr

/-- Embedding of `CoordinatorAgent.synthesize`
(`consensus_threshold` default 0.6): flatten and tag all agent anomalies,
group, build a report per group, keep those meeting the consensus
threshold, sort, publish to the knowledge graph and derive
relationships. -/
def synthesize (p : Prims) (now : DateTime) (agent_results : List AgentResult)
    (g : KGState) : Except String (SynthRes × KGState) := do
  let all_anomalies := agent_results.flatMap (fun r =>
    r.anomalies.map (fun a =>
      { a with agent_name := some r.agent, agent_weight := some r.weight }))
  let grouped := groupSimilarAnomalies all_anomalies
  let candidate_reports ← grouped.mapM (createAnomalyReport p now)
  let final_reports := candidate_reports.filter (fun r => r.consensus_score ≥ 6/10)
  let final_reports := final_reports.mergeSort reportSortKeyGE
  let g := final_reports.foldl (fun g r => addReportToKG now r g) g
  let g := detectRelationships now final_reports g
  .ok ({ agent := "CoordinatorAgent",
         total_anomalies := final_reports.length,
         high_severity_count := (final_reports.filter
           (fun r => r.severity = "high" ∨ r.severity = "critical")).length,
         reports := final_reports,
         agents_consulted := agent_results.map (·.agent),
         total_detections := all_anomalies.length,
         consensus_threshold := 6/10 }, g)

/-- The complete analysis result of `AgentOrchestrator.analyze`. -/
structure AnalysisResult where
  synth : SynthRes
  knowledge_graph : GraphExport
deriving DecidableEq, Repr

/-- Semantics of `asyncio.gather(*tasks)` with the default
`return_exceptions=False`: all results when every task succeeds, otherwise
the failure propagates out of the `await`. -/
def gatherE {α : Type} : List (Except String α) → Except String (List α)
  | [] => .ok []
  | r :: rs => do
    let v ← r
    let vs ← gatherE rs
    .ok (v :: vs)

/-- Embedding of the orchestration pattern of `AgentOrchestrator.analyze`
with the four agent coroutines abstracted as possibly-failing
computations (an agent's `analyze` that throws is an `error` value): the
orchestrator gathers all agents, synthesizes, and attaches the graph
export.  There is no `try/except` and no timeout around the gather. -/
def orchestratorAnalyzeWith (p : Prims) (now : DateTime)
    (agentRuns : List (Except String AgentResult)) (g : KGState) :
    Except String (AnalysisResult × KGState) := do
  let agent_results ← gatherE agentRuns
  let sr ← synthesize p now agent_results g
  .ok ({ synth := sr.1, knowledge_graph := kgExport sr.2 }, sr.2)

/-- Embedding of `AgentOrchestrator.analyze`: the four concrete agents
(statistical, temporal, correlation, context) run on the same inputs and
their results are synthesized.  `now` models `datetime.now()` wherever the
cycle consults the clock. -/
def orchestratorAnalyze (p : Prims) (now : DateTime)
    (current_data historical_data : List DataPoint) (g : KGState) :
    Except String (AnalysisResult × KGState) :=
  orchestratorAnalyzeWith p now
    [.ok (statAnalyze p now current_data historical_data),
     .ok (tempAnalyze p now current_data historical_data),
     .ok (corrAnalyze p defaultCorrCfg current_data historical_data),
     .ok (ctxAnalyze p now current_data historical_data)] g

/-- Batch-removal description of a cleanup pass: drop the listed node ids
together with their incident edges, timestamps and signatures (used to
characterize the removal fold of `_cleanup_old_nodes`). -/
def kgRemoveAll (ids : List String) (s : KGState) : KGState :=
  { s with
    nodes := s.nodes.filter (fun kv => ¬ kv.1 ∈ ids),
    edges := s.edges.filter (fun e => ¬ (e.1.1 ∈ ids ∨ e.1.2 ∈ ids)),
    node_timestamps := s.node_timestamps.filter (fun kv => ¬ kv.1 ∈ ids),
    signatures := s.signatures.filter (fun kv => ¬ kv.1 ∈ ids) }

/-- Overwrite the timestamp of a context-agent context (the only place the
wall clock reaches a report apart from `created_at`). -/
def setCtxTime (n : DateTime) (a : Anomaly) : Anomaly :=
  { a with context := a.context.map (fun c => { c with timestamp := n }) }

/-- The fixed placeholder timestamp used when erasing clock-dependent
fields for comparison. -/
def dtZero : DateTime := ⟨0, 0, 0, 0, 0, 0⟩

/-- Erase the clock-dependent `context.timestamp` of an anomaly. -/
def scrubAnomaly (a : Anomaly) : Anomaly := setCtxTime dtZero a

/-- Erase `created_at` of a report (the field the determinism claim
ignores). -/
def scrubCreatedAt (r : Report) : Report := { r with created_at := dtZero }

/-- Erase `created_at` and the nested context timestamps of a report. -/
def scrubReport (r : Report) : Report :=
  { r with created_at := dtZero,
           individual_detections := r.individual_detections.map scrubAnomaly }

/-- Concrete current-data batch for the determinism counterexample: two
same-minute cryptocurrency points whose spread makes the context agent's
simulated relevance high. -/
def cexPoints : List DataPoint :=
  [{ source := "cryptocurrency", metric := "price", value := -10,
     timestamp := ⟨2024, 5, 10, 12, 0, 5⟩ },
   { source := "cryptocurrency", metric := "price", value := 10,
     timestamp := ⟨2024, 5, 10, 12, 0, 5⟩ }]

/-- First wall-clock instant of the determinism counterexample. -/
def cexNow1 : DateTime := ⟨2024, 5, 10, 12, 30, 0⟩

/-- Second wall-clock instant of the determinism counterexample. -/
def cexNow2 : DateTime := ⟨2024, 5, 10, 12, 30, 1⟩

/-- Knowledge-graph state holding the two nodes `"a"` and `"b"` used by
the typed-edge counterexample. -/
def edgeCexGraph : KGState :=
  kgAddAnomaly cexNow1 "b" {} (some ⟨2024, 5, 10, 12, 0, 0⟩)
    (kgAddAnomaly cexNow1 "a" {} (some ⟨2024, 5, 10, 12, 0, 0⟩) (kgInit 1000))

/-- The typed-edge counterexample state: a `temporal` then a `correlation`
edge added for the same ordered pair. -/
def edgeCexGraph2 : KGState :=
  kgAddRelationship cexNow1 "a" "b" "correlation" (6/10) none
    (kgAddRelationship cexNow1 "a" "b" "temporal" (7/10) none edgeCexGraph)

/-- First singleton anomaly of the anomaly-id counterexample
(12:00:05). -/
def idCexA1 : Anomaly :=
  { source := some "s", metric := some "m",
    timestamp := ⟨2024, 5, 10, 12, 0, 5⟩, confidence := 9/10,
    severity := "low", severity_score := 0, agent_name := some "A",
    agent_weight := some (1/4), value := some (.num 1),
    explanation := some "e" }

/-- Second singleton anomaly of the anomaly-id counterexample (12:00:10,
same minute as the first). -/
def idCexA2 : Anomaly := { idCexA1 with timestamp := ⟨2024, 5, 10, 12, 0, 10⟩ }

/-- The moderate-branch anomaly emitted for the funding rate `0.09`
(with the trivial float primitives; `0.6 + 0.09/0.15 = 1.2`). -/
def fundingWitnessAnomaly : FundingAnomaly :=
  { index := 0, funding_rate := 9/100, severity := "medium",
    confidence := 6/5, method := "funding_rate",
    signal := "high_long_pressure",
    explanation := "Elevated funding rate of % indicates strong long bias in the market." }

/-- Prims instantiation for the correlation-break witness: the pearson of
any window is 0 (with p-value 0). -/
def c7Prims : Prims := { trivPrims with pearsonF := fun _ _ => some (0, 0) }

/-- Concrete two-point aligned series for the correlation-break witness. -/
def c7Aligned : List Aligned := [(1, 2, cexNow1), (3, 4, cexNow2)]

/-- Window-1 configuration accepting any correlation break. -/
def c7Cfg : CorrCfg :=
  { weight := 0, min_confidence := 0, pearson_threshold := 0, window_size := 1,
    break_threshold := 1/10 }

/-- Historical correlation record for the correlation-break witness. -/
def c7Hist : CorrResult :=
  { pearson := 1, pearson_pvalue := 0, spearman := 1, spearman_pvalue := 0,
    data_points := 2, significant := true }

/-! ## Theorems -/

/-- The closed form of the severity score. -/
theorem calculate_severity_snd (c m : ℚ) (s : ℤ) (n : Bool) :
    (calculate_severity c m s n).2 =
      min (c * (4/10) + min (m / 10) 1 * (3/10) + min ((s : ℚ) / 5) 1 * (2/10) +
        (if n then 1/10 else 0)) 1 := by
  cases n <;> simp [calculate_severity]

/-- C5: `calculate_severity` computes
`score = 0.4·confidence + 0.3·min(magnitude/10, 1) + 0.2·min(scope/5, 1) +
0.1·[novelty]` capped at 1; the score is monotone non-decreasing in the
confidence, the deviation magnitude and the impact scope; and the returned
label is exactly `critical` for score ≥ 0.9, `high` for score ≥ 0.75,
`medium` for score ≥ 0.5, and `low` otherwise. -/
theorem calculate_severity_correct :
    (∀ (c m : ℚ) (s : ℤ) (n : Bool),
      (calculate_severity c m s n).2 =
        min (c * (4/10) + min (m / 10) 1 * (3/10) + min ((s : ℚ) / 5) 1 * (2/10) +
          (if n then 1/10 else 0)) 1 ∧
      (calculate_severity c m s n).1 = severityLabel (calculate_severity c m s n).2) ∧
    (∀ (c c' m : ℚ) (s : ℤ) (n : Bool), c ≤ c' →
      (calculate_severity c m s n).2 ≤ (calculate_severity c' m s n).2) ∧
    (∀ (c m m' : ℚ) (s : ℤ) (n : Bool), m ≤ m' →
      (calculate_severity c m s n).2 ≤ (calculate_severity c m' s n).2) ∧
    (∀ (c m : ℚ) (s s' : ℤ) (n : Bool), s ≤ s' →
      (calculate_severity c m s n).2 ≤ (calculate_severity c m s' n).2) ∧
    (∀ (c m : ℚ) (s : ℤ) (n : Bool),
      ((calculate_severity c m s n).1 = "critical" ↔ 9/10 ≤ (calculate_severity c m s n).2) ∧
      ((calculate_severity c m s n).1 = "high" ↔
        3/4 ≤ (calculate_severity c m s n).2 ∧ (calculate_severity c m s n).2 < 9/10) ∧
      ((calculate_severity c m s n).1 = "medium" ↔
        1/2 ≤ (calculate_severity c m s n).2 ∧ (calculate_severity c m s n).2 < 3/4) ∧
      ((calculate_severity c m s n).1 = "low" ↔ (calculate_severity c m s n).2 < 1/2)) := by
  have hmono : ∀ (c c' m m' : ℚ) (s s' : ℤ) (n : Bool), c ≤ c' → m ≤ m' → s ≤ s' →
      (calculate_severity c m s n).2 ≤ (calculate_severity c' m' s' n).2 := by
    intro c c' m m' s s' n hc hm hs
    rw [calculate_severity_snd, calculate_severity_snd]
    have hs' : (s : ℚ) ≤ (s' : ℚ) := by exact_mod_cast hs
    gcongr
  refine ⟨?_, ?_, ?_, ?_, ?_⟩
  · intro c m s n
    exact ⟨calculate_severity_snd c m s n, rfl⟩
  · intro c c' m s n hc; exact hmono c c' m m s s n hc le_rfl le_rfl
  · intro c m m' s n hm; exact hmono c c m m' s s n le_rfl hm le_rfl
  · intro c m s s' n hs; exact hmono c c m m s s' n le_rfl le_rfl hs
  · intro c m s n
    have hl : (calculate_severity c m s n).1 = severityLabel (calculate_severity c m s n).2 := rfl
    rw [hl]
    unfold severityLabel
    split_ifs with h1 h2 h3 <;>
      refine ⟨?_, ?_, ?_, ?_⟩ <;> simp_all <;> intros <;> linarith

/-- Witness for `calculate_severity_correct` at concrete inputs. -/
theorem calculate_severity_correct_witness :
    ((1:ℚ)/2 ≤ 3/4) ∧
      (calculate_severity (1/2) 2 1 false).2 ≤ (calculate_severity (3/4) 2 1 false).2 :=
  ⟨by norm_num, calculate_severity_correct.2.1 (1/2) (3/4) 2 1 false (by norm_num)⟩

unseal Rat.add Rat.mul Rat.inv Rat.sub Nat.gcd in
/-- C4 counterexample: on the funding-rate input `[0.09]` (a moderate-branch
rate, since `0.05 ≤ 0.09 < 0.10`) the funding-rate detector emits an
anomaly whose confidence is `0.6 + 0.09/0.15 = 1.2 > 1`, so it is false
that every emitted detection carries a confidence at most 1. -/
theorem fundingRate_confidence_cex :
    ¬ (∀ a ∈ fundingRateDetect trivPrims (1/10) (5/100) [9/100] [] [],
        a.confidence ≤ 1) := by decide

/-- C4 (amended): with the default thresholds, every extreme-branch
anomaly (`|rate| ≥ 0.10`) of the funding-rate detector carries confidence
`min(0.95, 0.7 + |rate|/0.2)`, which lies in `[0,1]`; every
moderate-branch anomaly (`0.05 ≤ |rate| < 0.10`) carries the uncapped
confidence `0.6 + |rate|/0.15`, which is at most 1 exactly when
`|rate| ≤ 0.06` — so the detector's confidences are not bounded by 1. -/
theorem fundingRateDetect_confidence_bounds (p : Prims) (rates : List ℚ)
    (ts : List DateTime) (syms : List String) :
    ∀ a ∈ fundingRateDetect p (1/10) (5/100) rates ts syms,
      (1/10 ≤ |a.funding_rate| →
        a.confidence = min (95/100) (7/10 + |a.funding_rate| / (2/10)) ∧
        0 ≤ a.confidence ∧ a.confidence ≤ 1) ∧
      (|a.funding_rate| < 1/10 →
        5/100 ≤ |a.funding_rate| ∧
        a.confidence = 6/10 + |a.funding_rate| / (15/100) ∧
        (a.confidence ≤ 1 ↔ |a.funding_rate| ≤ 6/100)) := by
  intro a ha
  unfold fundingRateDetect at ha
  split at ha
  · simp at ha
  · obtain ⟨ir, hmem, hf⟩ := List.mem_filterMap.mp ha
    dsimp only at hf
    by_cases h1 : |ir.2| ≥ 1/10
    · rw [if_pos h1, Option.some_inj] at hf
      subst hf
      refine ⟨fun _ => ⟨rfl, ?_, ?_⟩, fun hlt => absurd h1 (not_le.mpr hlt)⟩
      · exact le_min (by norm_num) (by positivity)
      · exact le_trans (min_le_left _ _) (by norm_num)
    · rw [if_neg h1] at hf
      by_cases h2 : |ir.2| ≥ 5/100
      · rw [if_pos h2, Option.some_inj] at hf
        subst hf
        refine ⟨fun h10 => absurd h10 h1, fun _ => ⟨h2, rfl, ?_⟩⟩
        have hx : |ir.2| / (15/100) = |ir.2| * (20/3) := by ring
        rw [hx]
        constructor <;> intro h <;> linarith
      · rw [if_neg h2] at hf
        exact absurd hf (by simp)

unseal Rat.add Rat.mul Rat.inv Rat.sub Nat.gcd in
/-- Witness for `fundingRateDetect_confidence_bounds` at the concrete
moderate input `0.09`. -/
theorem fundingRateDetect_confidence_bounds_witness :
    5/100 ≤ |fundingWitnessAnomaly.funding_rate| ∧
    fundingWitnessAnomaly.confidence = 6/10 + |fundingWitnessAnomaly.funding_rate| / (15/100) ∧
    (fundingWitnessAnomaly.confidence ≤ 1 ↔ |fundingWitnessAnomaly.funding_rate| ≤ 6/100) :=
  (fundingRateDetect_confidence_bounds trivPrims [9/100] [] []
    fundingWitnessAnomaly (by decide)).2
    (by show |(9:ℚ)/100| < 1/10; rw [abs_of_pos (by norm_num)]; norm_num)

/-! ### Association-list lemmas -/

theorem alookup_setKey_self {κ β : Type} [DecidableEq κ] (k : κ) (v : β) (l : List (κ × β)) :
    alookup k (setKey k v l) = some v := by
  induction l with
  | nil => simp [setKey, alookup]
  | cons kv rest ih =>
    by_cases h : kv.1 = k
    · simp [setKey, h, alookup]
    · simp [setKey, h, alookup, ih]

theorem alookup_setKey_ne {κ β : Type} [DecidableEq κ] {k' k : κ} (v : β)
    (l : List (κ × β)) (h : k' ≠ k) :
    alookup k' (setKey k v l) = alookup k' l := by
  induction l with
  | nil => simp [setKey, alookup, Ne.symm h]
  | cons kv rest ih =>
    simp only [setKey]
    by_cases hk : kv.1 = k
    · rw [if_pos hk]
      have hne : ¬ kv.1 = k' := by rw [hk]; exact Ne.symm h
      simp only [alookup, if_neg hne]
    · rw [if_neg hk]
      by_cases hk' : kv.1 = k'
      · simp only [alookup, if_pos hk']
      · simp only [alookup, if_neg hk', ih]

theorem containsKey_iff {κ β : Type} [DecidableEq κ] (k : κ) (l : List (κ × β)) :
    containsKey k l = true ↔ k ∈ l.map Prod.fst := by
  induction l with
  | nil => simp [containsKey, alookup]
  | cons kv rest ih =>
    by_cases h : kv.1 = k
    · simp [containsKey, alookup, h]
    · simpa [containsKey, alookup, h, Ne.symm h] using ih

theorem map_fst_setKey {κ β : Type} [DecidableEq κ] (k : κ) (v : β) (l : List (κ × β)) :
    (setKey k v l).map Prod.fst =
      if containsKey k l then l.map Prod.fst else l.map Prod.fst ++ [k] := by
  induction l with
  | nil => simp [setKey, containsKey, alookup]
  | cons kv rest ih =>
    by_cases h : kv.1 = k
    · have hc : containsKey k (kv :: rest) = true := by simp [containsKey, alookup, h]
      rw [hc]
      simp [setKey, h]
    · have hc : containsKey k (kv :: rest) = containsKey k rest := by
        simp [containsKey, alookup, h]
      rw [hc]
      simp only [setKey, if_neg h, List.map_cons, ih]
      split <;> simp

theorem nodup_keys_setKey {κ β : Type} [DecidableEq κ] (k : κ) (v : β)
    {l : List (κ × β)} (h : (l.map Prod.fst).Nodup) :
    ((setKey k v l).map Prod.fst).Nodup := by
  rw [map_fst_setKey]
  split
  · exact h
  · next hc =>
    simp only [List.nodup_append, List.nodup_cons]
    have hk : k ∉ l.map Prod.fst := fun hm => hc ((containsKey_iff k l).mpr hm)
    refine ⟨h, by simp, ?_⟩
    intro a ha hb
    simp only [List.mem_singleton] at hb
    subst hb
    exact hk ha

theorem length_setKey {κ β : Type} [DecidableEq κ] (k : κ) (v : β) (l : List (κ × β)) :
    (setKey k v l).length = if containsKey k l then l.length else l.length + 1 := by
  have h2 : ((setKey k v l).map Prod.fst).length =
      (if containsKey k l then l.map Prod.fst else l.map Prod.fst ++ [k]).length := by
    rw [map_fst_setKey]
  simpa [apply_ite List.length] using h2

theorem containsKey_setKey_iff {κ β : Type} [DecidableEq κ] (k' k : κ) (v : β)
    (l : List (κ × β)) :
    containsKey k' (setKey k v l) = true ↔ (k' = k ∨ containsKey k' l = true) := by
  rw [containsKey_iff, map_fst_setKey]
  split
  · next hc =>
    rw [containsKey_iff] at hc
    constructor
    · exact fun hm => Or.inr ((containsKey_iff _ _).mpr hm)
    · rintro (rfl | hm)
      · exact hc
      · exact (containsKey_iff _ _).mp hm
  · rw [List.mem_append, List.mem_singleton, containsKey_iff, or_comm]

theorem containsKey_filter_ne_iff {κ β : Type} [DecidableEq κ] (k' r : κ)
    (l : List (κ × β)) :
    containsKey k' (l.filter (fun kv => kv.1 ≠ r)) = true ↔
      (k' ≠ r ∧ containsKey k' l = true) := by
  simp only [containsKey_iff, List.mem_map, List.mem_filter]
  constructor
  · rintro ⟨kv, ⟨hm, hne⟩, rfl⟩
    exact ⟨by simpa using hne, kv, hm, rfl⟩
  · rintro ⟨hne, kv, hm, rfl⟩
    exact ⟨kv, ⟨hm, by simpa using hne⟩, rfl⟩

/-! ### C6: edge multiplicity of the knowledge graph -/

/-- The edge store of a cleanup-removal fold is a sublist of the original
edge store. -/
theorem foldl_removeNode_edges_sublist (rem : List (String × DateTime)) :
    ∀ s : KGState,
      ((rem.foldl (fun st x => kgRemoveNode x.1 st) s).edges).Sublist s.edges := by
  induction rem with
  | nil => intro s; simp
  | cons r rest ih =>
    intro s
    exact (ih (kgRemoveNode r.1 s)).trans (List.filter_sublist _)

/-- The edge store never grows during a cleanup pass. -/
theorem kgCleanup_edges_sublist (s : KGState) : (kgCleanup s).edges.Sublist s.edges := by
  unfold kgCleanup
  split
  · exact List.Sublist.refl _
  · exact foldl_removeNode_edges_sublist _ _

/-- Reachable graph states keep at most one edge per ordered node pair:
the ordered-pair keys of the edge store are duplicate-free. -/
theorem kg_edges_keys_nodup {s : KGState} (h : KGReachable s) :
    (s.edges.map Prod.fst).Nodup := by
  induction h with
  | init mn => simp [kgInit]
  | add h now id d ts ih =>
    exact List.Nodup.sublist ((kgCleanup_edges_sublist _).map Prod.fst) ih
  | rel h now f t ty c md ih =>
    unfold kgAddRelationship
    split
    · exact ih
    · exact nodup_keys_setKey _ _ ih

/-- C6 (amended): the graph is an `nx.DiGraph`, holding at most one edge
per ordered `(from, to)` pair — not per `(from, to, type)` triple.  In any
reachable state the edge keys are duplicate-free, and when both endpoints
exist, `add_relationship` replaces the unique `(from, to)` edge with the
new type, confidence and metadata (the last call wins), leaving every
other ordered pair untouched; distinct typed edges for the same ordered
pair therefore never coexist. -/
theorem addRelationship_overwrites_pair_edge :
    (∀ s : KGState, KGReachable s → (s.edges.map Prod.fst).Nodup) ∧
    (∀ (now : DateTime) (f t ty : String) (c : ℚ) (md : Option ℚ) (s : KGState),
      containsKey f s.nodes = true → containsKey t s.nodes = true →
      (kgAddRelationship now f t ty c md s).edges =
        setKey (f, t) ⟨ty, c, now, md⟩ s.edges ∧
      alookup (f, t) (kgAddRelationship now f t ty c md s).edges =
        some ⟨ty, c, now, md⟩ ∧
      ∀ k, k ≠ (f, t) →
        alookup k (kgAddRelationship now f t ty c md s).edges = alookup k s.edges) := by
  constructor
  · exact fun s h => kg_edges_keys_nodup h
  · intro now f t ty c md s hf ht
    have hguard : ¬ (¬ containsKey f s.nodes = true ∨ ¬ containsKey t s.nodes = true) := by
      simp [hf, ht]
    rw [kgAddRelationship, if_neg hguard]
    exact ⟨rfl, alookup_setKey_self _ _ _, fun k hk => alookup_setKey_ne _ _ hk⟩

unseal Rat.add Rat.mul Rat.inv Rat.sub Nat.gcd in
/-- C6 counterexample: on a graph holding nodes `"a"` and `"b"`, adding a
`temporal` edge and then a `correlation` edge for the same ordered pair
leaves exactly one `(a, b)` edge, of type `correlation`; the `temporal`
edge does not coexist with it. -/
theorem typed_edges_coexist_cex :
    containsKey "a" edgeCexGraph.nodes = true ∧
    containsKey "b" edgeCexGraph.nodes = true ∧
    edgeCexGraph2.edges.map (fun e => (e.1, e.2.type)) = [(("a", "b"), "correlation")] ∧
    ¬ ∃ e ∈ edgeCexGraph2.edges, e.2.type = "temporal" := by
  refine ⟨by decide, by decide, by decide, by decide⟩

unseal Rat.add Rat.mul Rat.inv Rat.sub Nat.gcd in
/-- Witness for `addRelationship_overwrites_pair_edge` on the concrete
two-node graph. -/
theorem addRelationship_overwrites_pair_edge_witness :
    alookup ("a", "b")
        (kgAddRelationship cexNow1 "a" "b" "temporal" (7/10) none edgeCexGraph).edges =
      some ⟨"temporal", 7/10, cexNow1, none⟩ :=
  (addRelationship_overwrites_pair_edge.2 cexNow1 "a" "b" "temporal" (7/10) none
    edgeCexGraph (by decide) (by decide)).2.1

/-! ### C9: anomaly-id format and stability -/

/-- C9 (amended): every produced report's `anomaly_id` is
`"{source}_{metric}_{YYYYMMDD_HHMMSS}"` built from the report's own
source, metric and full-second representative timestamp; consequently two
reports agreeing on `(source, metric, second-resolution timestamp)` share
their `anomaly_id`.  (Sharing only the minute-truncated grouping key does
not suffice, since the id keeps the seconds.) -/
theorem report_anomaly_id_format :
    (∀ (p : Prims) (now : DateTime) (group : List Anomaly) (r : Report),
      createAnomalyReport p now group = .ok r →
      r.anomaly_id = (r.source.getD "unknown") ++ "_" ++ (r.metric.getD "unknown") ++
        "_" ++ r.timestamp.strftimeId) ∧
    (∀ (p₁ : Prims) (n₁ : DateTime) (g₁ : List Anomaly) (r₁ : Report)
       (p₂ : Prims) (n₂ : DateTime) (g₂ : List Anomaly) (r₂ : Report),
      createAnomalyReport p₁ n₁ g₁ = .ok r₁ →
      createAnomalyReport p₂ n₂ g₂ = .ok r₂ →
      r₁.source = r₂.source → r₁.metric = r₂.metric → r₁.timestamp = r₂.timestamp →
      r₁.anomaly_id = r₂.anomaly_id) := by
  have hfmt : ∀ (p : Prims) (now : DateTime) (group : List Anomaly) (r : Report),
      createAnomalyReport p now group = .ok r →
      r.anomaly_id = (r.source.getD "unknown") ++ "_" ++ (r.metric.getD "unknown") ++
        "_" ++ r.timestamp.strftimeId := by
    intro p now group r h
    cases group with
    | nil => simp [createAnomalyReport] at h
    | cons a0 rest =>
      simp only [createAnomalyReport] at h
      cases hn : narrativeGenerate p (maxByConfidence a0 rest) (a0 :: rest) with
      | error e => rw [hn] at h; simp [Bind.bind, Except.bind] at h
      | ok nv =>
        rw [hn] at h
        cases hc : counterfactualGenerate p (maxByConfidence a0 rest) with
        | error e => rw [hc] at h; simp [Bind.bind, Except.bind] at h
        | ok cv =>
          rw [hc] at h
          simp only [Bind.bind, Except.bind, Except.ok.injEq] at h
          subst h
          rfl
  refine ⟨hfmt, ?_⟩
  intro p₁ n₁ g₁ r₁ p₂ n₂ g₂ r₂ h₁ h₂ hs hm ht
  rw [hfmt p₁ n₁ g₁ r₁ h₁, hfmt p₂ n₂ g₂ r₂ h₂, hs, hm, ht]

unseal Rat.add Rat.mul Rat.inv Rat.sub Nat.gcd in
/-- C9 counterexample: two singleton anomaly groups with the same
`(source, metric, minute-truncated timestamp)` grouping key but
representative seconds `:05` and `:10` produce reports with different
`anomaly_id`s, so reports sharing the minute key need not share an id. -/
theorem anomaly_id_minute_key_cex :
    groupKey idCexA1 = groupKey idCexA2 ∧
    ((createAnomalyReport trivPrims cexNow1 [idCexA1]).toOption.map (·.anomaly_id)) =
      some "s_m_20240510_120005" ∧
    ((createAnomalyReport trivPrims cexNow1 [idCexA2]).toOption.map (·.anomaly_id)) =
      some "s_m_20240510_120010" ∧
    "s_m_20240510_120005" ≠ "s_m_20240510_120010" := by
  refine ⟨by decide, by decide, by decide, by decide⟩

unseal Rat.add Rat.mul Rat.inv Rat.sub Nat.gcd in
/-- Witness for `report_anomaly_id_format` on a concrete report. -/
theorem report_anomaly_id_format_witness :
    ∃ r : Report, createAnomalyReport trivPrims cexNow1 [idCexA1] = .ok r ∧
      r.anomaly_id = (r.source.getD "unknown") ++ "_" ++ (r.metric.getD "unknown") ++
        "_" ++ r.timestamp.strftimeId := by
  have hok : (createAnomalyReport trivPrims cexNow1 [idCexA1]).isOk = true := by decide
  rcases hE : createAnomalyReport trivPrims cexNow1 [idCexA1] with e | r
  · rw [hE] at hok; simp [Except.isOk, Except.toBool] at hok
  · exact ⟨r, rfl, report_anomaly_id_format.1 trivPrims cexNow1 [idCexA1] r hE⟩

/-! ### C1: agent failure handling of the orchestrator -/

/-- `asyncio.gather` with default flags on all-successful tasks returns
all results. -/
theorem gatherE_map_ok {α : Type} (results : List α) :
    gatherE (results.map Except.ok) = .ok results := by
  induction results with
  | nil => rfl
  | cons r rest ih => simp [gatherE, Bind.bind, Except.bind, ih]

/-- `asyncio.gather` with default flags propagates a failure of any
task. -/
theorem gatherE_error_mem {α : Type} {runs : List (Except String α)} {e : String}
    (h : Except.error e ∈ runs) : ∃ e', gatherE runs = .error e' := by
  induction runs with
  | nil => simp at h
  | cons r rest ih =>
    cases r with
    | error e'' => exact ⟨e'', rfl⟩
    | ok v =>
      rcases List.mem_cons.mp h with h1 | h2
      · exact absurd h1 (by simp)
      · obtain ⟨e', he'⟩ := ih h2
        exact ⟨e', by simp [gatherE, Bind.bind, Except.bind, he']⟩

/-- C1 (amended): the orchestrator awaits the agents with
`asyncio.gather(*tasks)` and no `try`/`except`, `return_exceptions`, or
timeout, so a single failing agent run makes the whole `analyze` call
fail; only when every agent run succeeds does `analyze` complete, and then
every agent (none absent) appears in `agents_consulted`. -/
theorem orchestrator_failure_propagation :
    (∀ (p : Prims) (now : DateTime) (g : KGState)
       (runs : List (Except String AgentResult)) (e : String),
      Except.error e ∈ runs →
      ∃ e', orchestratorAnalyzeWith p now runs g = .error e') ∧
    (∀ (p : Prims) (now : DateTime) (g : KGState) (results : List AgentResult)
       (r : (AnalysisResult × KGState)),
      orchestratorAnalyzeWith p now (results.map Except.ok) g = .ok r →
      r.1.synth.agents_consulted = results.map (·.agent)) := by
  constructor
  · intro p now g runs e hmem
    obtain ⟨e', he'⟩ := gatherE_error_mem hmem
    exact ⟨e', by simp [orchestratorAnalyzeWith, Bind.bind, Except.bind, he']⟩
  · intro p now g results r h
    unfold orchestratorAnalyzeWith at h
    rw [gatherE_map_ok] at h
    simp only [Bind.bind, Except.bind] at h
    cases hs : synthesize p now results g with
    | error e => rw [hs] at h; simp at h
    | ok sr =>
      rw [hs] at h
      simp only [Except.ok.injEq] at h
      subst h
      unfold synthesize at hs
      simp only [Bind.bind, Except.bind] at hs
      cases hm : (groupSimilarAnomalies
          (results.flatMap (fun rr => rr.anomalies.map (fun a =>
            { a with agent_name := some rr.agent, agent_weight := some rr.weight })))).mapM
          (createAnomalyReport p now) with
      | error e => rw [hm] at hs; simp at hs
      | ok reports =>
        rw [hm] at hs
        simp only [Except.ok.injEq] at hs
        rw [← hs]

unseal Rat.add Rat.mul Rat.inv Rat.sub Nat.gcd in
/-- C1 counterexample: when one agent's analyze raises (here the first)
while the remaining three succeed, the orchestrator's analyze does not
complete with the remaining agents' results — the failure propagates out
of `analyze` itself. -/
theorem orchestrator_single_failure_cex :
    orchestratorAnalyzeWith trivPrims cexNow1
      [Except.error "boom",
       .ok (tempAnalyze trivPrims cexNow1 [] []),
       .ok (corrAnalyze trivPrims defaultCorrCfg [] []),
       .ok (ctxAnalyze trivPrims cexNow1 [] [])] (kgInit 1000) =
      .error "boom" := rfl

unseal Rat.add Rat.mul Rat.inv Rat.sub Nat.gcd List.mergeSort List.merge in
/-- Witness for `orchestrator_failure_propagation` at concrete runs. -/
theorem orchestrator_failure_propagation_witness :
    (∃ e', orchestratorAnalyzeWith trivPrims cexNow1
      [Except.error "boom",
       .ok (tempAnalyze trivPrims cexNow1 [] []),
       .ok (corrAnalyze trivPrims defaultCorrCfg [] []),
       .ok (ctxAnalyze trivPrims cexNow1 [] [])] (kgInit 1000) = .error e') ∧
    (∃ r, orchestratorAnalyzeWith trivPrims cexNow1
        ([statAnalyze trivPrims cexNow1 [] []].map Except.ok) (kgInit 1000) = .ok r ∧
      r.1.synth.agents_consulted = [statAnalyze trivPrims cexNow1 [] []].map (·.agent)) := by
  constructor
  · exact orchestrator_failure_propagation.1 trivPrims cexNow1 (kgInit 1000) _ "boom"
      (List.mem_cons_self _ _)
  · have hok : (orchestratorAnalyzeWith trivPrims cexNow1
        ([statAnalyze trivPrims cexNow1 [] []].map Except.ok) (kgInit 1000)).isOk = true := by
      decide
    rcases hE : orchestratorAnalyzeWith trivPrims cexNow1
        ([statAnalyze trivPrims cexNow1 [] []].map Except.ok) (kgInit 1000) with e | r
    · rw [hE] at hok; simp [Except.isOk, Except.toBool] at hok
    · exact ⟨r, rfl, orchestrator_failure_propagation.2 trivPrims cexNow1 (kgInit 1000)
        [statAnalyze trivPrims cexNow1 [] []] r hE⟩

/-! ### C8: OI divergence classification -/

/-- Selecting the detections at one index out of an enumerated
`filterMap`, when the emitted records carry their enumeration index. -/
theorem filter_idx_enumFrom_filterMap {α β : Type} (idx : β → Nat) (f : Nat × α → Option β)
    (h : ∀ i x b, f (i, x) = some b → idx b = i) :
    ∀ (l : List α) (n i : Nat),
      ((l.enumFrom n).filterMap f).filter (fun b => idx b = i) =
        (if i < n then [] else ((l[i - n]?).bind (fun x => f (i, x))).toList) := by
  intro l
  induction l with
  | nil => intro n i; simp
  | cons x xs ih =>
    intro n i
    simp only [List.enumFrom]
    cases hf : f (n, x) with
    | none =>
      rw [List.filterMap_cons_none hf, ih (n+1) i]
      by_cases h1 : i < n
      · rw [if_pos (by omega), if_pos h1]
      · by_cases h2 : i = n
        · subst h2
          rw [if_pos (by omega), if_neg (by omega)]
          simp [hf]
        · rw [if_neg (by omega), if_neg (by omega)]
          have he : i - n = (i - (n+1)) + 1 := by omega
          rw [he, List.getElem?_cons_succ]
    | some b =>
      rw [List.filterMap_cons_some hf]
      have hidx : idx b = n := h n x b hf
      rw [List.filter_cons]
      by_cases h2 : i = n
      · rw [if_pos (by simp [hidx, h2]), ih (n+1) i, if_pos (by omega), if_neg (by omega)]
        rw [h2]
        simp [hf]
      · rw [if_neg (by simp [hidx]; omega), ih (n+1) i]
        by_cases h1 : i < n
        · rw [if_pos (by omega), if_pos h1]
        · rw [if_neg (by omega), if_neg (by omega)]
          have he : i - n = (i - (n+1)) + 1 := by omega
          rw [he, List.getElem?_cons_succ]

/-- Componentwise characterization of indexing a zipped list. -/
theorem getElem?_zip_some {α β : Type} :
    ∀ {l1 : List α} {l2 : List β} {i : Nat} {a : α} {b : β},
      l1[i]? = some a → l2[i]? = some b → (l1.zip l2)[i]? = some (a, b) := by
  intro l1
  induction l1 with
  | nil => intro l2 i a b h1 _; simp at h1
  | cons x xs ih =>
    intro l2 i a b h1 h2
    cases l2 with
    | nil => simp at h2
    | cons y ys =>
      cases i with
      | zero =>
        simp only [List.getElem?_cons_zero, Option.some_inj] at h1 h2
        simp [List.zip_cons_cons, h1, h2]
      | succ j =>
        simp only [List.getElem?_cons_succ] at h1 h2
        simpa [List.zip_cons_cons] using ih h1 h2

set_option maxHeartbeats 1000000 in
/-- C8: with the default thresholds (price 1%, OI 2%, spike 10%), the OI
divergence detector classifies each index by the fixed `if/elif` order —
bearish divergence, bullish divergence, bullish continuation, bearish
continuation, OI spike — emits exactly the first matching class (as the
single detection carrying that index) and nothing when no class matches;
and a bearish divergence carries confidence `min(0.95, 0.6 + |oi|/20)`
with severity `high` iff `|oi| > 5`. -/
theorem oiDivergenceDetect_first_match (p : Prims) (price_changes oi_changes : List ℚ)
    (ts : List DateTime) (syms : List String)
    (hlen : price_changes.length = oi_changes.length) :
    (∀ (i : Nat) (pc oc : ℚ), price_changes[i]? = some pc → oi_changes[i]? = some oc →
      (oiDivergenceDetect p 1 2 10 price_changes oi_changes ts syms).filter
          (fun a => a.index = i) =
        ((oiClassify 1 2 10 pc oc).map (fun cls =>
          ({ index := i, divergence_type := cls.1, price_change_pct := pc,
             oi_change_pct := oc, confidence := cls.2.1, severity := cls.2.2,
             method := "oi_divergence",
             explanation := oiExplanation p cls.1 pc oc,
             timestamp := tsAt ts i, symbol := symAt syms i } : OIAnomaly))).toList) ∧
    (∀ pc oc : ℚ,
      (oiClassify 1 2 10 pc oc = none ↔
        ¬(pc > 1 ∧ oc < -2) ∧ ¬(pc < -1 ∧ oc > 2) ∧ ¬(pc > 2 ∧ oc > 5) ∧
        ¬(pc < -2 ∧ oc > 5) ∧ ¬(|oc| > 10)) ∧
      ((oiClassify 1 2 10 pc oc).map (fun c => c.1) = some "bearish_divergence" ↔
        (pc > 1 ∧ oc < -2)) ∧
      ((oiClassify 1 2 10 pc oc).map (fun c => c.1) = some "bullish_divergence" ↔
        ((pc < -1 ∧ oc > 2) ∧ ¬(pc > 1 ∧ oc < -2))) ∧
      ((oiClassify 1 2 10 pc oc).map (fun c => c.1) = some "bullish_continuation" ↔
        ((pc > 2 ∧ oc > 5) ∧ ¬(pc > 1 ∧ oc < -2) ∧ ¬(pc < -1 ∧ oc > 2))) ∧
      ((oiClassify 1 2 10 pc oc).map (fun c => c.1) = some "bearish_continuation" ↔
        ((pc < -2 ∧ oc > 5) ∧ ¬(pc > 1 ∧ oc < -2) ∧ ¬(pc < -1 ∧ oc > 2) ∧
          ¬(pc > 2 ∧ oc > 5))) ∧
      ((oiClassify 1 2 10 pc oc).map (fun c => c.1) = some "oi_spike_anomaly" ↔
        (|oc| > 10 ∧ ¬(pc > 1 ∧ oc < -2) ∧ ¬(pc < -1 ∧ oc > 2) ∧ ¬(pc > 2 ∧ oc > 5) ∧
          ¬(pc < -2 ∧ oc > 5)))) ∧
    (∀ (pc oc c : ℚ) (sev : String),
      oiClassify 1 2 10 pc oc = some ("bearish_divergence", c, sev) →
      c = min (95/100) (6/10 + |oc| / 20) ∧ (sev = "high" ↔ |oc| > 5)) := by
  refine ⟨?_, ?_, ?_⟩
  · intro i pc oc hpc hoc
    have hz : (price_changes.zip oi_changes)[i]? = some (pc, oc) := getElem?_zip_some hpc hoc
    have hnz : price_changes.length ≠ 0 := by
      intro h0
      rw [List.getElem?_eq_none (by omega)] at hpc
      simp at hpc
    unfold oiDivergenceDetect
    rw [if_neg (by omega), if_neg hnz]
    rw [List.enum_eq_enumFrom,
      filter_idx_enumFrom_filterMap (fun a : OIAnomaly => a.index)
        (fun ipo => (oiClassify 1 2 10 ipo.2.1 ipo.2.2).map (fun cls =>
          ({ index := ipo.1, divergence_type := cls.1, price_change_pct := ipo.2.1,
             oi_change_pct := ipo.2.2, confidence := cls.2.1, severity := cls.2.2,
             method := "oi_divergence",
             explanation := oiExplanation p cls.1 ipo.2.1 ipo.2.2,
             timestamp := tsAt ts ipo.1, symbol := symAt syms ipo.1 } : OIAnomaly)))
        ?_ (price_changes.zip oi_changes) 0 i]
    · rw [if_neg (by omega)]
      simp only [Nat.sub_zero, hz, Option.some_bind]
    · intro j x b hb
      rcases Option.map_eq_some'.mp hb with ⟨cls, _, rfl⟩
      rfl
  · intro pc oc
    unfold oiClassify
    split_ifs with h1 h2 h3 h4 h5 <;> refine ⟨?_, ?_, ?_, ?_, ?_, ?_⟩ <;> simp_all
  · intro pc oc c sev hcl
    unfold oiClassify at hcl
    split_ifs at hcl <;>
      simp only [Option.some_inj, Prod.mk.injEq, true_and] at hcl
    all_goals
      first
        | exact Option.noConfusion hcl
        | exact absurd hcl.1 (by decide)
        | (obtain ⟨hc, hs⟩ := hcl
           refine ⟨hc.symm, ?_⟩
           subst hs
           simp_all)

unseal Rat.add Rat.mul Rat.inv Rat.sub Nat.gcd in
/-- Witness for `oiDivergenceDetect_first_match` at the inputs
price change `+3%`, OI change `-6%`. -/
theorem oiDivergenceDetect_first_match_witness :
    oiClassify 1 2 10 3 (-6) = some ("bearish_divergence", 9/10, "high") ∧
    (9/10 : ℚ) = min (95/100) (6/10 + |(-6 : ℚ)| / 20) ∧
    (("high" : String) = "high" ↔ |(-6 : ℚ)| > 5) := by
  have h := (oiDivergenceDetect_first_match trivPrims [3] [-6] [] [] rfl).2.2
    3 (-6) (9/10) "high" (by decide)
  exact ⟨by decide, h.1, h.2⟩

/-! ### C2: consensus score -/

/-- Upper bound for a weighted sum with non-negative weights. -/
theorem sum_zip_mul_le (hi : ℚ) :
    ∀ (confs weights : List ℚ), confs.length = weights.length →
      (∀ w ∈ weights, 0 ≤ w) → (∀ c ∈ confs, c ≤ hi) →
      ((confs.zip weights).map (fun vw => vw.1 * vw.2)).sum ≤ hi * weights.sum := by
  intro confs
  induction confs with
  | nil =>
    intro weights hlen _ _
    cases weights with
    | nil => simp
    | cons w ws => simp at hlen
  | cons c cs ih =>
    intro weights hlen hw hc
    cases weights with
    | nil => simp at hlen
    | cons w ws =>
      simp only [List.zip_cons_cons, List.map_cons, List.sum_cons]
      have h1 : c * w ≤ hi * w :=
        mul_le_mul_of_nonneg_right (hc c (by simp)) (hw w (by simp))
      have h2 : ((cs.zip ws).map (fun vw => vw.1 * vw.2)).sum ≤ hi * ws.sum :=
        ih ws (by simpa using hlen) (fun x hx => hw x (by simp [hx]))
          (fun x hx => hc x (by simp [hx]))
      calc c * w + ((cs.zip ws).map (fun vw => vw.1 * vw.2)).sum
          ≤ hi * w + hi * ws.sum := add_le_add h1 h2
        _ = hi * (w + ws.sum) := by ring

/-- Lower bound for a weighted sum with non-negative weights. -/
theorem le_sum_zip_mul (lo : ℚ) :
    ∀ (confs weights : List ℚ), confs.length = weights.length →
      (∀ w ∈ weights, 0 ≤ w) → (∀ c ∈ confs, lo ≤ c) →
      lo * weights.sum ≤ ((confs.zip weights).map (fun vw => vw.1 * vw.2)).sum := by
  intro confs
  induction confs with
  | nil =>
    intro weights hlen _ _
    cases weights with
    | nil => simp
    | cons w ws => simp at hlen
  | cons c cs ih =>
    intro weights hlen hw hc
    cases weights with
    | nil => simp at hlen
    | cons w ws =>
      simp only [List.zip_cons_cons, List.map_cons, List.sum_cons]
      have h1 : lo * w ≤ c * w :=
        mul_le_mul_of_nonneg_right (hc c (by simp)) (hw w (by simp))
      have h2 : lo * ws.sum ≤ ((cs.zip ws).map (fun vw => vw.1 * vw.2)).sum :=
        ih ws (by simpa using hlen) (fun x hx => hw x (by simp [hx]))
          (fun x hx => hc x (by simp [hx]))
      calc lo * (w + ws.sum) = lo * w + lo * ws.sum := by ring
        _ ≤ c * w + ((cs.zip ws).map (fun vw => vw.1 * vw.2)).sum := add_le_add h1 h2

/-- The consensus score of a produced report is the `weighted_average` of
the members' confidences by their agent weights. -/
theorem createAnomalyReport_consensus (p : Prims) (now : DateTime)
    (group : List Anomaly) (r : Report)
    (h : createAnomalyReport p now group = .ok r) :
    r.consensus_score = weighted_average (group.map (·.confidence))
      (group.map (fun a => a.agent_weight.getD (2/10))) := by
  cases group with
  | nil => simp [createAnomalyReport] at h
  | cons a0 rest =>
    simp only [createAnomalyReport] at h
    cases hn : narrativeGenerate p (maxByConfidence a0 rest) (a0 :: rest) with
    | error e => rw [hn] at h; simp [Bind.bind, Except.bind] at h
    | ok nv =>
      rw [hn] at h
      cases hc : counterfactualGenerate p (maxByConfidence a0 rest) with
      | error e => rw [hc] at h; simp [Bind.bind, Except.bind] at h
      | ok cv =>
        rw [hc] at h
        simp only [Bind.bind, Except.bind, Except.ok.injEq] at h
        subst h
        rfl

/-- C2: for every non-empty anomaly group that yields a report, the
report's `consensus_score` equals `Σ(weight_i · confidence_i) / Σ weight_i`
over the group's members, and when every member's weight is strictly
positive the consensus score lies between the minimum and the maximum
member confidence. -/
theorem consensus_score_weighted_mean :
    (∀ (p : Prims) (now : DateTime) (group : List Anomaly) (r : Report),
      group ≠ [] →
      (group.map (fun a => a.agent_weight.getD (2/10))).sum ≠ 0 →
      createAnomalyReport p now group = .ok r →
      r.consensus_score =
        (((group.map (·.confidence)).zip
            (group.map (fun a => a.agent_weight.getD (2/10)))).map
          (fun vw => vw.1 * vw.2)).sum /
          (group.map (fun a => a.agent_weight.getD (2/10))).sum) ∧
    (∀ (p : Prims) (now : DateTime) (group : List Anomaly) (r : Report) (lo hi : ℚ),
      (∀ a ∈ group, 0 < a.agent_weight.getD (2/10)) →
      createAnomalyReport p now group = .ok r →
      (group.map (·.confidence)).min? = some lo →
      (group.map (·.confidence)).max? = some hi →
      lo ≤ r.consensus_score ∧ r.consensus_score ≤ hi) := by
  have hformula : ∀ (p : Prims) (now : DateTime) (group : List Anomaly) (r : Report),
      group ≠ [] →
      (group.map (fun a => a.agent_weight.getD (2/10))).sum ≠ 0 →
      createAnomalyReport p now group = .ok r →
      r.consensus_score =
        (((group.map (·.confidence)).zip
            (group.map (fun a => a.agent_weight.getD (2/10)))).map
          (fun vw => vw.1 * vw.2)).sum /
          (group.map (fun a => a.agent_weight.getD (2/10))).sum := by
    intro p now group r hne hsum h
    rw [createAnomalyReport_consensus p now group r h]
    unfold weighted_average
    rw [if_neg (by simp [hne]), if_neg hsum]
  refine ⟨hformula, ?_⟩
  intro p now group r lo hi hwpos h hmin hmax
  have hne : group ≠ [] := by
    intro h0
    subst h0
    simp at hmin
  have hsumpos : 0 < (group.map (fun a => a.agent_weight.getD (2/10))).sum := by
    apply List.sum_pos
    · intro w hw
      obtain ⟨a, ha, rfl⟩ := List.mem_map.mp hw
      exact hwpos a ha
    · simpa using hne
  have hlo : ∀ c ∈ group.map (·.confidence), lo ≤ c := by
    intro c hc
    exact (List.le_min?_iff (fun a b c => le_min_iff) hmin).mp le_rfl c hc
  have hhi : ∀ c ∈ group.map (·.confidence), c ≤ hi := by
    intro c hc
    exact (List.max?_le_iff (fun a b c => max_le_iff) hmax).mp le_rfl c hc
  have hlen : (group.map (·.confidence)).length =
      (group.map (fun a => a.agent_weight.getD (2/10))).length := by simp
  have hwnn : ∀ w ∈ group.map (fun a => a.agent_weight.getD (2/10)), 0 ≤ w := by
    intro w hw
    obtain ⟨a, ha, rfl⟩ := List.mem_map.mp hw
    exact le_of_lt (hwpos a ha)
  rw [hformula p now group r hne (ne_of_gt hsumpos) h]
  constructor
  · rw [le_div_iff₀ hsumpos]
    exact le_sum_zip_mul lo _ _ hlen hwnn hlo
  · rw [div_le_iff₀ hsumpos]
    exact sum_zip_mul_le hi _ _ hlen hwnn hhi

unseal Rat.add Rat.mul Rat.inv Rat.sub Nat.gcd in
/-- Witness for `consensus_score_weighted_mean` on a concrete singleton
group. -/
theorem consensus_score_weighted_mean_witness :
    ∃ r : Report, createAnomalyReport trivPrims cexNow1 [idCexA1] = .ok r ∧
      (9/10 : ℚ) ≤ r.consensus_score ∧ r.consensus_score ≤ 9/10 := by
  have hok : (createAnomalyReport trivPrims cexNow1 [idCexA1]).isOk = true := by decide
  rcases hE : createAnomalyReport trivPrims cexNow1 [idCexA1] with e | r
  · rw [hE] at hok; simp [Except.isOk, Except.toBool] at hok
  · refine ⟨r, rfl, ?_⟩
    exact consensus_score_weighted_mean.2 trivPrims cexNow1 [idCexA1] r (9/10) (9/10)
      (by intro a ha; simp only [List.mem_singleton] at ha; subst ha; norm_num [idCexA1])
      hE (by decide) (by decide)

/-! ### C3: capacity invariant and timestamp-ascending eviction -/

theorem map_fst_eraseKey {κ β : Type} [DecidableEq κ] (k : κ) (l : List (κ × β)) :
    (eraseKey k l).map Prod.fst = (l.map Prod.fst).filter (fun x => x ≠ k) := by
  unfold eraseKey
  rw [List.filter_map]
  rfl

/-- Keys of the node store after a removal fold: the original keys minus
the removed ones. -/
theorem foldl_removeNode_nodes_keys (rem : List (String × DateTime)) :
    ∀ s : KGState,
      ((rem.foldl (fun st x => kgRemoveNode x.1 st) s).nodes).map Prod.fst =
        (s.nodes.map Prod.fst).filter (fun x => !decide (x ∈ rem.map Prod.fst)) := by
  induction rem with
  | nil => intro s; simp
  | cons r rest ih =>
    intro s
    rw [List.foldl_cons, ih (kgRemoveNode r.1 s)]
    have h1 : (kgRemoveNode r.1 s).nodes = eraseKey r.1 s.nodes := rfl
    rw [h1, map_fst_eraseKey, List.filter_filter]
    apply List.filter_congr
    intro x _
    by_cases h2 : x = r.1 <;> by_cases h3 : x ∈ rest.map Prod.fst <;> simp [h2, h3]

/-- Keys of the timestamp store after a removal fold. -/
theorem foldl_removeNode_tsl_keys (rem : List (String × DateTime)) :
    ∀ s : KGState,
      ((rem.foldl (fun st x => kgRemoveNode x.1 st) s).node_timestamps).map Prod.fst =
        (s.node_timestamps.map Prod.fst).filter
          (fun x => !decide (x ∈ rem.map Prod.fst)) := by
  induction rem with
  | nil => intro s; simp
  | cons r rest ih =>
    intro s
    rw [List.foldl_cons, ih (kgRemoveNode r.1 s)]
    have h1 : (kgRemoveNode r.1 s).node_timestamps = eraseKey r.1 s.node_timestamps := rfl
    rw [h1, map_fst_eraseKey, List.filter_filter]
    apply List.filter_congr
    intro x _
    by_cases h2 : x = r.1 <;> by_cases h3 : x ∈ rest.map Prod.fst <;> simp [h2, h3]

/-- Keys of the signature store after a removal fold. -/
theorem foldl_removeNode_sigs_keys (rem : List (String × DateTime)) :
    ∀ s : KGState,
      ((rem.foldl (fun st x => kgRemoveNode x.1 st) s).signatures).map Prod.fst =
        (s.signatures.map Prod.fst).filter
          (fun x => !decide (x ∈ rem.map Prod.fst)) := by
  induction rem with
  | nil => intro s; simp
  | cons r rest ih =>
    intro s
    rw [List.foldl_cons, ih (kgRemoveNode r.1 s)]
    have h1 : (kgRemoveNode r.1 s).signatures = eraseKey r.1 s.signatures := rfl
    rw [h1, map_fst_eraseKey, List.filter_filter]
    apply List.filter_congr
    intro x _
    by_cases h2 : x = r.1 <;> by_cases h3 : x ∈ rest.map Prod.fst <;> simp [h2, h3]

/-- The timestamp store of a removal fold is a sublist of the original. -/
theorem foldl_removeNode_tsl_sublist (rem : List (String × DateTime)) :
    ∀ s : KGState,
      ((rem.foldl (fun st x => kgRemoveNode x.1 st) s).node_timestamps).Sublist
        s.node_timestamps := by
  induction rem with
  | nil => intro s; simp
  | cons r rest ih =>
    intro s
    exact (ih (kgRemoveNode r.1 s)).trans (List.filter_sublist _)

/-- A removal fold never changes the capacity bound. -/
theorem foldl_removeNode_max (rem : List (String × DateTime)) :
    ∀ s : KGState,
      (rem.foldl (fun st x => kgRemoveNode x.1 st) s).max_nodes = s.max_nodes := by
  induction rem with
  | nil => intro s; rfl
  | cons r rest ih => intro s; exact ih (kgRemoveNode r.1 s)

/-- After removing a node, no surviving edge is incident to it. -/
theorem foldl_removeNode_no_incident (rem : List (String × DateTime)) :
    ∀ (s : KGState) (k : String), k ∈ rem.map Prod.fst →
      ∀ ed ∈ (rem.foldl (fun st x => kgRemoveNode x.1 st) s).edges,
        ed.1.1 ≠ k ∧ ed.1.2 ≠ k := by
  induction rem with
  | nil => intro s k hk; simp at hk
  | cons r rest ih =>
    intro s k hk ed hed
    rw [List.foldl_cons] at hed
    by_cases hkr : k ∈ rest.map Prod.fst
    · exact ih (kgRemoveNode r.1 s) k hkr ed hed
    · have hk1 : k = r.1 := by
        simp only [List.map_cons, List.mem_cons] at hk
        tauto
      subst hk1
      have hsub : ed ∈ (kgRemoveNode r.1 s).edges :=
        (foldl_removeNode_edges_sublist rest (kgRemoveNode r.1 s)).subset hed
      have h2 : (kgRemoveNode r.1 s).edges =
          s.edges.filter (fun e => ¬(e.1.1 = r.1 ∨ e.1.2 = r.1)) := rfl
      rw [h2] at hsub
      have h3 := (List.mem_filter.mp hsub).2
      simp only [decide_eq_true_eq, not_or] at h3
      exact h3

/-- Removing one occurrence of a member from a duplicate-free list drops
the length by exactly one. -/
theorem length_filter_ne_of_nodup {α : Type} [DecidableEq α] {r : α} :
    ∀ {l : List α}, l.Nodup → r ∈ l →
      (l.filter (fun x => x ≠ r)).length + 1 = l.length := by
  intro l
  induction l with
  | nil => intro _ h; simp at h
  | cons a as ih =>
    intro hnd hm
    rw [List.filter_cons]
    by_cases ha : a = r
    · subst ha
      rw [if_neg (by simp)]
      have hna : a ∉ as := (List.nodup_cons.mp hnd).1
      have hself : as.filter (fun x => x ≠ a) = as := by
        apply List.filter_eq_self.mpr
        intro x hx
        simp only [ne_eq, decide_eq_true_eq]
        intro h
        subst h
        exact hna hx
      rw [hself]
      simp
    · rw [if_pos (by simp [Ne.symm]; exact ha)]
      have hm' : r ∈ as := by
        rcases List.mem_cons.mp hm with h | h
        · exact absurd h.symm ha
        · exact h
      have := ih (List.nodup_cons.mp hnd).2 hm'
      simp only [List.length_cons]
      omega

/-- Filtering out a duplicate-free sub-collection of members drops the
length by exactly its size. -/
theorem length_filter_not_mem {α : Type} [DecidableEq α] :
    ∀ (rem : List α) (l : List α), l.Nodup → rem.Nodup → (∀ k ∈ rem, k ∈ l) →
      (l.filter (fun x => !decide (x ∈ rem))).length = l.length - rem.length := by
  intro rem
  induction rem with
  | nil => intro l _ _ _; simp
  | cons r rest ih =>
    intro l hl hrem hsub
    have hstep : l.filter (fun x => !decide (x ∈ r :: rest)) =
        (l.filter (fun x => x ≠ r)).filter (fun x => !decide (x ∈ rest)) := by
      rw [List.filter_filter]
      apply List.filter_congr
      intro x _
      by_cases h1 : x = r <;> by_cases h2 : x ∈ rest <;> simp [h1, h2]
    rw [hstep]
    have hrnl : r ∉ rest := (List.nodup_cons.mp hrem).1
    have hfl : (l.filter (fun x => x ≠ r)).Nodup :=
      List.Nodup.sublist (List.filter_sublist l) hl
    have hsub' : ∀ k ∈ rest, k ∈ l.filter (fun x => x ≠ r) := by
      intro k hk
      rw [List.mem_filter]
      refine ⟨hsub k (by simp [hk]), ?_⟩
      simp only [ne_eq, decide_eq_true_eq]
      intro h
      subst h
      exact hrnl hk
    rw [ih (l.filter (fun x => x ≠ r)) hfl (List.nodup_cons.mp hrem).2 hsub']
    have hrl : r ∈ l := hsub r (by simp)
    have hlen := length_filter_ne_of_nodup hl hrl
    simp only [List.length_cons]
    omega

/-- Node count after a removal fold of distinct, present keys. -/
theorem foldl_removeNode_nodes_length {s : KGState} {rem : List (String × DateTime)}
    (hnd : (s.nodes.map Prod.fst).Nodup) (hrem : (rem.map Prod.fst).Nodup)
    (hsub : ∀ k ∈ rem.map Prod.fst, k ∈ s.nodes.map Prod.fst) :
    (rem.foldl (fun st x => kgRemoveNode x.1 st) s).nodes.length =
      s.nodes.length - rem.length := by
  have h1 := foldl_removeNode_nodes_keys rem s
  have h2 := length_filter_not_mem (rem.map Prod.fst) (s.nodes.map Prod.fst) hnd hrem hsub
  have h3 : ((rem.foldl (fun st x => kgRemoveNode x.1 st) s).nodes.map Prod.fst).length =
      s.nodes.length - rem.length := by
    rw [h1, h2]
    simp
  simpa using h3

/-- The cleanup sort is sorted: pairwise timestamp-ascending. -/
theorem sortByTs_pairwise (l : List (String × DateTime)) :
    (sortByTs l).Pairwise (fun a b => a.2.leb b.2 = true) :=
  List.sorted_mergeSort
    (fun a b c hab hbc => by
      simp only [DateTime.leb, DateTime.le, decide_eq_true_eq] at hab hbc ⊢
      exact le_trans hab hbc)
    (fun a b => by
      simp only [DateTime.leb, DateTime.le, Bool.or_eq_true, decide_eq_true_eq]
      exact le_total _ _)
    l

/-- Full description of an over-capacity cleanup pass: the node count
drops to exactly `max_nodes`, key discipline (duplicate-freeness and the
node/timestamp key synchrony) is preserved, the capacity bound is
unchanged, every node in the removal prefix loses its node entry,
timestamp entry, signature entry and all incident edges, and every
removed timestamp is `≤` every surviving timestamp. -/
theorem kgCleanup_over {s : KGState}
    (hnd : (s.nodes.map Prod.fst).Nodup)
    (hperm : (s.nodes.map Prod.fst).Perm (s.node_timestamps.map Prod.fst))
    (hover : s.max_nodes < s.nodes.length) :
    (kgCleanup s).nodes.length = s.max_nodes ∧
    ((kgCleanup s).nodes.map Prod.fst).Nodup ∧
    ((kgCleanup s).nodes.map Prod.fst).Perm
      ((kgCleanup s).node_timestamps.map Prod.fst) ∧
    (kgCleanup s).max_nodes = s.max_nodes ∧
    (∀ k ∈ ((sortByTs s.node_timestamps).take
        (s.nodes.length - s.max_nodes)).map Prod.fst,
      containsKey k (kgCleanup s).nodes = false ∧
      containsKey k (kgCleanup s).node_timestamps = false ∧
      containsKey k (kgCleanup s).signatures = false ∧
      ∀ ed ∈ (kgCleanup s).edges, ed.1.1 ≠ k ∧ ed.1.2 ≠ k) ∧
    (∀ e ∈ (sortByTs s.node_timestamps).take (s.nodes.length - s.max_nodes),
      ∀ kv ∈ (kgCleanup s).node_timestamps, e.2.le kv.2) := by
  have hcl : kgCleanup s =
      ((sortByTs s.node_timestamps).take (s.nodes.length - s.max_nodes)).foldl
        (fun st x => kgRemoveNode x.1 st) s := by
    unfold kgCleanup
    rw [if_neg (by omega)]
  rw [hcl]
  set rem := (sortByTs s.node_timestamps).take (s.nodes.length - s.max_nodes) with hrem
  have htsnd : (s.node_timestamps.map Prod.fst).Nodup := hperm.nodup_iff.mp hnd
  have hsortperm : List.Perm (sortByTs s.node_timestamps) s.node_timestamps :=
    List.mergeSort_perm _ _
  have hsortnd : ((sortByTs s.node_timestamps).map Prod.fst).Nodup :=
    ((hsortperm.map Prod.fst).nodup_iff).mpr htsnd
  have hremsl : rem.Sublist (sortByTs s.node_timestamps) := List.take_sublist _ _
  have hremnd : (rem.map Prod.fst).Nodup :=
    List.Nodup.sublist (hremsl.map Prod.fst) hsortnd
  have hremsub : ∀ k ∈ rem.map Prod.fst, k ∈ s.nodes.map Prod.fst := by
    intro k hk
    have h1 : k ∈ (sortByTs s.node_timestamps).map Prod.fst :=
      (hremsl.map Prod.fst).subset hk
    have h2 : k ∈ s.node_timestamps.map Prod.fst :=
      (hsortperm.map Prod.fst).mem_iff.mp h1
    exact hperm.mem_iff.mpr h2
  have hlents : s.node_timestamps.length = s.nodes.length := by
    have h := hperm.length_eq
    simpa using h.symm
  have hsortlen : (sortByTs s.node_timestamps).length = s.node_timestamps.length :=
    hsortperm.length_eq
  have hremlen : rem.length = s.nodes.length - s.max_nodes := by
    rw [hrem, List.length_take, hsortlen, hlents]
    omega
  refine ⟨?_, ?_, ?_, ?_, ?_, ?_⟩
  · rw [foldl_removeNode_nodes_length hnd hremnd hremsub, hremlen]
    omega
  · rw [foldl_removeNode_nodes_keys]
    exact List.Nodup.sublist (List.filter_sublist _) hnd
  · rw [foldl_removeNode_nodes_keys, foldl_removeNode_tsl_keys]
    exact hperm.filter _
  · exact foldl_removeNode_max rem s
  · intro k hk
    refine ⟨?_, ?_, ?_, ?_⟩
    · by_contra hcon
      rw [Bool.not_eq_false] at hcon
      have h1 := (containsKey_iff _ _).mp hcon
      rw [foldl_removeNode_nodes_keys] at h1
      have h2 := (List.mem_filter.mp h1).2
      simp only [Bool.not_eq_eq_eq_not, Bool.not_true, decide_eq_false_iff_not] at h2
      exact h2 hk
    · by_contra hcon
      rw [Bool.not_eq_false] at hcon
      have h1 := (containsKey_iff _ _).mp hcon
      rw [foldl_removeNode_tsl_keys] at h1
      have h2 := (List.mem_filter.mp h1).2
      simp only [Bool.not_eq_eq_eq_not, Bool.not_true, decide_eq_false_iff_not] at h2
      exact h2 hk
    · by_contra hcon
      rw [Bool.not_eq_false] at hcon
      have h1 := (containsKey_iff _ _).mp hcon
      rw [foldl_removeNode_sigs_keys] at h1
      have h2 := (List.mem_filter.mp h1).2
      simp only [Bool.not_eq_eq_eq_not, Bool.not_true, decide_eq_false_iff_not] at h2
      exact h2 hk
    · exact fun ed hed => foldl_removeNode_no_incident rem s k hk ed hed
  · intro e he kv hkv
    have hkvsub : kv ∈ s.node_timestamps :=
      (foldl_removeNode_tsl_sublist rem s).subset hkv
    have hkvkey : kv.1 ∈
        ((rem.foldl (fun st x => kgRemoveNode x.1 st) s).node_timestamps).map Prod.fst :=
      List.mem_map_of_mem Prod.fst hkv
    rw [foldl_removeNode_tsl_keys] at hkvkey
    have hkvnot : kv.1 ∉ rem.map Prod.fst := by
      have h2 := (List.mem_filter.mp hkvkey).2
      simp only [Bool.not_eq_eq_eq_not, Bool.not_true, decide_eq_false_iff_not] at h2
      exact h2
    have hsplit : rem ++ (sortByTs s.node_timestamps).drop (s.nodes.length - s.max_nodes) =
        sortByTs s.node_timestamps := by
      rw [hrem]
      exact List.take_append_drop _ _
    have hkvsorted : kv ∈ sortByTs s.node_timestamps := hsortperm.mem_iff.mpr hkvsub
    rw [← hsplit] at hkvsorted
    have hkvdrop : kv ∈ (sortByTs s.node_timestamps).drop (s.nodes.length - s.max_nodes) := by
      rcases List.mem_append.mp hkvsorted with h | h
      · exact absurd (List.mem_map_of_mem Prod.fst h) hkvnot
      · exact h
    have hpw2 : (rem ++ (sortByTs s.node_timestamps).drop
        (s.nodes.length - s.max_nodes)).Pairwise (fun a b => a.2.leb b.2 = true) := by
      rw [hsplit]
      exact sortByTs_pairwise _
    have hcross := (List.pairwise_append.mp hpw2).2.2
    have h3 := hcross e he kv hkvdrop
    simp only [DateTime.leb, decide_eq_true_eq] at h3
    exact h3

/-- `add_anomaly`'s insertion phase preserves key discipline. -/
theorem kgInsert_keys {s : KGState}
    (hnd : (s.nodes.map Prod.fst).Nodup)
    (hperm : (s.nodes.map Prod.fst).Perm (s.node_timestamps.map Prod.fst))
    (now : DateTime) (id : String) (d : AnomalyData) (ts : Option DateTime) :
    (((kgInsert now id d ts s).nodes.map Prod.fst).Nodup) ∧
    ((kgInsert now id d ts s).nodes.map Prod.fst).Perm
      ((kgInsert now id d ts s).node_timestamps.map Prod.fst) := by
  have hck : containsKey id s.nodes = containsKey id s.node_timestamps := by
    have h1 := containsKey_iff id s.nodes
    have h2 := containsKey_iff id s.node_timestamps
    have h3 : id ∈ s.nodes.map Prod.fst ↔ id ∈ s.node_timestamps.map Prod.fst :=
      hperm.mem_iff
    cases hC : containsKey id s.nodes <;> cases hD : containsKey id s.node_timestamps <;>
      simp_all
  have hkn : (kgInsert now id d ts s).nodes.map Prod.fst =
      if containsKey id s.nodes then s.nodes.map Prod.fst
      else s.nodes.map Prod.fst ++ [id] := map_fst_setKey id _ s.nodes
  have hkt : (kgInsert now id d ts s).node_timestamps.map Prod.fst =
      if containsKey id s.node_timestamps then s.node_timestamps.map Prod.fst
      else s.node_timestamps.map Prod.fst ++ [id] := map_fst_setKey id _ s.node_timestamps
  constructor
  · exact nodup_keys_setKey _ _ hnd
  · rw [hkn, hkt, ← hck]
    by_cases h : containsKey id s.nodes = true
    · rw [if_pos h, if_pos h]
      exact hperm
    · rw [if_neg h, if_neg h]
      exact hperm.append_right [id]

/-- A cleanup pass re-establishes the structural invariant. -/
theorem kgCleanup_inv {s : KGState}
    (hnd : (s.nodes.map Prod.fst).Nodup)
    (hperm : (s.nodes.map Prod.fst).Perm (s.node_timestamps.map Prod.fst)) :
    KGInv (kgCleanup s) := by
  by_cases hle : s.nodes.length ≤ s.max_nodes
  · have h1 : kgCleanup s = s := by
      unfold kgCleanup
      rw [if_pos hle]
    rw [h1]
    exact ⟨hnd, hperm, hle⟩
  · have hover : s.max_nodes < s.nodes.length := by omega
    obtain ⟨hlen, hnd2, hperm2, hmax, _, _⟩ := kgCleanup_over hnd hperm hover
    exact ⟨hnd2, hperm2, by simp [hlen, hmax]⟩

/-- Every reachable knowledge-graph state satisfies the structural
invariant (duplicate-free synchronized keys, node count within
capacity). -/
theorem kg_inv {s : KGState} (h : KGReachable s) : KGInv s := by
  induction h with
  | init mn =>
    refine ⟨?_, ?_, ?_⟩ <;> simp [kgInit, KGInv]
  | add h now id d ts ih =>
    obtain ⟨hnd, hperm, _⟩ := ih
    obtain ⟨hnd1, hperm1⟩ := kgInsert_keys hnd hperm now id d ts
    exact kgCleanup_inv hnd1 hperm1
  | rel h now f t ty c md ih =>
    obtain ⟨hnd, hperm, hlen⟩ := ih
    unfold kgAddRelationship
    split
    · exact ⟨hnd, hperm, hlen⟩
    · exact ⟨hnd, hperm, hlen⟩

/-- C3: every reachable knowledge-graph state holds at most `max_nodes`
nodes; and for each `add_anomaly` call, the eviction prefix (the
oldest-timestamped entries of the timestamp store after insertion) is
timestamp-ascending, an over-capacity insertion brings the node count
back to exactly `max_nodes`, every evicted node loses its node entry,
timestamp entry, signature entry and all incident edges, and every
evicted timestamp is `≤` every surviving timestamp. -/
theorem kg_capacity_eviction :
    (∀ s : KGState, KGReachable s → s.nodes.length ≤ s.max_nodes) ∧
    (∀ (s : KGState) (now : DateTime) (id : String) (d : AnomalyData)
        (ts : Option DateTime), KGReachable s →
      ((sortByTs (kgInsert now id d ts s).node_timestamps).take
          ((kgInsert now id d ts s).nodes.length - s.max_nodes)).Pairwise
        (fun a b => a.2.le b.2) ∧
      (s.max_nodes < (kgInsert now id d ts s).nodes.length →
        (kgAddAnomaly now id d ts s).nodes.length = s.max_nodes) ∧
      (∀ e ∈ (sortByTs (kgInsert now id d ts s).node_timestamps).take
          ((kgInsert now id d ts s).nodes.length - s.max_nodes),
        (s.max_nodes < (kgInsert now id d ts s).nodes.length →
          containsKey e.1 (kgAddAnomaly now id d ts s).nodes = false ∧
          containsKey e.1 (kgAddAnomaly now id d ts s).node_timestamps = false ∧
          containsKey e.1 (kgAddAnomaly now id d ts s).signatures = false ∧
          ∀ ed ∈ (kgAddAnomaly now id d ts s).edges, ed.1.1 ≠ e.1 ∧ ed.1.2 ≠ e.1) ∧
        ∀ kv ∈ (kgAddAnomaly now id d ts s).node_timestamps, e.2.le kv.2)) := by
  constructor
  · intro s h
    exact (kg_inv h).2.2
  · intro s now id d ts hreach
    obtain ⟨hnd, hperm, _⟩ := kg_inv hreach
    obtain ⟨hnd1, hperm1⟩ := kgInsert_keys hnd hperm now id d ts
    refine ⟨?_, ?_, ?_⟩
    · have hpw : ((sortByTs (kgInsert now id d ts s).node_timestamps).take
          ((kgInsert now id d ts s).nodes.length - s.max_nodes)).Pairwise
          (fun a b => a.2.leb b.2 = true) :=
        List.Pairwise.sublist (List.take_sublist _ _)
          (sortByTs_pairwise (kgInsert now id d ts s).node_timestamps)
      exact hpw.imp (fun h => by
        simp only [DateTime.leb, decide_eq_true_eq] at h
        exact h)
    · intro hover
      exact (kgCleanup_over hnd1 hperm1 hover).1
    · intro e he
      constructor
      · intro hover
        have h5 := (kgCleanup_over hnd1 hperm1 hover).2.2.2.2.1
        exact h5 e.1 (List.mem_map_of_mem Prod.fst he)
      · intro kv hkv
        by_cases hover : s.max_nodes < (kgInsert now id d ts s).nodes.length
        · exact (kgCleanup_over hnd1 hperm1 hover).2.2.2.2.2 e he kv hkv
        · exfalso
          have h0 : (kgInsert now id d ts s).nodes.length - s.max_nodes = 0 := by omega
          rw [h0, List.take_zero] at he
          exact (List.not_mem_nil e) he

unseal List.mergeSort List.merge in
/-- Witness for `kg_capacity_eviction`: two insertions into a capacity-1
graph stay within the bound, and the older node is evicted while the
newer one remains. -/
theorem kg_capacity_eviction_witness :
    (kgAddAnomaly cexNow2 "b" {} (some cexNow2)
        (kgAddAnomaly cexNow1 "a" {} (some cexNow1) (kgInit 1))).nodes.length ≤
      (kgAddAnomaly cexNow2 "b" {} (some cexNow2)
        (kgAddAnomaly cexNow1 "a" {} (some cexNow1) (kgInit 1))).max_nodes ∧
    containsKey "a" (kgAddAnomaly cexNow2 "b" {} (some cexNow2)
        (kgAddAnomaly cexNow1 "a" {} (some cexNow1) (kgInit 1))).nodes = false ∧
    containsKey "b" (kgAddAnomaly cexNow2 "b" {} (some cexNow2)
        (kgAddAnomaly cexNow1 "a" {} (some cexNow1) (kgInit 1))).nodes = true :=
  ⟨kg_capacity_eviction.1 _
      (KGReachable.add (KGReachable.add (KGReachable.init 1) cexNow1 "a" {} (some cexNow1))
        cexNow2 "b" {} (some cexNow2)),
   by decide, by decide⟩

/-! ### C7: correlation-break guards and recency -/

/-- C7: a correlation-break anomaly is emitted only when the aligned
sequence has length at least `2·window_size` and the full-sequence Pearson
clears the significance threshold, and only from a sliding window whose
local Pearson differs from the historical one by at least
`break_threshold` with normalized confidence `min(Δ/break_threshold, 1)`
at least `min_confidence`; the emitted anomaly carries exactly those
correlations, the change, that confidence, and the break-position
timestamp.  Every correlation-break anomaly in the agent's result has a
timestamp at least the earliest current-data timestamp.  The default
thresholds are 0.7 (Pearson), 0.3 (break) and 0.6 (confidence). -/
theorem correlation_break_guard :
    (∀ (p : Prims) (cfg : CorrCfg) (aligned : List Aligned)
        (k1 k2 : String × String) (hist : CorrResult) (a : Anomaly),
      a ∈ detectBreaks p cfg aligned k1 k2 hist →
      aligned.length ≥ cfg.window_size * 2 ∧
      |hist.pearson| ≥ cfg.pearson_threshold ∧
      ∃ i : Nat, cfg.window_size ≤ i ∧ i < aligned.length ∧
        ∃ cr : ℚ × ℚ,
          p.pearsonF ((slice aligned (i - cfg.window_size) i).map (·.1))
            ((slice aligned (i - cfg.window_size) i).map (·.2.1)) = some cr ∧
          |cr.1 - hist.pearson| ≥ cfg.break_threshold ∧
          min (|cr.1 - hist.pearson| / cfg.break_threshold) 1 ≥ cfg.min_confidence ∧
          a.confidence = min (|cr.1 - hist.pearson| / cfg.break_threshold) 1 ∧
          a.type = some "correlation_break" ∧
          a.current_correlation = some cr.1 ∧
          a.historical_correlation = some hist.pearson ∧
          a.correlation_change = some |cr.1 - hist.pearson| ∧
          a.timestamp = (aligned.getD i (0, 0, ⟨0, 0, 0, 0, 0, 0⟩)).2.2) ∧
    (∀ (p : Prims) (cfg : CorrCfg) (cur hist : List DataPoint) (a : Anomaly)
        (e : DateTime),
      a ∈ (corrAnalyze p cfg cur hist).anomalies →
      a.type = some "correlation_break" →
      earliestTs cur = some e → e.le a.timestamp) ∧
    defaultCorrCfg.pearson_threshold = 7/10 ∧
    defaultCorrCfg.break_threshold = 3/10 ∧
    defaultCorrCfg.min_confidence = 6/10 := by
  refine ⟨?_, ?_, rfl, rfl, rfl⟩
  · intro p cfg aligned k1 k2 hist a ha
    simp only [detectBreaks] at ha
    by_cases hlen : aligned.length < cfg.window_size * 2
    · rw [if_pos hlen] at ha
      simp at ha
    · rw [if_neg hlen] at ha
      by_cases hpt : |hist.pearson| < cfg.pearson_threshold
      · rw [if_pos hpt] at ha
        simp at ha
      · rw [if_neg hpt] at ha
        obtain ⟨i, hi, hf⟩ := List.mem_filterMap.mp ha
        rw [List.mem_range'_1] at hi
        refine ⟨by omega, not_lt.mp hpt, i, hi.1, by omega, ?_⟩
        split at hf
        · exact Option.noConfusion hf
        · next cr heq =>
          split_ifs at hf with hΔ hconf
          rw [Option.some_inj] at hf
          subst hf
          exact ⟨cr, heq, hΔ, hconf, rfl, rfl, rfl, rfl, rfl, rfl⟩
  · intro p cfg cur hist a e ha htype he
    simp only [corrAnalyze] at ha
    rw [List.mem_append] at ha
    rcases ha with ha | ha
    · obtain ⟨kk, hkk, ha⟩ := List.mem_flatMap.mp ha
      by_cases hlen : (alignSeries kk.1.2 kk.2.2).length ≥ cfg.window_size
      · rw [if_pos hlen] at ha
        rcases hC : calcCorrelation p cfg (alignSeries kk.1.2 kk.2.2) with _ | corr
        · rw [hC] at ha
          have ha' : a ∈ ([] : List Anomaly) := ha
          simp at ha'
        · rw [hC] at ha
          have ha' : a ∈ (detectBreaks p cfg (alignSeries kk.1.2 kk.2.2)
              kk.1.1 kk.2.1 corr).filter (fun x => isRecentAnomaly x cur) := ha
          have hrec := (List.mem_filter.mp ha').2
          have hrec' : decide (e.le a.timestamp) = true := by
            unfold isRecentAnomaly at hrec
            rw [he] at hrec
            exact hrec
          exact of_decide_eq_true hrec'
      · rw [if_neg hlen] at ha
        simp at ha
    · obtain ⟨tg, htg, hf⟩ := List.mem_filterMap.mp ha
      simp only [] at hf
      split_ifs at hf
      rw [Option.some_inj] at hf
      subst hf
      simp at htype

unseal Rat.add Rat.mul Rat.inv Rat.sub Nat.gcd in
/-- Witness for `correlation_break_guard` on a concrete two-point aligned
series with a window of 1. -/
theorem correlation_break_guard_witness :
    ∃ a ∈ detectBreaks c7Prims c7Cfg c7Aligned ("s1", "m1") ("s2", "m2") c7Hist,
      c7Aligned.length ≥ c7Cfg.window_size * 2 ∧
      |c7Hist.pearson| ≥ c7Cfg.pearson_threshold ∧
      a.confidence ≥ c7Cfg.min_confidence ∧
      a.type = some "correlation_break" := by
  rcases hE : detectBreaks c7Prims c7Cfg c7Aligned ("s1", "m1") ("s2", "m2") c7Hist with
    _ | ⟨a0, rest⟩
  · exact absurd hE (by decide)
  · have hmem : a0 ∈ detectBreaks c7Prims c7Cfg c7Aligned ("s1", "m1") ("s2", "m2") c7Hist := by
      rw [hE]
      exact List.mem_cons_self a0 rest
    obtain ⟨h1, h2, i, hi1, hi2, cr, hp, hΔ, hconf, hac, hty, _⟩ :=
      correlation_break_guard.1 c7Prims c7Cfg c7Aligned ("s1", "m1") ("s2", "m2")
        c7Hist a0 hmem
    refine ⟨a0, List.mem_cons_self a0 rest, h1, h2, ?_, hty⟩
    rw [hac]
    exact hconf

/-! ### C10: clock dependence of the analysis cycle -/

theorem tsAt_isSome {timestamps : List DateTime} {i : Nat} (h : i < timestamps.length) :
    (tsAt timestamps i).isSome = true := by
  unfold tsAt
  rw [if_neg (by intro h0; rw [h0] at h; simp at h)]
  rw [Option.isSome_iff_ne_none]
  intro hn
  rw [List.getElem?_eq_none_iff] at hn
  omega

/-- Every z-score detection indexes into the value series. -/
theorem zscoreDetect_index (p : Prims) (thr : ℚ) (values : List ℚ)
    (timestamps : List DateTime) :
    ∀ d ∈ zscoreDetect p thr values timestamps,
      d.index < values.length ∧ d.timestamp = tsAt timestamps d.index := by
  intro d hd
  simp only [zscoreDetect] at hd
  split_ifs at hd <;>
    first
      | exact absurd hd (List.not_mem_nil d)
      | (obtain ⟨iv, hiv, hf⟩ := List.mem_filterMap.mp hd
         have hlt := List.fst_lt_add_of_mem_enumFrom hiv
         split_ifs at hf
         first
             | exact Option.noConfusion hf
             | (rw [Option.some_inj] at hf
                subst hf
                refine ⟨?_, rfl⟩
                show iv.1 < values.length
                omega))

/-- Every modified-z-score detection indexes into the value series. -/
theorem modifiedZscoreDetect_index (p : Prims) (thr : ℚ) (values : List ℚ)
    (timestamps : List DateTime) :
    ∀ d ∈ modifiedZscoreDetect p thr values timestamps,
      d.index < values.length ∧ d.timestamp = tsAt timestamps d.index := by
  intro d hd
  simp only [modifiedZscoreDetect] at hd
  split_ifs at hd <;>
    first
      | exact absurd hd (List.not_mem_nil d)
      | (obtain ⟨iv, hiv, hf⟩ := List.mem_filterMap.mp hd
         have hlt := List.fst_lt_add_of_mem_enumFrom hiv
         split_ifs at hf
         first
             | exact Option.noConfusion hf
             | (rw [Option.some_inj] at hf
                subst hf
                refine ⟨?_, rfl⟩
                show iv.1 < values.length
                omega))

/-- Every IQR detection indexes into the value series. -/
theorem iqrDetect_index (p : Prims) (multiplier : ℚ) (values : List ℚ)
    (timestamps : List DateTime) :
    ∀ d ∈ iqrDetect p multiplier values timestamps,
      d.index < values.length ∧ d.timestamp = tsAt timestamps d.index := by
  intro d hd
  simp only [iqrDetect] at hd
  split_ifs at hd <;>
    first
      | exact absurd hd (List.not_mem_nil d)
      | (obtain ⟨iv, hiv, hf⟩ := List.mem_filterMap.mp hd
         have hlt := List.fst_lt_add_of_mem_enumFrom hiv
         split_ifs at hf <;>
           first
             | exact Option.noConfusion hf
             | (rw [Option.some_inj] at hf
                subst hf
                refine ⟨?_, rfl⟩
                show iv.1 < values.length
                omega))

/-- Invariant of the CUSUM fold: emitted detections index into the
enumerated range. -/
theorem cusum_fold_index (p : Prims) (thr drift mean std : ℚ)
    (timestamps : List DateTime) (N : Nat) :
    ∀ (l : List (Nat × ℚ)) (st : ℚ × ℚ × List Detection),
      (∀ d ∈ st.2.2, d.index < N ∧ d.timestamp = tsAt timestamps d.index) →
      (∀ iv ∈ l, iv.1 < N) →
      ∀ d ∈ (l.foldl (cusumStep p thr drift mean std timestamps) st).2.2,
        d.index < N ∧ d.timestamp = tsAt timestamps d.index := by
  intro l
  induction l with
  | nil => intro st hst _ d hd; exact hst d hd
  | cons iv l ih =>
    intro st hst hlt
    rw [List.foldl_cons]
    apply ih
    · intro d hd
      unfold cusumStep at hd
      simp only [] at hd
      split_ifs at hd
      · rcases List.mem_append.mp hd with h | h
        · exact hst d h
        · rw [List.mem_singleton] at h
          subst h
          refine ⟨?_, rfl⟩
          show iv.1 < N
          exact hlt iv (by simp)
      · exact hst d hd
    · intro iv' h
      exact hlt iv' (by simp [h])

/-- Every CUSUM detection indexes into the value series. -/
theorem cusumDetect_index (p : Prims) (thr drift : ℚ) (values : List ℚ)
    (timestamps : List DateTime) :
    ∀ d ∈ cusumDetect p thr drift values timestamps,
      d.index < values.length ∧ d.timestamp = tsAt timestamps d.index := by
  intro d hd
  simp only [cusumDetect] at hd
  split_ifs at hd <;>
    first
      | exact absurd hd (List.not_mem_nil d)
      | exact cusum_fold_index p thr drift _ _ timestamps values.length values.enum (0, 0, [])
          (by intro d h; simp at h)
          (fun iv hiv => by have := List.fst_lt_add_of_mem_enumFrom hiv; omega)
          d hd

theorem mem_fst_upsertWith {κ β : Type} [DecidableEq κ] (k : κ) (v : β) :
    ∀ (acc : List (κ × List β)) (z : κ), z ∈ (upsertWith k v acc).map Prod.fst →
      z = k ∨ z ∈ acc.map Prod.fst := by
  intro acc
  induction acc with
  | nil =>
    intro z h
    simp only [upsertWith, List.map_cons, List.map_nil, List.mem_singleton] at h
    exact Or.inl h
  | cons kv rest ih =>
    intro z h
    simp only [upsertWith] at h
    by_cases hk : kv.1 = k
    · rw [if_pos hk] at h
      simp only [List.map_cons, List.mem_cons] at h
      rcases h with h | h
      · exact Or.inr (by simp [h])
      · exact Or.inr (by simp [h])
    · rw [if_neg hk] at h
      simp only [List.map_cons, List.mem_cons] at h
      rcases h with h | h
      · exact Or.inr (by simp [h])
      · rcases ih z h with h1 | h1
        · exact Or.inl h1
        · exact Or.inr (by simp [h1])

theorem mem_fst_foldl_upsertWith {κ β : Type} [DecidableEq κ] (key : β → κ) :
    ∀ (l : List β) (acc : List (κ × List β)) (kv : κ × List β),
      kv ∈ l.foldl (fun acc b => upsertWith (key b) b acc) acc →
      kv.1 ∈ acc.map Prod.fst ∨ kv.1 ∈ l.map key := by
  intro l
  induction l with
  | nil => intro acc kv h; exact Or.inl (List.mem_map_of_mem Prod.fst h)
  | cons b bs ih =>
    intro acc kv h
    rw [List.foldl_cons] at h
    rcases ih (upsertWith (key b) b acc) kv h with h1 | h1
    · rcases mem_fst_upsertWith (key b) b acc kv.1 h1 with h2 | h2
      · exact Or.inr (by simp [h2])
      · exact Or.inl h2
    · exact Or.inr (by simp [h1])

/-- Every ensemble detection carries a concrete timestamp when the
timestamp series covers the value series. -/
theorem ensembleDetect_ts (p : Prims) (values : List ℚ)
    (timestamps : List DateTime) (mc : Nat)
    (hlen : values.length ≤ timestamps.length) :
    ∀ d ∈ ensembleDetect p values timestamps mc, d.timestamp.isSome = true := by
  intro d hd
  simp only [ensembleDetect] at hd
  obtain ⟨bucket, hb, hf⟩ := List.mem_filterMap.mp hd
  split_ifs at hf
  rw [Option.some_inj] at hf
  subst hf
  have hk := mem_fst_foldl_upsertWith (fun d : Detection => d.index) _ [] bucket hb
  rcases hk with h | h
  · simp at h
  · obtain ⟨d0, hd0, hidx⟩ := List.mem_map.mp h
    have hb0 : d0.index < values.length := by
      rcases List.mem_append.mp hd0 with h1 | h1
      · rcases List.mem_append.mp h1 with h2 | h2
        · rcases List.mem_append.mp h2 with h3 | h3
          · exact (zscoreDetect_index p 3 values timestamps d0 h3).1
          · exact (modifiedZscoreDetect_index p (35/10) values timestamps d0 h3).1
        · exact (iqrDetect_index p (15/10) values timestamps d0 h2).1
      · exact (cusumDetect_index p 5 (1/2) values timestamps d0 h1).1
    apply tsAt_isSome
    omega

/-- `StatisticalAgent.analyze` never reads the wall clock: every ensemble
detection carries its own timestamp, so the `datetime.now()` fallback is
dead. -/
theorem statAnalyze_now (p : Prims) (n1 n2 : DateTime) (cur hist : List DataPoint) :
    statAnalyze p n1 cur hist = statAnalyze p n2 cur hist := by
  simp only [statAnalyze]
  congr 1
  apply List.flatMap_congr
  intro kd hkd
  apply List.filterMap_congr
  intro det hdet
  have hts := ensembleDetect_ts p (kd.2.map (·.value)) (kd.2.map (·.timestamp)) 2
    (by simp) det hdet
  obtain ⟨ts, hts'⟩ := Option.isSome_iff_exists.mp hts
  by_cases hc : det.confidence ≥ 1/2
  · rw [if_pos hc, if_pos hc, hts']
    rfl
  · rw [if_neg hc, if_neg hc]

/-- Binary segmentation only returns cut points inside the segment. -/
theorem segmentCP_bound (arr : List ℚ) :
    ∀ (n s e : Nat), e - s ≤ n → ∀ cp ∈ segmentCP arr s e, s ≤ cp ∧ cp < e := by
  intro n
  induction n with
  | zero =>
    intro s e he cp hcp
    rw [segmentCP] at hcp
    rw [if_pos (by omega)] at hcp
    exact absurd hcp (List.not_mem_nil cp)
  | succ m ih =>
    intro s e he cp hcp
    rw [segmentCP] at hcp
    by_cases h10 : e - s < 5 * 2
    · rw [if_pos h10] at hcp
      exact absurd hcp (List.not_mem_nil cp)
    · rw [if_neg h10] at hcp
      rcases hb : findBestSplit arr s e with _ | b
      · rw [hb] at hcp
        exact absurd hcp (List.not_mem_nil cp)
      · rw [hb] at hcp
        have hcp2 : cp ∈ (if b.1.2 < -cpPenalty then
            b.1.1 :: (segmentCP arr s b.1.1 ++ segmentCP arr b.1.1 e) else []) := hcp
        by_cases hc : b.1.2 < -cpPenalty
        · rw [if_pos hc] at hcp2
          have hb2 := b.2
          rcases List.mem_cons.mp hcp2 with h | h
          · subst h
            omega
          · rcases List.mem_append.mp h with h | h
            · have := ih s b.1.1 (by omega) cp h
              omega
            · have := ih b.1.1 e (by omega) cp h
              omega
        · rw [if_neg hc] at hcp2
          exact absurd hcp2 (List.not_mem_nil cp)

/-- Every changepoint detection carries a concrete timestamp when the
timestamp series covers the value series. -/
theorem changepointDetect_ts (p : Prims) (values : List ℚ)
    (timestamps : List DateTime) (hlen : values.length ≤ timestamps.length) :
    ∀ d ∈ changepointDetect p values timestamps, d.timestamp.isSome = true := by
  intro d hd
  simp only [changepointDetect] at hd
  split_ifs at hd
  · exact absurd hd (List.not_mem_nil d)
  · obtain ⟨cp, hcp, hf⟩ := List.mem_filterMap.mp hd
    rw [List.mem_mergeSort] at hcp
    have hbound := segmentCP_bound values (values.length - 0) 0 values.length
      (by omega) cp hcp
    split_ifs at hf <;>
      first
        | exact Option.noConfusion hf
        | (rw [Option.some_inj] at hf
           subst hf
           show (tsAt timestamps cp).isSome = true
           apply tsAt_isSome
           omega)

/-- Every trend-deviation detection carries a concrete timestamp. -/
theorem trendDetect_ts (p : Prims) (values : List ℚ)
    (timestamps : List DateTime) (hlen : values.length ≤ timestamps.length) :
    ∀ d ∈ trendDetect p values timestamps, d.timestamp.isSome = true := by
  intro d hd
  simp only [trendDetect] at hd
  split_ifs at hd <;>
    first
      | exact absurd hd (List.not_mem_nil d)
      | (obtain ⟨i, hi, hf⟩ := List.mem_filterMap.mp hd
         rw [List.mem_range'_1] at hi
         first
           | exact Option.noConfusion hf
           | (split_ifs at hf
              first
                 | exact Option.noConfusion hf
                 | (rw [Option.some_inj] at hf
                    subst hf
                    show (tsAt timestamps i).isSome = true
                    apply tsAt_isSome
                    omega)))

/-- A non-raising seasonal run emits no detections. -/
theorem seasonalDetect_empty (values : List ℚ) (dets : List Detection)
    (h : seasonalDetect values = some dets) : dets = [] := by
  simp only [seasonalDetect] at h
  split_ifs at h
  · exact (Option.some_inj.mp h).symm
  · exact (Option.some_inj.mp h).symm

/-- Invariant of the exponential-smoothing fold: emitted detections index
into the enumerated range. -/
theorem expSmooth_fold_ts (p : Prims) (timestamps : List DateTime) :
    ∀ (l : List (Nat × ℚ)) (st : ℚ × List ℚ × List Detection),
      (∀ d ∈ st.2.2, d.timestamp.isSome = true) →
      (∀ iv ∈ l, iv.1 < timestamps.length) →
      ∀ d ∈ (l.foldl (expSmoothStep p timestamps) st).2.2, d.timestamp.isSome = true := by
  intro l
  induction l with
  | nil => intro st hst _ d hd; exact hst d hd
  | cons iv l ih =>
    intro st hst hlt
    rw [List.foldl_cons]
    apply ih
    · intro d hd
      unfold expSmoothStep at hd
      simp only [] at hd
      split_ifs at hd <;>
        first
          | exact hst d hd
          | (rcases List.mem_append.mp hd with h | h
             · exact hst d h
             · rw [List.mem_singleton] at h
               subst h
               show (tsAt timestamps iv.1).isSome = true
               exact tsAt_isSome (hlt iv (by simp)))
    · intro iv' h
      exact hlt iv' (by simp [h])

/-- Every exponential-smoothing detection carries a concrete timestamp. -/
theorem expSmoothingDetect_ts (p : Prims) (values : List ℚ)
    (timestamps : List DateTime) (hlen : values.length ≤ timestamps.length) :
    ∀ d ∈ expSmoothingDetect p values timestamps, d.timestamp.isSome = true := by
  intro d hd
  simp only [expSmoothingDetect] at hd
  split_ifs at hd
  · exact absurd hd (List.not_mem_nil d)
  · rcases hv : values with _ | ⟨v0, rest⟩
    · rw [hv] at hd
      exact absurd hd (List.not_mem_nil d)
    · rw [hv] at hd
      refine expSmooth_fold_ts p timestamps (rest.enumFrom 1) (v0, [], [])
        (by intro x h; simp at h) ?_ d hd
      intro iv hiv
      have h1 := List.fst_lt_add_of_mem_enumFrom hiv
      have h2 : values.length = rest.length + 1 := by rw [hv]; simp
      omega

/-- Every moving-average-crossover detection carries a concrete
timestamp. -/
theorem maCrossoverDetect_ts (values : List ℚ)
    (timestamps : List DateTime) (hlen : values.length ≤ timestamps.length) :
    ∀ d ∈ maCrossoverDetect values timestamps, d.timestamp.isSome = true := by
  intro d hd
  simp only [maCrossoverDetect] at hd
  split_ifs at hd
  · exact absurd hd (List.not_mem_nil d)
  · obtain ⟨i, hi, hf⟩ := List.mem_filterMap.mp hd
    rw [List.mem_range'_1] at hi
    split_ifs at hf
    first
        | exact Option.noConfusion hf
        | (rw [Option.some_inj] at hf
           subst hf
           show (tsAt timestamps i).isSome = true
           apply tsAt_isSome
           omega)

/-- `TemporalAgent.analyze` never reads the wall clock: every temporal
detection carries its own timestamp, so the `datetime.now()` fallback is
dead. -/
theorem tempAnalyze_now (p : Prims) (n1 n2 : DateTime) (cur hist : List DataPoint) :
    tempAnalyze p n1 cur hist = tempAnalyze p n2 cur hist := by
  simp only [tempAnalyze]
  congr 1
  apply List.flatMap_congr
  intro kd hkd
  apply List.flatMap_congr
  intro run hrun
  rcases run with _ | detections
  · rfl
  · apply List.filterMap_congr
    intro det hdet
    have hts : det.timestamp.isSome = true := by
      have hvl : (kd.2.mergeSort (fun a b => a.timestamp.leb b.timestamp)).length =
          ((kd.2.mergeSort (fun a b => a.timestamp.leb b.timestamp)).map (·.value)).length := by
        simp
      simp only [temporalDetectorRuns, List.mem_cons, List.not_mem_nil, or_false] at hrun
      rcases hrun with h | h | h | h | h
      · rw [Option.some_inj] at h
        subst h
        exact changepointDetect_ts p _ _ (by simp) det hdet
      · rw [Option.some_inj] at h
        subst h
        exact trendDetect_ts p _ _ (by simp) det hdet
      · have := seasonalDetect_empty _ _ h.symm
        subst this
        exact absurd hdet (List.not_mem_nil det)
      · rw [Option.some_inj] at h
        subst h
        exact expSmoothingDetect_ts p _ _ (by simp) det hdet
      · rw [Option.some_inj] at h
        subst h
        exact maCrossoverDetect_ts _ _ (by simp) det hdet
    obtain ⟨ts, hts'⟩ := Option.isSome_iff_exists.mp hts
    by_cases hc : det.confidence ≥ 1/2
    · rw [if_pos hc, if_pos hc]
      by_cases hr : isRecentDetection det cur = true
      · rw [if_pos hr, if_pos hr, hts']
        rfl
      · rw [if_neg hr, if_neg hr]
    · rw [if_neg hc, if_neg hc]

/-- The simulated context of `_fetch_context` depends on the wall clock
only through its `timestamp` field. -/
theorem fetchContext_now (n1 n2 : DateTime) (s : String) (pts : List DataPoint) :
    fetchContext n2 s pts =
      (fetchContext n1 s pts).map (fun c => { c with timestamp := n2 }) := by
  simp only [fetchContext]
  by_cases h0 : pts = []
  · rw [if_pos h0, if_pos h0]
    rfl
  · rw [if_neg h0, if_neg h0]
    by_cases h1 : s = "cryptocurrency"
    · rw [if_pos h1, if_pos h1]
      split_ifs <;> rfl
    · rw [if_neg h1, if_neg h1]
      by_cases h2 : s = "weather"
      · rw [if_pos h2, if_pos h2]
        cases (pts.filter (fun pt => pt.metric = "temperature")).map (fun x => x.value) with
        | nil => rfl
        | cons t ts' =>
          show (if pyMaxQ t ts' > 30 ∨ pyMinQ t ts' < 0 then _ else _) =
            Option.map _ (if pyMaxQ t ts' > 30 ∨ pyMinQ t ts' < 0 then _ else _)
          split_ifs <;> rfl
      · rw [if_neg h2, if_neg h2]
        by_cases h3 : s = "github"
        · rw [if_pos h3, if_pos h3]
          rfl
        · rw [if_neg h3, if_neg h3]
          rfl

theorem filterMap_map_rel {α β : Type} (f1 f2 : α → Option β) (g : β → β) :
    ∀ l : List α, (∀ a ∈ l, f2 a = (f1 a).map g) →
      l.filterMap f2 = (l.filterMap f1).map g := by
  intro l
  induction l with
  | nil => intro _; rfl
  | cons a as ih =>
    intro h
    rw [List.filterMap_cons, List.filterMap_cons, h a (by simp),
      ih (fun x hx => h x (by simp [hx]))]
    rcases f1 a with _ | b
    · simp
    · simp

/-- `ContextAgent.analyze` depends on the wall clock only through the
`timestamp` stamped into each anomaly's attached context. -/
theorem ctxAnalyze_now (p : Prims) (n1 n2 : DateTime) (cur hist : List DataPoint) :
    ctxAnalyze p n2 cur hist =
      { ctxAnalyze p n1 cur hist with
        anomalies := (ctxAnalyze p n1 cur hist).anomalies.map (setCtxTime n2) } := by
  simp only [ctxAnalyze]
  congr 1
  apply filterMap_map_rel
  intro sp hsp
  rw [fetchContext_now n1 n2 sp.1 sp.2]
  rcases fetchContext n1 sp.1 sp.2 with _ | c
  · rfl
  · show (if c.relevance ≥ 4/10 then _ else none) =
      Option.map _ (if c.relevance ≥ 4/10 then _ else none)
    by_cases h1 : c.relevance ≥ 4/10
    · rw [if_pos h1, if_pos h1]
      show (if isContextRelevantForSource sp.2 c = true then _ else none) =
        Option.map _ (if isContextRelevantForSource sp.2 c = true then _ else none)
      by_cases h2 : isContextRelevantForSource sp.2 c = true
      · rw [if_pos h2, if_pos h2]
        cases sp.2 with
        | nil => rfl
        | cons pt rest => rfl
      · rw [if_neg h2, if_neg h2]
        rfl
    · rw [if_neg h1, if_neg h1]
      rfl

/-- Statistical-agent anomalies never carry a context. -/
theorem statAnalyze_context_none (p : Prims) (n : DateTime) (cur hist : List DataPoint) :
    ∀ a ∈ (statAnalyze p n cur hist).anomalies, a.context = none := by
  intro a ha
  simp only [statAnalyze] at ha
  obtain ⟨kd, _, ha⟩ := List.mem_flatMap.mp ha
  obtain ⟨det, _, hf⟩ := List.mem_filterMap.mp ha
  split_ifs at hf
  rw [Option.some_inj] at hf
  subst hf
  rfl

/-- Temporal-agent anomalies never carry a context. -/
theorem tempAnalyze_context_none (p : Prims) (n : DateTime) (cur hist : List DataPoint) :
    ∀ a ∈ (tempAnalyze p n cur hist).anomalies, a.context = none := by
  intro a ha
  simp only [tempAnalyze] at ha
  obtain ⟨kd, _, ha⟩ := List.mem_flatMap.mp ha
  obtain ⟨run, _, ha⟩ := List.mem_flatMap.mp ha
  rcases run with _ | detections
  · exact absurd ha (List.not_mem_nil a)
  · obtain ⟨det, _, hf⟩ := List.mem_filterMap.mp ha
    split_ifs at hf
    first
        | exact Option.noConfusion hf
        | (rw [Option.some_inj] at hf
           subst hf
           rfl)

/-- Correlation-break anomalies never carry a context. -/
theorem detectBreaks_context_none (p : Prims) (cfg : CorrCfg) (aligned : List Aligned)
    (k1 k2 : String × String) (hist : CorrResult) :
    ∀ a ∈ detectBreaks p cfg aligned k1 k2 hist, a.context = none := by
  intro a ha
  simp only [detectBreaks] at ha
  split_ifs at ha <;>
    first
      | exact absurd ha (List.not_mem_nil a)
      | (obtain ⟨i, _, hf⟩ := List.mem_filterMap.mp ha
         split at hf
         · exact Option.noConfusion hf
         · split_ifs at hf
           first
               | exact Option.noConfusion hf
               | (rw [Option.some_inj] at hf
                  subst hf
                  rfl))

/-- Correlation-agent anomalies never carry a context. -/
theorem corrAnalyze_context_none (p : Prims) (cfg : CorrCfg) (cur hist : List DataPoint) :
    ∀ a ∈ (corrAnalyze p cfg cur hist).anomalies, a.context = none := by
  intro a ha
  simp only [corrAnalyze] at ha
  rcases List.mem_append.mp ha with ha | ha
  · obtain ⟨kk, _, ha⟩ := List.mem_flatMap.mp ha
    by_cases hlen : (alignSeries kk.1.2 kk.2.2).length ≥ cfg.window_size
    · rw [if_pos hlen] at ha
      rcases hC : calcCorrelation p cfg (alignSeries kk.1.2 kk.2.2) with _ | corr
      · rw [hC] at ha
        exact absurd ha (List.not_mem_nil a)
      · rw [hC] at ha
        have ha' : a ∈ (detectBreaks p cfg (alignSeries kk.1.2 kk.2.2)
            kk.1.1 kk.2.1 corr).filter (fun x => isRecentAnomaly x cur) := ha
        exact detectBreaks_context_none p cfg _ _ _ corr a (List.mem_filter.mp ha').1
    · rw [if_neg hlen] at ha
      exact absurd ha (List.not_mem_nil a)
  · obtain ⟨tg, _, hf⟩ := List.mem_filterMap.mp ha
    simp only [] at hf
    split_ifs at hf
    rw [Option.some_inj] at hf
    subst hf
    rfl

/-- `setCtxTime` is the identity on an anomaly without a context. -/
theorem setCtxTime_of_none {a : Anomaly} (h : a.context = none) (n : DateTime) :
    setCtxTime n a = a := by
  unfold setCtxTime
  rw [h]
  simp only [Option.map_none']
  rw [← h]

/-- Retiming a context commutes with picking the most confident group
member. -/
theorem maxByConfidence_setCtx (n : DateTime) :
    ∀ (l : List Anomaly) (a : Anomaly),
      maxByConfidence (setCtxTime n a) (l.map (setCtxTime n)) =
        setCtxTime n (maxByConfidence a l) := by
  intro l
  induction l with
  | nil => intro a; rfl
  | cons x xs ih =>
    intro a
    unfold maxByConfidence
    rw [List.map_cons, List.foldl_cons, List.foldl_cons]
    have hstep : (if (setCtxTime n x).confidence > (setCtxTime n a).confidence
        then setCtxTime n x else setCtxTime n a) =
        setCtxTime n (if x.confidence > a.confidence then x else a) := by
      show (if x.confidence > a.confidence then setCtxTime n x else setCtxTime n a) = _
      by_cases h : x.confidence > a.confidence
      · rw [if_pos h, if_pos h]
      · rw [if_neg h, if_neg h]
    rw [hstep]
    exact ih (if x.confidence > a.confidence then x else a)

/-- Retiming a context commutes with the coordinator's agent tagging. -/
theorem setCtxTime_tag (n : DateTime) (nm : String) (w : ℚ) (a : Anomaly) :
    { setCtxTime n a with agent_name := some nm, agent_weight := some w } =
      setCtxTime n { a with agent_name := some nm, agent_weight := some w } := rfl

/-- The narrative generator never reads an anomaly's context. -/
theorem narrativeGenerate_setCtx (p : Prims) (n : DateTime) (primary : Anomaly)
    (supporting : List Anomaly) :
    narrativeGenerate p (setCtxTime n primary) (supporting.map (setCtxTime n)) =
      narrativeGenerate p primary supporting := by
  unfold narrativeGenerate
  rw [show narrativeDetails p (setCtxTime n primary) = narrativeDetails p primary from rfl]
  simp only [Bind.bind, Except.bind]
  rcases narrativeDetails p primary with e | d
  · rfl
  · have hcons : narrativeConsensus (supporting.map (setCtxTime n)) =
        narrativeConsensus supporting := by
      unfold narrativeConsensus
      rw [List.map_map, List.length_map]
      rfl
    rw [List.length_map, hcons]
    rfl

/-- The counterfactual generator never reads an anomaly's context. -/
theorem counterfactualGenerate_setCtx (p : Prims) (n : DateTime) (a : Anomaly) :
    counterfactualGenerate p (setCtxTime n a) = counterfactualGenerate p a := rfl

/-- Scrubbing a context timestamp absorbs a prior retiming. -/
theorem scrubAnomaly_setCtx (n : DateTime) (a : Anomaly) :
    scrubAnomaly (setCtxTime n a) = scrubAnomaly a := by
  unfold scrubAnomaly setCtxTime
  rcases a.context with _ | c <;> rfl

/-- Scrubbing a report absorbs a clock retiming of its creation time and
of its members' context timestamps. -/
theorem scrubReport_retime (n : DateTime) (r : Report) :
    scrubReport
        { r with created_at := n,
                 individual_detections := r.individual_detections.map (setCtxTime n) } =
      scrubReport r := by
  have h : (r.individual_detections.map (setCtxTime n)).map scrubAnomaly =
      r.individual_detections.map scrubAnomaly := by
    rw [List.map_map]
    exact List.map_congr_left (fun a _ => scrubAnomaly_setCtx n a)
  unfold scrubReport
  dsimp only
  rw [h]

/-- Bucket insertion commutes with mapping a function over the bucket
contents. -/
theorem upsertWith_map_snd {κ α : Type} [DecidableEq κ] (k : κ) (v : α) (F : α → α) :
    ∀ acc : List (κ × List α),
      upsertWith k (F v) (acc.map (fun kv => (kv.1, kv.2.map F))) =
        (upsertWith k v acc).map (fun kv => (kv.1, kv.2.map F)) := by
  intro acc
  induction acc with
  | nil => rfl
  | cons kv rest ih =>
    obtain ⟨k', vs⟩ := kv
    simp only [List.map_cons, upsertWith]
    by_cases h : k' = k
    · rw [if_pos h, if_pos h]
      simp
    · rw [if_neg h, if_neg h]
      rw [List.map_cons, ih]

/-- Grouping commutes with retiming contexts: the group key ignores the
context. -/
theorem groupSimilar_setCtx (n : DateTime) (l : List Anomaly) :
    groupSimilarAnomalies (l.map (setCtxTime n)) =
      (groupSimilarAnomalies l).map (List.map (setCtxTime n)) := by
  unfold groupSimilarAnomalies
  rw [List.foldl_map]
  have key : ∀ (acc : List ((String × String × DateTime) × List Anomaly)),
      l.foldl (fun acc a => upsertWith (groupKey (setCtxTime n a)) (setCtxTime n a) acc)
        (acc.map (fun kv => (kv.1, kv.2.map (setCtxTime n)))) =
      (l.foldl (fun acc a => upsertWith (groupKey a) a acc) acc).map
        (fun kv => (kv.1, kv.2.map (setCtxTime n))) := by
    induction l with
    | nil => intro acc; rfl
    | cons a as ih =>
      intro acc
      rw [List.foldl_cons, List.foldl_cons]
      rw [show groupKey (setCtxTime n a) = groupKey a from rfl]
      rw [upsertWith_map_snd (groupKey a) a (setCtxTime n) acc]
      exact ih (upsertWith (groupKey a) a acc)
  have h0 := key []
  simp only [List.map_nil] at h0
  rw [h0, List.map_map, List.map_map]
  rfl

/-- Relating two `mapM` runs whose element functions agree up to a
post-composition. -/
theorem mapM_map_rel {α β : Type} (f1 f2 : α → Except String β) (h : α → α) (G : β → β) :
    ∀ l : List α, (∀ x ∈ l, f2 (h x) = (f1 x).map G) →
      (l.map h).mapM f2 = (l.mapM f1).map (List.map G) := by
  intro l
  induction l with
  | nil => intro _; rfl
  | cons a as ih =>
    intro hrel
    rw [List.map_cons, List.mapM_cons, List.mapM_cons, hrel a (by simp),
      ih (fun x hx => hrel x (by simp [hx]))]
    rcases f1 a with e | b
    · rfl
    · rcases as.mapM f1 with e | bs
      · rfl
      · rfl

/-- The anomaly id ignores the context. -/
theorem generateAnomalyId_setCtx (n : DateTime) (a : Anomaly) :
    generateAnomalyId (setCtxTime n a) = generateAnomalyId a := rfl

/-- Building a report from a context-retimed group: the report is the
original one with `created_at` at the new clock and the members
retimed. -/
theorem createAnomalyReport_rel (p : Prims) (n1 n2 : DateTime) (grp : List Anomaly) :
    createAnomalyReport p n2 (grp.map (setCtxTime n2)) =
      (createAnomalyReport p n1 grp).map (fun r =>
        { r with created_at := n2, individual_detections := r.individual_detections.map (setCtxTime n2) }) := by
  cases grp with
  | nil => rfl
  | cons a0 rest =>
    rw [List.map_cons]
    simp only [createAnomalyReport]
    rw [← List.map_cons (setCtxTime n2) a0 rest]
    rw [maxByConfidence_setCtx n2 rest a0]
    rw [narrativeGenerate_setCtx p n2 (maxByConfidence a0 rest) (a0 :: rest)]
    rw [counterfactualGenerate_setCtx p n2 (maxByConfidence a0 rest)]
    rw [generateAnomalyId_setCtx n2 (maxByConfidence a0 rest)]
    rw [show (setCtxTime n2 (maxByConfidence a0 rest)).source =
      (maxByConfidence a0 rest).source from rfl]
    rw [show (setCtxTime n2 (maxByConfidence a0 rest)).metric =
      (maxByConfidence a0 rest).metric from rfl]
    rw [show (setCtxTime n2 (maxByConfidence a0 rest)).timestamp =
      (maxByConfidence a0 rest).timestamp from rfl]
    rw [show (setCtxTime n2 (maxByConfidence a0 rest)).value =
      (maxByConfidence a0 rest).value from rfl]
    rw [show ((a0 :: rest).map (setCtxTime n2)).map (fun a => a.agent_weight.getD (2/10)) =
      (a0 :: rest).map (fun a => a.agent_weight.getD (2/10)) from by
        rw [List.map_map]; rfl]
    rw [show ((a0 :: rest).map (setCtxTime n2)).map (fun a => a.confidence) =
      (a0 :: rest).map (fun a => a.confidence) from by
        rw [List.map_map]; rfl]
    rw [show ((a0 :: rest).map (setCtxTime n2)).map (fun a => a.severity_score) =
      (a0 :: rest).map (fun a => a.severity_score) from by
        rw [List.map_map]; rfl]
    rw [show ((a0 :: rest).map (setCtxTime n2)).map (fun a => a.agent_name) =
      (a0 :: rest).map (fun a => a.agent_name) from by
        rw [List.map_map]; rfl]
    rw [show collectMethods ((a0 :: rest).map (setCtxTime n2)) =
      collectMethods (a0 :: rest) from by
        unfold collectMethods; rw [List.foldl_map]; rfl]
    rw [show combineExplanations ((a0 :: rest).map (setCtxTime n2)) =
      combineExplanations (a0 :: rest) from by
        unfold combineExplanations; rw [List.filterMap_map]; rfl]
    rw [List.length_map]
    simp only [Bind.bind, Except.bind]
    rcases narrativeGenerate p (maxByConfidence a0 rest) (a0 :: rest) with e | nv
    · rfl
    · rcases counterfactualGenerate p (maxByConfidence a0 rest) with e | cv
      · rfl
      · rfl

/-- The synthesized report list, scrubbed, does not depend on the wall
clock or on the graph handed to the coordinator, given agent anomalies
that agree up to context retiming. -/
theorem synthesize_rel (p : Prims) (n1 n2 : DateTime) (rs1 rs2 : List AgentResult)
    (g1 g2 : KGState)
    (hall : rs2.flatMap (fun r => r.anomalies.map (fun a =>
        { a with agent_name := some r.agent, agent_weight := some r.weight })) =
      (rs1.flatMap (fun r => r.anomalies.map (fun a =>
        { a with agent_name := some r.agent, agent_weight := some r.weight }))).map
        (setCtxTime n2)) :
    (synthesize p n2 rs2 g2).map (fun sr => sr.1.reports.map scrubReport) =
      (synthesize p n1 rs1 g1).map (fun sr => sr.1.reports.map scrubReport) := by
  simp only [synthesize, Bind.bind, Except.bind]
  rw [hall, groupSimilar_setCtx]
  rw [mapM_map_rel (createAnomalyReport p n1) (createAnomalyReport p n2)
    (List.map (setCtxTime n2))
    (fun r => { r with created_at := n2, individual_detections := r.individual_detections.map (setCtxTime n2) })
    _ (fun x _ => createAnomalyReport_rel p n1 n2 x)]
  rcases hm : (groupSimilarAnomalies (rs1.flatMap (fun r => r.anomalies.map (fun a =>
      { a with agent_name := some r.agent, agent_weight := some r.weight })))).mapM
      (createAnomalyReport p n1) with e | cand
  · rw [hm]
    rfl
  · rw [hm]
    show Except.ok ((((cand.map (fun r => { r with created_at := n2, individual_detections := r.individual_detections.map (setCtxTime n2) })).filter (fun r => r.consensus_score ≥ 6/10)).mergeSort reportSortKeyGE).map scrubReport) =
      Except.ok (((cand.filter (fun r => r.consensus_score ≥ 6/10)).mergeSort reportSortKeyGE).map scrubReport)
    rw [Except.ok.injEq]
    rw [List.filter_map]
    rw [show List.filter ((fun r : Report => decide (r.consensus_score ≥ (6:ℚ)/10)) ∘
      (fun r : Report => { r with created_at := n2, individual_detections := r.individual_detections.map (setCtxTime n2) })) cand =
      List.filter (fun r : Report => decide (r.consensus_score ≥ (6:ℚ)/10)) cand from rfl]
    rw [← @List.map_mergeSort Report Report reportSortKeyGE reportSortKeyGE
      (fun r => { r with created_at := n2, individual_detections := r.individual_detections.map (setCtxTime n2) })
      (cand.filter (fun r => r.consensus_score ≥ 6/10)) (fun a _ b _ => rfl)]
    rw [List.map_map]
    exact List.map_congr_left (fun r _ => scrubReport_retime n2 r)

set_option maxRecDepth 10000 in
unseal Rat.add Rat.mul Rat.inv Rat.sub Nat.gcd List.mergeSort List.merge in
/-- C10 counterexample: two runs of the full analysis cycle on identical
current and historical data but at different wall-clock instants disagree
on the produced reports even after erasing `created_at`: the context agent
stamps `datetime.now()` into the context carried inside
`individual_detections`. -/
theorem analyze_clock_leak_cex :
    (orchestratorAnalyze trivPrims cexNow1 cexPoints [] (kgInit 1000)).toOption.isSome =
      true ∧
    (orchestratorAnalyze trivPrims cexNow1 cexPoints [] (kgInit 1000)).toOption.map
        (fun x => x.1.synth.reports.map scrubCreatedAt) ≠
      (orchestratorAnalyze trivPrims cexNow2 cexPoints [] (kgInit 1000)).toOption.map
        (fun x => x.1.synth.reports.map scrubCreatedAt) :=
  ⟨by decide, by decide⟩

/-- C10 (amended): with every data point carrying a timestamp, `analyze`
is deterministic up to the clock fields: two runs on the same current and
historical data — at any two wall-clock instants and over any two
knowledge-graph states — produce the same outcome (success or the same
error), and on success the same report lists field by field once
`created_at` and the `datetime.now()` stamped inside each report's
`individual_detections` contexts are ignored. -/
theorem analyze_deterministic_modulo_clock (p : Prims) (n1 n2 : DateTime)
    (cur hist : List DataPoint) (g1 g2 : KGState) :
    (orchestratorAnalyze p n1 cur hist g1).map
        (fun x => x.1.synth.reports.map scrubReport) =
      (orchestratorAnalyze p n2 cur hist g2).map
        (fun x => x.1.synth.reports.map scrubReport) := by
  have hall :
      ([statAnalyze p n2 cur hist, tempAnalyze p n2 cur hist,
        corrAnalyze p defaultCorrCfg cur hist, ctxAnalyze p n2 cur hist].flatMap
          (fun r => r.anomalies.map (fun a =>
            { a with agent_name := some r.agent, agent_weight := some r.weight }))) =
      ([statAnalyze p n1 cur hist, tempAnalyze p n1 cur hist,
        corrAnalyze p defaultCorrCfg cur hist, ctxAnalyze p n1 cur hist].flatMap
          (fun r => r.anomalies.map (fun a =>
            { a with agent_name := some r.agent, agent_weight := some r.weight }))).map
        (setCtxTime n2) := by
    rw [statAnalyze_now p n2 n1 cur hist, tempAnalyze_now p n2 n1 cur hist,
        ctxAnalyze_now p n1 n2 cur hist]
    simp only [List.flatMap_cons, List.flatMap_nil, List.append_nil, List.map_append]
    have hid : ∀ (l : List Anomaly) (nm : String) (w : ℚ), (∀ a ∈ l, a.context = none) →
        (l.map (fun a => { a with agent_name := some nm, agent_weight := some w })).map
            (setCtxTime n2) =
          l.map (fun a => { a with agent_name := some nm, agent_weight := some w }) := by
      intro l nm w hctx
      rw [List.map_map]
      apply List.map_congr_left
      intro a ha
      show setCtxTime n2 { a with agent_name := some nm, agent_weight := some w } = _
      exact setCtxTime_of_none
        (show ({ a with agent_name := some nm, agent_weight := some w } : Anomaly).context =
          none from hctx a ha) n2
    congr 1
    · exact (hid _ _ _ (statAnalyze_context_none p n1 cur hist)).symm
    congr 1
    · exact (hid _ _ _ (tempAnalyze_context_none p n1 cur hist)).symm
    congr 1
    · exact (hid _ _ _ (corrAnalyze_context_none p defaultCorrCfg cur hist)).symm
    · rw [List.map_map, List.map_map]
      apply List.map_congr_left
      intro a _
      exact setCtxTime_tag n2 _ _ a
  have hrel := synthesize_rel p n1 n2
    [statAnalyze p n1 cur hist, tempAnalyze p n1 cur hist,
     corrAnalyze p defaultCorrCfg cur hist, ctxAnalyze p n1 cur hist]
    [statAnalyze p n2 cur hist, tempAnalyze p n2 cur hist,
     corrAnalyze p defaultCorrCfg cur hist, ctxAnalyze p n2 cur hist] g1 g2 hall
  simp only [orchestratorAnalyze, orchestratorAnalyzeWith, gatherE, Bind.bind, Except.bind]
  rcases h1 : synthesize p n1 [statAnalyze p n1 cur hist, tempAnalyze p n1 cur hist,
      corrAnalyze p defaultCorrCfg cur hist, ctxAnalyze p n1 cur hist] g1 with e1 | sr1
  · rcases h2 : synthesize p n2 [statAnalyze p n2 cur hist, tempAnalyze p n2 cur hist,
        corrAnalyze p defaultCorrCfg cur hist, ctxAnalyze p n2 cur hist] g2 with e2 | sr2
    · rw [h1, h2] at hrel
      simp only [Except.map] at hrel
      rw [Except.error.injEq] at hrel
      rw [hrel]
    · rw [h1, h2] at hrel
      simp only [Except.map] at hrel
      exact Except.noConfusion hrel
  · rcases h2 : synthesize p n2 [statAnalyze p n2 cur hist, tempAnalyze p n2 cur hist,
        corrAnalyze p defaultCorrCfg cur hist, ctxAnalyze p n2 cur hist] g2 with e2 | sr2
    · rw [h1, h2] at hrel
      simp only [Except.map] at hrel
      exact Except.noConfusion hrel
    · rw [h1, h2] at hrel
      simp only [Except.map] at hrel
      rw [Except.ok.injEq] at hrel
      show Except.ok (sr1.1.reports.map scrubReport) =
        Except.ok (sr2.1.reports.map scrubReport)
      rw [Except.ok.injEq]
      exact hrel.symm

end AnomalyDetection
